import Mathlib

/-!
# lolcat: the streaming frame reader

A shallow embedding of `Pixel.hpp`, `Frame.hpp`, `TextFileReader.hpp` and the
frame retrieval loop of `Main.cpp`, followed by theorems about it.

Conventions of the embedding.

* `T` is `int`, the instantiation `TextFileReader<int>` / `Frame<int>` of `Main.cpp`.
  An `int` is an `Int` kept in the range of 32 bits by `wrapInt32`.
* `unsigned int` members are `Nat` reduced modulo `2^32` where they are incremented.
* A `double` is a `CDouble`: a sign, an odd (or zero) mantissa and a binary
  exponent, or an infinity, or a NaN.  Narrowing to `float` and widening back is
  `CDouble.toFloat`.
* `std::ifstream` is an `IfStream`: the bytes of the file, the read position, the
  flags `eofbit` and `failbit`, and whether `failbit | badbit` is in the
  exception mask.  When the mask is on, setting `failbit` is the exception
  `Failure.ios`.  Read errors of the device (`badbit`) are not modelled.
* A function that can throw returns `Except Failure _`; the two loops carry a
  fuel argument and return `none` only when the fuel is too small.
-/

namespace Lolcat

deriving instance DecidableEq for Except

/-! ## C library: character classes, `atoi`, `atof` -/

/-- C `isspace` in the "C" locale. -/
def isSpaceC (c : Char) : Bool :=
  c = ' ' || c = '\t' || c = '\n' || c = '\x0b' || c = '\x0c' || c = '\r'

/-- The value of a decimal digit character, if it is one. -/
def digitVal (c : Char) : Option Nat :=
  if '0' ≤ c ∧ c ≤ '9' then some (c.toNat - 48) else none

/-- The value of a hexadecimal digit character, if it is one. -/
def hexVal (c : Char) : Option Nat :=
  if '0' ≤ c ∧ c ≤ '9' then some (c.toNat - 48)
  else if 'a' ≤ c ∧ c ≤ 'f' then some (c.toNat - 87)
  else if 'A' ≤ c ∧ c ≤ 'F' then some (c.toNat - 55)
  else none

/-- Reads the longest run of decimal digits: returns the accumulated value
(starting from `acc`), the number of digits read and the unread rest. -/
def readDigits : List Char → Nat → Nat → Nat × Nat × List Char
  | [], acc, n => (acc, n, [])
  | c :: cs, acc, n =>
    match digitVal c with
    | some d => readDigits cs (10 * acc + d) (n + 1)
    | none => (acc, n, c :: cs)

/-- Reads the longest run of hexadecimal digits, like `readDigits`. -/
def readHexDigits : List Char → Nat → Nat → Nat × Nat × List Char
  | [], acc, n => (acc, n, [])
  | c :: cs, acc, n =>
    match hexVal c with
    | some d => readHexDigits cs (16 * acc + d) (n + 1)
    | none => (acc, n, c :: cs)

/-- Drops leading white space, as `strtol` and `strtod` do. -/
def skipSpaces : List Char → List Char
  | [] => []
  | c :: cs => if isSpaceC c then skipSpaces cs else c :: cs

/-- Reads an optional sign: `true` for a minus sign. -/
def readSign : List Char → Bool × List Char
  | '-' :: cs => (true, cs)
  | '+' :: cs => (false, cs)
  | cs => (false, cs)

/-- Two's complement reduction of an integer to the range of a 32-bit `int`. -/
def wrapInt32 (z : Int) : Int := (z + 2 ^ 31) % 2 ^ 32 - 2 ^ 31

/-- The call `strtol(s, NULL, 10)` for a 64-bit `long`: white space, an optional sign,
the longest run of digits (0 when there is none), clamped to the range of
`long` as the C library does on overflow. -/
def strtol10 (s : List Char) : Int :=
  let (neg, rest) := readSign (skipSpaces s)
  let (v, _, _) := readDigits rest 0 0
  if neg then max (-(v : Int)) (-(2 ^ 63)) else min (v : Int) (2 ^ 63 - 1)

/-- C `atoi`: `(int) strtol(s, NULL, 10)`; the value of the digits whenever it
fits an `int`. -/
def atoi (s : List Char) : Int := wrapInt32 (strtol10 s)

/-- A C floating-point value: `finite neg man exp` is `(-1)^neg * man * 2^exp`,
kept canonical (`man` odd, or `man = 0` and `exp = 0`), so that two values are
the same number exactly when they are the same term (up to the sign of zero). -/
inductive CDouble
  | finite (neg : Bool) (man : Nat) (exp : Int)
  | inf (neg : Bool)
  | nan
  deriving DecidableEq, Repr

/-- Number of binary digits of `n` (loop bounded by `fuel`). -/
def bitLengthAux : Nat → Nat → Nat
  | 0, _ => 0
  | fuel + 1, n => if n = 0 then 0 else bitLengthAux fuel (n / 2) + 1

/-- Number of binary digits of `n`. -/
def bitLength (n : Nat) : Nat := bitLengthAux n n

/-- Removes the trailing zero bits of a mantissa, raising the exponent. -/
def stripZeroBits : Nat → Nat → Int → Nat × Int
  | 0, m, e => (m, e)
  | fuel + 1, m, e =>
    if m % 2 = 0 ∧ m ≠ 0 then stripZeroBits fuel (m / 2) (e + 1) else (m, e)

/-- The canonical term for `(-1)^neg * m * 2^e`. -/
def CDouble.ofScaled (neg : Bool) (m : Nat) (e : Int) : CDouble :=
  if m = 0 then .finite neg 0 0
  else
    let (m1, e1) := stripZeroBits m m e
    .finite neg m1 e1

/-- IEEE 754 round-to-nearest-even of the positive rational `num / den` to a
binary format with `prec` significant bits whose least and greatest unit in the
last place are `2^eMin` and `2^eMax`; too large a value gives an infinity. -/
def roundBinary (prec : Nat) (eMin eMax : Int) (neg : Bool) (num den : Nat) : CDouble :=
  if num = 0 ∨ den = 0 then .finite neg 0 0
  else
    let e0 : Int := (bitLength num : Int) - (bitLength den : Int) - (prec : Int)
    let q0 := if e0 < 0 then num * 2 ^ (-e0).toNat / den else num / (den * 2 ^ e0.toNat)
    let e1 : Int := if 2 ^ prec ≤ q0 then e0 + 1 else e0
    let e : Int := max e1 eMin
    let n := if e < 0 then num * 2 ^ (-e).toNat else num
    let d := if e < 0 then den else den * 2 ^ e.toNat
    let q := n / d
    let r := n % d
    let q1 := if d < 2 * r ∨ (2 * r = d ∧ q % 2 = 1) then q + 1 else q
    if eMax < e ∨ (e = eMax ∧ 2 ^ prec ≤ q1) then .inf neg
    else CDouble.ofScaled neg q1 e

/-- Rounding to IEEE 754 binary64, the `double` of the platform. -/
def roundDouble (neg : Bool) (num den : Nat) : CDouble :=
  roundBinary 53 (-1074) 971 neg num den

/-- The conversion `double -> float -> double`: rounding to IEEE 754 binary32
(the widening back is exact). -/
def CDouble.toFloat : CDouble → CDouble
  | .finite neg m e =>
    if e < 0 then roundBinary 24 (-149) 104 neg m (2 ^ (-e).toNat)
    else roundBinary 24 (-149) 104 neg (m * 2 ^ e.toNat) 1
  | .inf neg => .inf neg
  | .nan => .nan

/-- Positive zero, the value of the literals `0.0` and `0.0f`. -/
def CDouble.zero : CDouble := .finite false 0 0

/-- Does `s` start with the lower-case word `p`, ignoring case? -/
def hasPrefixCI (s p : List Char) : Bool := (s.take p.length).map Char.toLower == p

/-- The optional exponent part of a number: the letter `lo` (or its capital `up`),
an optional sign and at least one decimal digit; 0 when there is no such part. -/
def readExponent (lo up : Char) : List Char → Int
  | [] => 0
  | c :: cs =>
    if c = lo ∨ c = up then
      let (eneg, r) := readSign cs
      let (ev, n, _) := readDigits r 0 0
      if n = 0 then 0 else if eneg then -(ev : Int) else (ev : Int)
    else 0

/-- The decimal form of `strtod`: digits with an optional `.` and an optional
exponent; positive zero when no digit is found. -/
def strtodDecimal (neg : Bool) (s : List Char) : CDouble :=
  let (ip, n1, r1) := readDigits s 0 0
  let (m, n2, r2) :=
    match r1 with
    | '.' :: r => readDigits r ip 0
    | _ => (ip, 0, r1)
  if n1 + n2 = 0 then CDouble.zero
  else
    let e10 : Int := readExponent 'e' 'E' r2 - (n2 : Int)
    if e10 < 0 then roundDouble neg m (10 ^ (-e10).toNat)
    else roundDouble neg (m * 10 ^ e10.toNat) 1

/-- The hexadecimal form of `strtod` (the text after `0x`): hexadecimal digits
with an optional `.` and an optional binary exponent `p`; `none` when no
hexadecimal digit follows the `0x`. -/
def strtodHex (neg : Bool) (s : List Char) : Option CDouble :=
  let (ip, n1, r1) := readHexDigits s 0 0
  let (m, n2, r2) :=
    match r1 with
    | '.' :: r => readHexDigits r ip 0
    | _ => (ip, 0, r1)
  if n1 + n2 = 0 then none
  else
    let e2 : Int := readExponent 'p' 'P' r2 - 4 * (n2 : Int)
    if e2 < 0 then some (roundDouble neg m (2 ^ (-e2).toNat))
    else some (roundDouble neg (m * 2 ^ e2.toNat) 1)

/-- C `strtod(s, NULL)` (C99): white space, an optional sign, then `inf`,
`nan`, a hexadecimal or a decimal floating constant; positive zero when no
conversion can be made. -/
def strtod (s : List Char) : CDouble :=
  let (neg, r) := readSign (skipSpaces s)
  if hasPrefixCI r ['i', 'n', 'f'] then .inf neg
  else if hasPrefixCI r ['n', 'a', 'n'] then .nan
  else
    match r with
    | '0' :: x :: h =>
      if x = 'x' ∨ x = 'X' then
        match strtodHex neg h with
        | some v => v
        | none => strtodDecimal neg r
      else strtodDecimal neg r
    | _ => strtodDecimal neg r

/-- C `atof`: `strtod(s, NULL)`. -/
def atof (s : List Char) : CDouble := strtod s

/-! ## Pixel.hpp -/

/-- The class `Pixel<int>`: the members `x_`, `y_`, `c_`. -/
structure Pixel where
  x_ : Int
  y_ : Int
  c_ : Int
  deriving DecidableEq, Repr

/-- The constructor `Pixel::Pixel()`. -/
def Pixel.default : Pixel := { x_ := 0, y_ := 0, c_ := 0 }

/-- The accessor `Pixel::x`. -/
def Pixel.x (p : Pixel) : Int := p.x_

/-- The accessor `Pixel::y`. -/
def Pixel.y (p : Pixel) : Int := p.y_

/-- The accessor `Pixel::c`. -/
def Pixel.c (p : Pixel) : Int := p.c_

/-- The accessor `Pixel::xy`: `static_cast<T>((256 * y_) + x_)`, computed in `int`. -/
def Pixel.xy (p : Pixel) : Int := wrapInt32 (256 * p.y_ + p.x_)

/-! ## std::map with `unsigned int` keys -/

/-- The assignment `m[k] = v` on a `std::map<unsigned int, V>`, held as the list of its entries
in increasing key order: overwrites the entry of `k` or inserts it in place. -/
def mapSet {V : Type} (k : Nat) (v : V) : List (Nat × V) → List (Nat × V)
  | [] => [(k, v)]
  | (k1, v1) :: rest =>
    if k < k1 then (k, v) :: (k1, v1) :: rest
    else if k = k1 then (k, v) :: rest
    else (k1, v1) :: mapSet k v rest

/-! ## Frame.hpp -/

/-- The class `Frame<int>`: the members `pixels_`, `time_`, `runningTime_`. -/
structure Frame where
  pixels_ : List (Nat × Pixel)
  time_ : CDouble
  runningTime_ : CDouble
  deriving DecidableEq, Repr

/-- The constructor `Frame::Frame()`: an empty map, `time_(0.0f)`, `runningTime_(0.0f)`. -/
def Frame.default : Frame :=
  { pixels_ := [], time_ := CDouble.zero, runningTime_ := CDouble.zero }

/-- The accessor `Frame::getPixels`. -/
def Frame.getPixels (f : Frame) : List (Nat × Pixel) := f.pixels_

/-- The accessor `Frame::getTime`. -/
def Frame.getTime (f : Frame) : CDouble := f.time_

/-- The accessor `Frame::getRunningTime`. -/
def Frame.getRunningTime (f : Frame) : CDouble := f.runningTime_

/-- The setter `Frame::setPixel`: `pixels_[key] = pixel`. -/
def Frame.setPixel (f : Frame) (key : Nat) (pixel : Pixel) : Frame :=
  { f with pixels_ := mapSet key pixel f.pixels_ }

/-- The setter `Frame::setTime(float const time)`: the `double` argument of the caller is
narrowed to the `float` parameter, then stored in the `double` member. -/
def Frame.setTime (f : Frame) (time : CDouble) : Frame :=
  { f with time_ := time.toFloat }

/-- The setter `Frame::setRunningTime(float const runningTime)`, like `setTime`. -/
def Frame.setRunningTime (f : Frame) (runningTime : CDouble) : Frame :=
  { f with runningTime_ := runningTime.toFloat }

/-! ## std::ifstream -/

/-- What the reader can throw or die of. -/
inductive Failure
  /-- The `std::ios_base::failure` raised by the stream: `failbit` was set while
  `failbit` is in the exception mask. -/
  | ios
  /-- The `std::ifstream::failure` thrown by `getFrame`, whose message is
  "Malformed data file: Missing meta-data string at line: " followed by the
  number. -/
  | missingMetadata (lineNumber : Nat)
  /-- A failed `assert(in_.is_open())`. -/
  | assertion
  /-- A call of `std::exit` with this status. -/
  | exit (status : Nat)
  deriving DecidableEq, Repr

/-- The state of the `std::ifstream in_`: whether a file is open, whether
`failbit | badbit` is in the exception mask, the bytes of the file, the read
position and the flags `eofbit` and `failbit`. -/
structure IfStream where
  isOpen : Bool
  exceptions : Bool
  data : List Char
  pos : Nat
  eofbit : Bool
  failbit : Bool
  deriving DecidableEq, Repr

/-- The call `in_.good()`: no flag is set. -/
def IfStream.good (s : IfStream) : Bool := !s.eofbit && !s.failbit

/-- The call `setstate(state)`, `state` made of `eofbit` and `failbit`: throws
when afterwards `failbit` is set and in the exception mask. -/
def IfStream.setstate (s : IfStream) (eof fail : Bool) : Except Failure IfStream :=
  if s.exceptions && (s.failbit || fail) then .error .ios
  else .ok { s with eofbit := s.eofbit || eof, failbit := s.failbit || fail }

/-- The bytes not read yet (none when no file is open). -/
def IfStream.unread (s : IfStream) : List Char :=
  if s.isOpen then s.data.drop s.pos else []

/-- The call `in_.peek()`: the sentry of an input function sets `failbit` when
the stream is not `good()`, in particular when `eofbit` is already set (C++
standard, istream.sentry: "if is.good() is false, calls is.setstate(failbit)");
otherwise looking at the next byte sets `eofbit` when there is none. -/
def IfStream.peek (s : IfStream) : Except Failure IfStream :=
  if s.good then
    match s.unread with
    | [] => s.setstate true false
    | _ :: _ => .ok s
  else s.setstate false true

/-- What `std::getline` extracts from the unread bytes: the line without its
newline, the number of bytes consumed (the newline included), and whether the
end of the file was hit before a newline. -/
def splitLine : List Char → List Char × Nat × Bool
  | [] => ([], 0, true)
  | c :: cs =>
    if c = '\n' then ([], 1, false)
    else
      let (line, n, eof) := splitLine cs
      (c :: line, n + 1, eof)

/-- The call `std::getline(in_, line)` with `line` empty: fails in the sentry
when the stream is not `good()`; reads up to and including the next newline;
hitting the end of the file sets `eofbit`, and `failbit` too when nothing at
all was extracted. -/
def IfStream.getline (s : IfStream) : Except Failure (List Char × IfStream) :=
  if s.good then
    match s.unread with
    | [] =>
      match s.setstate true true with
      | .error e => .error e
      | .ok s1 => .ok ([], s1)
    | c :: cs =>
      let (line, n, eof) := splitLine (c :: cs)
      .ok (line, { s with pos := s.pos + n, eofbit := eof })
  else
    match s.setstate false true with
    | .error e => .error e
    | .ok s1 => .ok ([], s1)

/-- The call `in_.tellg()`, converted to `size_t`: the read position of a
`good()` stream, the only kind the reader calls it on, else `pos_type(-1)`. -/
def IfStream.tellg (s : IfStream) : Nat := if s.good then s.pos else 2 ^ 64 - 1

/-- The call `in_.seekg(pos)`: first clears `eofbit` (as from C++11), then moves
the read position unless the stream has failed, in which case the sentry sets
`failbit` again. -/
def IfStream.seekg (s : IfStream) (pos : Nat) : Except Failure IfStream :=
  if s.failbit then ({ s with eofbit := false } : IfStream).setstate false true
  else .ok { s with pos := pos, eofbit := false }

/-- The stream after `getline` has read the first of its unread lines. -/
def IfStream.afterLine (s : IfStream) : IfStream :=
  { s with pos := s.pos + (splitLine s.unread).2.1, eofbit := (splitLine s.unread).2.2 }

/-- The lines of a text as a `getline` loop reads them: every line ended by a
newline, and a last line without one when it is not empty. -/
def textLinesAux : List Char → List Char → List (List Char)
  | cur, [] => if cur = [] then [] else [cur.reverse]
  | cur, c :: cs => if c = '\n' then cur.reverse :: textLinesAux [] cs else textLinesAux (c :: cur) cs

/-- The lines of a text as a `getline` loop reads them. -/
def textLines (text : List Char) : List (List Char) := textLinesAux [] text

/-! ## TextFileReader.hpp -/

/-- The class `TextFileReader<int>`: its data members. -/
structure TextFileReader where
  in_ : IfStream
  detectorName_ : String
  settings_ : String
  currentPixelNumber_ : Nat
  lineNumber_ : Nat
  numberOfLines_ : Nat
  fileSize_ : Nat
  deriving DecidableEq, Repr

/-- The constructor `TextFileReader::TextFileReader()`; the stream is closed
and its exception mask is empty. -/
def TextFileReader.new : TextFileReader :=
  { in_ := { isOpen := false, exceptions := false, data := [], pos := 0, eofbit := false,
             failbit := false }
    detectorName_ := ""
    settings_ := ""
    currentPixelNumber_ := 1
    lineNumber_ := 1
    numberOfLines_ := 0
    fileSize_ := 0 }

/-- What the file system reports for an existing path: whether it is a regular
file, whether it can be opened for reading, its bytes, and the two directory
names taken from the path (`parent_path().parent_path().parent_path().leaf()`
and `parent_path().leaf()`). -/
structure File where
  isRegular : Bool
  readable : Bool
  content : List Char
  detectorName : String
  settings : String

/-- The method `TextFileReader::open`; `file` is `none` when the path does not
exist.  Setting the exception mask throws when `failbit` is set; opening
throws when the file cannot be read and clears the flags otherwise; then the
lines are counted with a `getline` loop (added to `numberOfLines_`) and the
stream is cleared and rewound. -/
def TextFileReader.open (r : TextFileReader) (file : Option File) : Except Failure TextFileReader :=
  if r.in_.isOpen then .ok r
  else
    match file with
    | none => .error (.exit 1)
    | some f =>
      if f.isRegular ∧ f.content ≠ [] then
        if r.in_.failbit ∨ f.readable = false then .error .ios
        else
          .ok { r with
            fileSize_ := f.content.length % 2 ^ 32
            detectorName_ := f.detectorName
            settings_ := f.settings
            in_ := { isOpen := true, exceptions := true, data := f.content, pos := 0,
                     eofbit := false, failbit := false }
            lineNumber_ := 1
            numberOfLines_ := (r.numberOfLines_ + (textLines f.content).length) % 2 ^ 32 }
      else .error (.exit 1)

/-- The method `TextFileReader::close`. -/
def TextFileReader.close (r : TextFileReader) : TextFileReader :=
  if r.in_.isOpen then { r with detectorName_ := "", in_ := { r.in_ with isOpen := false } }
  else r

/-- The method `TextFileReader::endOfStream`: `in_.peek()`, then `in_.eof()`. -/
def TextFileReader.endOfStream (r : TextFileReader) : Except Failure (Bool × TextFileReader) :=
  match r.in_.peek with
  | .error e => .error e
  | .ok s => .ok (s.eofbit, { r with in_ := s })

/-- The method `TextFileReader::eatLine`. -/
def TextFileReader.eatLine (r : TextFileReader) : Except Failure TextFileReader :=
  if r.in_.isOpen = false then .error .assertion
  else
    match r.endOfStream with
    | .error e => .error e
    | .ok (true, r1) => .ok r1
    | .ok (false, r1) =>
      match r1.in_.getline with
      | .error e => .error e
      | .ok (_, s) => .ok { r1 with in_ := s, lineNumber_ := (r1.lineNumber_ + 1) % 2 ^ 32 }

/-- The loop of `extractSubstring`: while `currentPosition < input.length()`
and `input[currentPosition] != ' '`, append the character to `temp` and step. -/
def extractLoop (input : List Char) : Nat → Nat → List Char → List Char × Nat
  | 0, currentPosition, temp => (temp, currentPosition)
  | fuel + 1, currentPosition, temp =>
    match input[currentPosition]? with
    | none => (temp, currentPosition)
    | some ch =>
      if ch ≠ ' ' then extractLoop input fuel (currentPosition + 1) (temp ++ [ch])
      else (temp, currentPosition)

set_option linter.unusedVariables false in
/-- The method `TextFileReader::extractSubstring`: returns the extracted text
and the new value of `currentPosition`.  The loop compares with the space
character, whatever `delimeter` is. -/
def extractSubstring (input : List Char) (currentPosition : Nat) (delimeter : Char) :
    List Char × Nat :=
  extractLoop input input.length currentPosition []

/-- The call `line.find(c)`: the index of the first `c`, or `none` for `npos`. -/
def find (line : List Char) (c : Char) : Option Nat :=
  if line.indexOf c < line.length then some (line.indexOf c) else none

/-- The field extraction of `parseMetadataString` on a line whose first `(` is
at index `pos`: the frame with both times set. -/
def metadataFields (line : List Char) (pos : Nat) (frame : Frame) : Frame :=
  let pos1 := pos + 1
  let (t1, pos2) := extractSubstring line pos1 ' '
  let frame1 := frame.setTime (atof t1)
  let pos3 := pos2 + " s, ".length
  let (t2, _) := extractSubstring line pos3 ' '
  frame1.setRunningTime (atof t2)

/-- The method `TextFileReader::parseMetadataString`: the result, and the
reader and the frame afterwards. -/
def TextFileReader.parseMetadataString (r : TextFileReader) (frame : Frame) :
    Except Failure (Bool × TextFileReader × Frame) :=
  if r.in_.isOpen = false then .error .assertion
  else
    match r.endOfStream with
    | .error e => .error e
    | .ok (true, r1) => .ok (false, r1, frame)
    | .ok (false, r1) =>
      let originalFilePosition := r1.in_.tellg
      match r1.in_.getline with
      | .error e => .error e
      | .ok (line, s) =>
        match find line '(' with
        | none =>
          match s.seekg originalFilePosition with
          | .error e => .error e
          | .ok s1 => .ok (false, { r1 with in_ := s1 }, frame)
        | some pos =>
          .ok (true, { r1 with in_ := s, lineNumber_ := (r1.lineNumber_ + 1) % 2 ^ 32 },
            metadataFields line pos frame)

/-- The field extraction of `parseClusterString` on a line whose first `[` is
at index `pos`: the pixel that is constructed. -/
def clusterFields (line : List Char) (pos : Nat) : Pixel :=
  let pos1 := pos + 1
  let (xs, pos2) := extractSubstring line pos1 ','
  let x := atoi xs
  let pos3 := pos2 + ", ".length
  let (ys, pos4) := extractSubstring line pos3 ','
  let y := atoi ys
  let pos5 := pos4 + ", ".length
  let (cs, _) := extractSubstring line pos5 ','
  let c := atoi cs
  { x_ := x, y_ := y, c_ := c }

/-- The method `TextFileReader::parseClusterString`: the result, and the
reader and the frame afterwards. -/
def TextFileReader.parseClusterString (r : TextFileReader) (frame : Frame) :
    Except Failure (Bool × TextFileReader × Frame) :=
  if r.in_.isOpen = false then .error .assertion
  else
    match r.endOfStream with
    | .error e => .error e
    | .ok (true, r1) => .ok (false, r1, frame)
    | .ok (false, r1) =>
      let originalFilePosition := r1.in_.tellg
      match r1.in_.getline with
      | .error e => .error e
      | .ok (line, s) =>
        match find line '[' with
        | none =>
          match s.seekg originalFilePosition with
          | .error e => .error e
          | .ok s1 => .ok (false, { r1 with in_ := s1 }, frame)
        | some pos =>
          let key := (r1.currentPixelNumber_ + 1) % 2 ^ 32
          .ok (true,
            { r1 with in_ := s, currentPixelNumber_ := key,
                      lineNumber_ := (r1.lineNumber_ + 1) % 2 ^ 32 },
            frame.setPixel key (clusterFields line pos))

/-- The `while (!endOfStream())` loop of `getFrame`, one unit of fuel for each
evaluation of its condition; `none` when the fuel runs out. -/
def TextFileReader.getFrameLoop :
    Nat → TextFileReader → Frame → Bool → Option (Except Failure (Frame × TextFileReader))
  | 0, _, _, _ => none
  | fuel + 1, r, frame, isInFrame =>
    match r.endOfStream with
    | .error e => some (.error e)
    | .ok (true, r1) => some (.ok (frame, r1))
    | .ok (false, r1) =>
      if isInFrame = false then
        match r1.parseMetadataString frame with
        | .error e => some (.error e)
        | .ok (false, r2, _) => some (.error (.missingMetadata r2.lineNumber_))
        | .ok (true, r2, frame2) => getFrameLoop fuel r2 frame2 true
      else
        match r1.parseClusterString frame with
        | .error e => some (.error e)
        | .ok (true, r2, frame2) => getFrameLoop fuel r2 frame2 true
        | .ok (false, r2, frame2) =>
          match r2.eatLine with
          | .error e => some (.error e)
          | .ok r3 => some (.ok (frame2, r3))

/-- The method `TextFileReader::getFrame`: a new frame, the pixel counter reset
to 0, then the loop.  Every iteration but the last consumes a byte, so one
more unit of fuel than the file has bytes is enough. -/
def TextFileReader.getFrame (r : TextFileReader) : Option (Except Failure (Frame × TextFileReader)) :=
  TextFileReader.getFrameLoop (r.in_.data.length + 1)
    { r with currentPixelNumber_ := 0 } Frame.default false

/-! ## Main.cpp: the frame retrieval loop -/

/-- The loop `while (!input->endOfStream())` of `main`: the frame returned by
`getFrame` is stored at `frames[frameNumber]`, and `frameNumber` is incremented.
The result is the map `frames` when the loop is left, together with the
exception that left it or, when it ended normally, `frameNumber` and the reader. -/
def retrievalLoop :
    Nat → TextFileReader → List (Nat × Frame) → Nat →
      Option (List (Nat × Frame) × Except Failure (Nat × TextFileReader))
  | 0, _, _, _ => none
  | fuel + 1, input, frames, frameNumber =>
    match input.endOfStream with
    | .error e => some (frames, .error e)
    | .ok (true, input1) => some (frames, .ok (frameNumber, input1))
    | .ok (false, input1) =>
      match input1.getFrame with
      | none => none
      | some (.error e) => some (frames, .error e)
      | some (.ok (frame, input2)) =>
        retrievalLoop fuel input2 (mapSet frameNumber frame frames) ((frameNumber + 1) % 2 ^ 32)

/-- The frame retrieval of `main` on an opened reader: `frames` empty and
`frameNumber = 1` at the start. -/
def retrieveFrames (input : TextFileReader) :
    Option (List (Nat × Frame) × Except Failure (Nat × TextFileReader)) :=
  retrievalLoop (input.in_.data.length + 1) input [] 1

/-! ## Inputs for the worked examples -/

/-- A regular file with the given text, two levels below a directory `detector`
and directly in a directory `settings`. -/
def fileOf (text : String) : File :=
  { isRegular := true, readable := true, content := text.toList, detectorName := "detector",
    settings := "settings" }

/-- The reader of `main` after `input->open(path)` on `fileOf text`. -/
def readerOn (text : String) : TextFileReader :=
  match TextFileReader.new.open (some (fileOf text)) with
  | .ok r => r
  | .error _ => TextFileReader.new

/-- The reader left by a call of `getFrame` that returned a frame (the reader
itself when the call did not return one). -/
def TextFileReader.afterGetFrame (r : TextFileReader) : TextFileReader :=
  match r.getFrame with
  | some (.ok (_, r1)) => r1
  | _ => r

/-- The number of leading lines that contain `[`: the lines that
`parseClusterString` accepts one after the other. -/
def clusterLineCount : List (List Char) → Nat
  | [] => 0
  | line :: rest => if '[' ∈ line then clusterLineCount rest + 1 else 0

/-- The pixel that `parseClusterString` constructs from a line that has a `[`. -/
def pixelOfLine (line : List Char) : Pixel := clusterFields line (line.indexOf '[')

/-! ## Pixel.hpp, Frame.hpp: comparison and lookup -/

/-- The operator `Pixel::operator==`: compares the three members. -/
def Pixel.eq (p other : Pixel) : Bool :=
  if other.x = p.x_ ∧ other.y = p.y_ ∧ other.c = p.c_ then true else false

/-- The call `m.find(k)` on a `std::map<unsigned int, V>`: the value of the entry
of `k`, or `none` for the end iterator. -/
def mapFind {V : Type} (k : Nat) : List (Nat × V) → Option V
  | [] => none
  | (k1, v1) :: rest => if k = k1 then some v1 else mapFind k rest

/-! ## Field extraction: the texts, and the checked reads -/

/-- The three texts that `parseClusterString` hands to `atoi` on a line whose
first `[` is at index `pos`. -/
def clusterTexts (line : List Char) (pos : Nat) : List Char × List Char × List Char :=
  let pos1 := pos + 1
  let (xs, pos2) := extractSubstring line pos1 ','
  let pos3 := pos2 + ", ".length
  let (ys, pos4) := extractSubstring line pos3 ','
  let pos5 := pos4 + ", ".length
  let (cs, _) := extractSubstring line pos5 ','
  (xs, ys, cs)

/-- The two texts that `parseMetadataString` hands to `atof` on a line whose
first `(` is at index `pos`. -/
def metadataTexts (line : List Char) (pos : Nat) : List Char × List Char :=
  let pos1 := pos + 1
  let (t1, pos2) := extractSubstring line pos1 ' '
  let pos3 := pos2 + " s, ".length
  let (t2, _) := extractSubstring line pos3 ' '
  (t1, t2)

/-- Does `atoi` find a number at the start of the text: after white space and
an optional sign, a decimal digit? -/
def beginsWithInteger (t : List Char) : Bool :=
  match (readSign (skipSpaces t)).2 with
  | [] => false
  | c :: _ => (digitVal c).isSome

/-- Does `atof` find a number at the start of the text: after white space and
an optional sign, a decimal digit, a point followed by a digit, or one of the
words `inf` and `nan` that `strtod` converts to an infinity and a NaN? -/
def beginsWithFloat (t : List Char) : Bool :=
  let r := (readSign (skipSpaces t)).2
  hasPrefixCI r ['i', 'n', 'f'] || hasPrefixCI r ['n', 'a', 'n'] ||
    match r with
    | [] => false
    | c :: rest =>
      (digitVal c).isSome ||
        (c = '.' && match rest with
          | [] => false
          | d :: _ => (digitVal d).isSome)

/-- Does the text begin with a number: after white space and an optional sign,
a decimal digit, or a point followed by a digit? -/
def beginsWithNumber (t : List Char) : Bool :=
  match (readSign (skipSpaces t)).2 with
  | [] => false
  | c :: rest =>
    (digitVal c).isSome ||
      (c = '.' && match rest with
        | [] => false
        | d :: _ => (digitVal d).isSome)

/-- Does the text begin, after white space and an optional sign, with the
letters `inf` or `nan` in any case: the words that `strtod` converts to an
infinity and a NaN? -/
def beginsWithInfNan (t : List Char) : Bool :=
  let r := (readSign (skipSpaces t)).2
  hasPrefixCI r ['i', 'n', 'f'] || hasPrefixCI r ['n', 'a', 'n']

/-- The loop of `extractSubstring` with every read `input[currentPosition]`
checked: the result is `none` as soon as an index that is not below
`input.length()` is read.  The character is read once in the condition, behind
the test `currentPosition < input.length()`, and once in the body. -/
def extractLoopChecked (input : List Char) : Nat → Nat → List Char → Option (List Char × Nat)
  | 0, currentPosition, temp => some (temp, currentPosition)
  | fuel + 1, currentPosition, temp =>
    if currentPosition < input.length then
      match input[currentPosition]? with
      | none => none
      | some ch =>
        if ch ≠ ' ' then
          match input[currentPosition]? with
          | none => none
          | some ch1 => extractLoopChecked input fuel (currentPosition + 1) (temp ++ [ch1])
        else some (temp, currentPosition)
    else some (temp, currentPosition)

set_option linter.unusedVariables false in
/-- The method `extractSubstring` with checked reads. -/
def extractSubstringChecked (input : List Char) (currentPosition : Nat) (delimeter : Char) :
    Option (List Char × Nat) :=
  extractLoopChecked input input.length currentPosition []

/-- The field extraction of `parseClusterString` with checked reads. -/
def clusterFieldsChecked (line : List Char) (pos : Nat) : Option Pixel :=
  match extractSubstringChecked line (pos + 1) ',' with
  | none => none
  | some (xs, pos2) =>
    match extractSubstringChecked line (pos2 + ", ".length) ',' with
    | none => none
    | some (ys, pos4) =>
      match extractSubstringChecked line (pos4 + ", ".length) ',' with
      | none => none
      | some (cs, _) => some { x_ := atoi xs, y_ := atoi ys, c_ := atoi cs }

/-- The field extraction of `parseMetadataString` with checked reads. -/
def metadataFieldsChecked (line : List Char) (pos : Nat) (frame : Frame) : Option Frame :=
  match extractSubstringChecked line (pos + 1) ' ' with
  | none => none
  | some (t1, pos2) =>
    match extractSubstringChecked line (pos2 + " s, ".length) ' ' with
    | none => none
    | some (t2, _) => some ((frame.setTime (atof t1)).setRunningTime (atof t2))

/-! ## TableEntryGen.hpp, TableEntryGen.cpp, and the table mode of Main.cpp -/

/-- The class `TableEntryGen`: its data members; the three numbers are
`unsigned int`.  The constructor stores its five arguments in them. -/
structure TableEntryGen where
  detectorName_ : String
  settings_ : String
  size_ : Nat
  numberOfLines_ : Nat
  numberOfFrames_ : Nat
  deriving DecidableEq, Repr

/-- The constructor `TableEntryGen::TableEntryGen`, with the order of its
parameters. -/
def TableEntryGen.new (detectorName : String) (fileSize fileNumberOfLines fileNumberOfFrames : Nat)
    (chipSettings : String) : TableEntryGen :=
  { detectorName_ := detectorName, size_ := fileSize, numberOfLines_ := fileNumberOfLines,
    numberOfFrames_ := fileNumberOfFrames, settings_ := chipSettings }

/-- The method `TableEntryGen::generateEntry`: what is written to the string
stream, `std::endl` being a newline. -/
def TableEntryGen.generateEntry (t : TableEntryGen) : String :=
  "|-\n| " ++ t.detectorName_ ++ " || " ++ toString t.size_ ++ " || " ++
    toString t.numberOfLines_ ++ " || " ++ toString t.numberOfFrames_ ++ " || " ++
    t.settings_ ++ "\n"

/-- What `main` produces in table mode when the retrieval loop ends normally:
the map `frames`, the number written to the log after "Number of frames is:",
the object handed to `generateEntry`, and the entry. -/
structure TableRun where
  frames : List (Nat × Frame)
  loggedNumberOfFrames : Nat
  tableEntryGen : TableEntryGen
  entry : String
  deriving DecidableEq, Repr

/-- The function `main` in table mode, on the reader as `open` left it: the
retrieval loop, the log of `frameNumber - 1` (in `unsigned int`), then the
table entry generator built from the reader and `frameNumber`. -/
def mainTableMode (input : TextFileReader) : Option (Except Failure TableRun) :=
  match retrieveFrames input with
  | none => none
  | some (_, .error e) => some (.error e)
  | some (frames, .ok (frameNumber, input1)) =>
    let tableEntryGen := TableEntryGen.new input1.detectorName_ input1.fileSize_
      input1.numberOfLines_ frameNumber input1.settings_
    some (.ok
      { frames := frames
        loggedNumberOfFrames := (frameNumber + 2 ^ 32 - 1) % 2 ^ 32
        tableEntryGen := tableEntryGen
        entry := tableEntryGen.generateEntry })

/-! ## Further accessors, frame assignment, and predicates for the statements -/

/-- The accessor `TextFileReader::numberOfLines`. -/
def TextFileReader.numberOfLines (r : TextFileReader) : Nat := r.numberOfLines_

/-- The function `swap(Frame<T>&, Frame<T>&)`: swaps `pixels_`, `runningTime_`
and `time_`; the result is the pair of the two frames afterwards. -/
def Frame.swap (first second : Frame) : Frame × Frame :=
  ({ pixels_ := second.pixels_, runningTime_ := second.runningTime_, time_ := second.time_ },
   { pixels_ := first.pixels_, runningTime_ := first.runningTime_, time_ := first.time_ })

/-- The operator `Frame::operator=(Frame<T>& other)`: `swap(*this, other)`; the
result is the pair of `*this` and `other` afterwards. -/
def Frame.assign (this other : Frame) : Frame × Frame := Frame.swap this other

/-- The statement `frames[frameNumber] = frame` of `main`: `operator[]` finds the
entry or inserts a default-constructed frame, which is then assigned from
`frame`; the result is the map and the local `frame` afterwards. -/
def storeFrame (frames : List (Nat × Frame)) (frameNumber : Nat) (frame : Frame) :
    List (Nat × Frame) × Frame :=
  let entry := (mapFind frameNumber frames).getD Frame.default
  let (entry1, frame1) := Frame.assign entry frame
  (mapSet frameNumber entry1 frames, frame1)

/-- The text made of the given lines, each one ended by a newline. -/
def unlines : List (List Char) → List Char
  | [] => []
  | line :: rest => line ++ '\n' :: unlines rest

/-- The line counter is right: the lines of the file are some lines `done`
followed by the lines still unread, and `lineNumber_` is one more than the
number of lines in `done`. -/
def LineInv (r : TextFileReader) : Prop :=
  ∃ done : List (List Char),
    textLines r.in_.data = done ++ textLines r.in_.unread ∧ r.lineNumber_ = done.length + 1

/-- A decimal integer text: an optional sign and at least one decimal digit. -/
def IsIntegerText (t : List Char) : Prop :=
  ∃ sign digits : List Char, t = sign ++ digits ∧ (sign = [] ∨ sign = ['-'] ∨ sign = ['+']) ∧
    digits ≠ [] ∧ ∀ c ∈ digits, (digitVal c).isSome = true

/-- The number that a run of decimal digits denotes, most significant digit
first (0 for the empty run). -/
def digitsValue (ds : List Char) : Nat :=
  ds.foldl (fun acc c => 10 * acc + (digitVal c).getD 0) 0

/-- The integer that a decimal integer text denotes: an optional sign, then the
number of its digits. -/
def integerValue : List Char → Int
  | '-' :: ds => -(digitsValue ds : Int)
  | '+' :: ds => (digitsValue ds : Int)
  | ds => (digitsValue ds : Int)

/-! ## Lemmas on the stream -/

theorem splitLine_terminated (line rest : List Char) (h : '\n' ∉ line) :
    splitLine (line ++ '\n' :: rest) = (line, line.length + 1, false) := by
  induction line with
  | nil => simp [splitLine]
  | cons c cs ih =>
    have hc : c ≠ '\n' := fun e => h (by simp [e])
    have hcs : '\n' ∉ cs := fun e => h (by simp [e])
    simp [splitLine, hc, ih hcs]

theorem splitLine_unterminated (line : List Char) (h : '\n' ∉ line) :
    splitLine line = (line, line.length, true) := by
  induction line with
  | nil => simp [splitLine]
  | cons c cs ih =>
    have hc : c ≠ '\n' := fun e => h (by simp [e])
    have hcs : '\n' ∉ cs := fun e => h (by simp [e])
    simp [splitLine, hc, ih hcs]

theorem find_of_not_mem (line : List Char) (c : Char) (h : c ∉ line) : find line c = none := by
  unfold find
  have : ¬ List.indexOf c line < line.length := by
    rw [List.indexOf_lt_length]; exact h
  simp [this]

theorem find_of_mem (line : List Char) (c : Char) (h : c ∈ line) :
    find line c = some (line.indexOf c) := by
  unfold find
  have : List.indexOf c line < line.length := List.indexOf_lt_length.mpr h
  simp [this]

theorem unread_isOpen (s : IfStream) (h : s.unread ≠ []) : s.isOpen = true := by
  unfold IfStream.unread at h
  by_contra hc
  simp [hc] at h

theorem unread_eq_drop (s : IfStream) (h : s.unread ≠ []) : s.data.drop s.pos = s.unread := by
  have := unread_isOpen s h
  simp [IfStream.unread, this]

theorem good_flags (s : IfStream) (h : s.good = true) : s.eofbit = false ∧ s.failbit = false := by
  unfold IfStream.good at h
  cases he : s.eofbit <;> cases hf : s.failbit <;> simp_all

/-- On a `good()` stream that has unread bytes, `endOfStream` is false and
changes nothing. -/
theorem endOfStream_of_unread (r : TextFileReader) (hgood : r.in_.good = true)
    (h : r.in_.unread ≠ []) : r.endOfStream = .ok (false, r) := by
  unfold TextFileReader.endOfStream IfStream.peek
  cases hu : r.in_.unread with
  | nil => exact absurd hu h
  | cons c cs => simp [hgood, (good_flags r.in_ hgood).1]

/-- On a `good()` stream that has no unread byte, `endOfStream` is true and sets
`eofbit`. -/
theorem endOfStream_of_exhausted (r : TextFileReader) (hgood : r.in_.good = true)
    (h : r.in_.unread = []) :
    r.endOfStream = .ok (true, { r with in_ := { r.in_ with eofbit := true } }) := by
  unfold TextFileReader.endOfStream IfStream.peek IfStream.setstate
  obtain ⟨he, hf⟩ := good_flags r.in_ hgood
  simp [hgood, h, hf]

/-- Once the stream is not `good()`, in particular once `eofbit` is set,
`endOfStream` throws when the exception mask has `failbit`. -/
theorem endOfStream_of_not_good (r : TextFileReader) (hbad : r.in_.good = false)
    (hexc : r.in_.exceptions = true) : r.endOfStream = .error .ios := by
  unfold TextFileReader.endOfStream IfStream.peek IfStream.setstate
  simp [hbad, hexc]

theorem getline_of_unread (s : IfStream) (hgood : s.good = true) (h : s.unread ≠ []) :
    s.getline = .ok ((splitLine s.unread).1, s.afterLine) := by
  unfold IfStream.getline IfStream.afterLine
  cases hu : s.unread with
  | nil => exact absurd hu h
  | cons c cs => simp [hgood]

theorem seekg_afterLine (s : IfStream) (hgood : s.good = true) :
    s.afterLine.seekg s.tellg = .ok s := by
  obtain ⟨he, hf⟩ := good_flags s hgood
  cases s
  simp_all [IfStream.afterLine, IfStream.seekg, IfStream.tellg, IfStream.good]

theorem afterLine_isOpen (s : IfStream) : s.afterLine.isOpen = s.isOpen := rfl

theorem afterLine_exceptions (s : IfStream) : s.afterLine.exceptions = s.exceptions := rfl

theorem afterLine_data (s : IfStream) : s.afterLine.data = s.data := rfl

/-- After a line ended by a newline has been read, the unread bytes are those
behind the newline and `eofbit` is clear. -/
theorem afterLine_terminated (s : IfStream) (line rest : List Char) (hline : '\n' ∉ line)
    (hgood : s.good = true) (h : s.unread = line ++ '\n' :: rest) :
    (splitLine s.unread).1 = line ∧ s.afterLine.unread = rest ∧ s.afterLine.good = true := by
  have hne : s.unread ≠ [] := by rw [h]; simp
  have hopen := unread_isOpen s hne
  have hdrop := unread_eq_drop s hne
  have hs := splitLine_terminated line rest hline
  refine ⟨by rw [h, hs], ?_, by
    simp [IfStream.afterLine, IfStream.good, h, hs, (good_flags s hgood).2]⟩
  simp only [IfStream.unread, IfStream.afterLine, hopen, if_true]
  rw [← List.drop_drop, hdrop, h, hs]
  simp

/-- After a last line without a newline has been read, nothing is unread and
`eofbit` is set. -/
theorem afterLine_unterminated (s : IfStream) (line : List Char) (hline : '\n' ∉ line)
    (hne : line ≠ []) (h : s.unread = line) :
    (splitLine s.unread).1 = line ∧ s.afterLine.unread = [] ∧ s.afterLine.eofbit = true := by
  have hne1 : s.unread ≠ [] := by rw [h]; exact hne
  have hopen := unread_isOpen s hne1
  have hdrop := unread_eq_drop s hne1
  have hs := splitLine_unterminated line hline
  refine ⟨by rw [h, hs], ?_, by simp [IfStream.afterLine, h, hs]⟩
  simp only [IfStream.unread, IfStream.afterLine, hopen, if_true]
  rw [← List.drop_drop, hdrop, h, hs]
  simp

/-! ## Lemmas on the two parse routines -/

/-- What `parseMetadataString` does on a `good()` stream that has unread
bytes: it reads one line; without a `(` the reader and the frame are as before,
with one the line is consumed, counted, and both times are set. -/
theorem parseMetadataString_of_unread (r : TextFileReader) (frame : Frame)
    (hgood : r.in_.good = true) (h : r.in_.unread ≠ []) :
    r.parseMetadataString frame =
      match find (splitLine r.in_.unread).1 '(' with
      | none => .ok (false, r, frame)
      | some pos =>
        .ok (true, { r with in_ := r.in_.afterLine, lineNumber_ := (r.lineNumber_ + 1) % 2 ^ 32 },
          metadataFields (splitLine r.in_.unread).1 pos frame) := by
  unfold TextFileReader.parseMetadataString
  rw [endOfStream_of_unread r hgood h]
  simp only [unread_isOpen r.in_ h, getline_of_unread r.in_ hgood h]
  cases hf : find (splitLine r.in_.unread).1 '(' with
  | none => simp [seekg_afterLine r.in_ hgood]
  | some pos => simp

/-- What `parseClusterString` does on a `good()` stream that has unread
bytes: it reads one line; without a `[` the reader and the frame are as before,
with one the line is consumed, counted, and a pixel is stored under the next key. -/
theorem parseClusterString_of_unread (r : TextFileReader) (frame : Frame)
    (hgood : r.in_.good = true) (h : r.in_.unread ≠ []) :
    r.parseClusterString frame =
      match find (splitLine r.in_.unread).1 '[' with
      | none => .ok (false, r, frame)
      | some pos =>
        .ok (true,
          { r with in_ := r.in_.afterLine,
                   currentPixelNumber_ := (r.currentPixelNumber_ + 1) % 2 ^ 32,
                   lineNumber_ := (r.lineNumber_ + 1) % 2 ^ 32 },
          frame.setPixel ((r.currentPixelNumber_ + 1) % 2 ^ 32)
            (clusterFields (splitLine r.in_.unread).1 pos)) := by
  unfold TextFileReader.parseClusterString
  rw [endOfStream_of_unread r hgood h]
  simp only [unread_isOpen r.in_ h, getline_of_unread r.in_ hgood h]
  cases hf : find (splitLine r.in_.unread).1 '[' with
  | none => simp [seekg_afterLine r.in_ hgood]
  | some pos => simp

/-- What `eatLine` does on a `good()` stream that has unread bytes: one
line is consumed and counted. -/
theorem eatLine_of_unread (r : TextFileReader) (hgood : r.in_.good = true)
    (h : r.in_.unread ≠ []) :
    r.eatLine = .ok { r with in_ := r.in_.afterLine, lineNumber_ := (r.lineNumber_ + 1) % 2 ^ 32 } := by
  unfold TextFileReader.eatLine
  rw [endOfStream_of_unread r hgood h]
  simp [unread_isOpen r.in_ h, getline_of_unread r.in_ hgood h]

theorem afterLine_unread (s : IfStream) (h : s.unread ≠ []) :
    s.afterLine.unread = s.unread.drop (splitLine s.unread).2.1 := by
  have hopen := unread_isOpen s h
  have hdrop := unread_eq_drop s h
  simp only [IfStream.unread, IfStream.afterLine, hopen, if_true]
  rw [← List.drop_drop]

theorem splitLine_consumed_pos (u : List Char) (h : u ≠ []) : 0 < (splitLine u).2.1 := by
  cases u with
  | nil => exact absurd rfl h
  | cons c cs =>
    by_cases hc : c = '\n'
    · simp [splitLine, hc]
    · simp [splitLine, hc]

/-- Reading a line consumes at least one byte. -/
theorem afterLine_unread_length (s : IfStream) (h : s.unread ≠ []) :
    s.afterLine.unread.length < s.unread.length := by
  rw [afterLine_unread s h, List.length_drop]
  have h1 := splitLine_consumed_pos s.unread h
  have h2 : 0 < s.unread.length := List.length_pos.mpr h
  omega

/-! ## Lemmas on the loop of `getFrame` -/

/-- The loop ends with the frame it has when the input is exhausted and the
stream is still `good()`. -/
theorem getFrameLoop_exhausted (fuel : Nat) (r : TextFileReader) (frame : Frame) (b : Bool)
    (hgood : r.in_.good = true) (h : r.in_.unread = []) :
    TextFileReader.getFrameLoop (fuel + 1) r frame b =
      some (.ok (frame, { r with in_ := { r.in_ with eofbit := true } })) := by
  unfold TextFileReader.getFrameLoop
  rw [endOfStream_of_exhausted r hgood h]

/-- The loop throws when the stream is not `good()` any more, in particular when
`eofbit` is already set. -/
theorem getFrameLoop_not_good (fuel : Nat) (r : TextFileReader) (frame : Frame) (b : Bool)
    (hbad : r.in_.good = false) (hexc : r.in_.exceptions = true) :
    TextFileReader.getFrameLoop (fuel + 1) r frame b = some (.error .ios) := by
  unfold TextFileReader.getFrameLoop
  rw [endOfStream_of_not_good r hbad hexc]

/-- Outside a frame, a line without `(` is the malformed-header error. -/
theorem getFrameLoop_header_rejected (fuel : Nat) (r : TextFileReader) (frame : Frame)
    (hgood : r.in_.good = true) (h : r.in_.unread ≠ [])
    (hline : '(' ∉ (splitLine r.in_.unread).1) :
    TextFileReader.getFrameLoop (fuel + 1) r frame false =
      some (.error (.missingMetadata r.lineNumber_)) := by
  unfold TextFileReader.getFrameLoop
  rw [endOfStream_of_unread r hgood h]
  simp only [parseMetadataString_of_unread r frame hgood h, find_of_not_mem _ _ hline]
  simp

/-- Outside a frame, a line with `(` sets the times and the loop goes on inside
the frame. -/
theorem getFrameLoop_header_accepted (fuel : Nat) (r : TextFileReader) (frame : Frame)
    (hgood : r.in_.good = true) (h : r.in_.unread ≠ [])
    (hline : '(' ∈ (splitLine r.in_.unread).1) :
    TextFileReader.getFrameLoop (fuel + 1) r frame false =
      TextFileReader.getFrameLoop fuel
        { r with in_ := r.in_.afterLine, lineNumber_ := (r.lineNumber_ + 1) % 2 ^ 32 }
        (metadataFields (splitLine r.in_.unread).1 ((splitLine r.in_.unread).1.indexOf '(') frame)
        true := by
  conv => lhs; unfold TextFileReader.getFrameLoop
  rw [endOfStream_of_unread r hgood h]
  simp only [parseMetadataString_of_unread r frame hgood h, find_of_mem _ _ hline]
  simp

/-- Inside a frame, a line with `[` stores a pixel under the next key and the
loop goes on. -/
theorem getFrameLoop_cluster_accepted (fuel : Nat) (r : TextFileReader) (frame : Frame)
    (hgood : r.in_.good = true) (h : r.in_.unread ≠ [])
    (hline : '[' ∈ (splitLine r.in_.unread).1) :
    TextFileReader.getFrameLoop (fuel + 1) r frame true =
      TextFileReader.getFrameLoop fuel
        { r with in_ := r.in_.afterLine,
                 currentPixelNumber_ := (r.currentPixelNumber_ + 1) % 2 ^ 32,
                 lineNumber_ := (r.lineNumber_ + 1) % 2 ^ 32 }
        (frame.setPixel ((r.currentPixelNumber_ + 1) % 2 ^ 32)
          (clusterFields (splitLine r.in_.unread).1 ((splitLine r.in_.unread).1.indexOf '[')))
        true := by
  conv => lhs; unfold TextFileReader.getFrameLoop
  rw [endOfStream_of_unread r hgood h]
  simp only [parseClusterString_of_unread r frame hgood h, find_of_mem _ _ hline]
  simp

/-- Inside a frame, a line without `[` is consumed and ends the frame, which is
returned as it is. -/
theorem getFrameLoop_terminator (fuel : Nat) (r : TextFileReader) (frame : Frame)
    (hgood : r.in_.good = true) (h : r.in_.unread ≠ [])
    (hline : '[' ∉ (splitLine r.in_.unread).1) :
    TextFileReader.getFrameLoop (fuel + 1) r frame true =
      some (.ok (frame,
        { r with in_ := r.in_.afterLine, lineNumber_ := (r.lineNumber_ + 1) % 2 ^ 32 })) := by
  unfold TextFileReader.getFrameLoop
  rw [endOfStream_of_unread r hgood h]
  simp only [parseClusterString_of_unread r frame hgood h, find_of_not_mem _ _ hline]
  simp [eatLine_of_unread r hgood h]

/-! ## Lemmas on field extraction -/

/-- With enough fuel the loop of `extractSubstring` appends the characters from
`currentPosition` up to the next space (or the end) and stops there. -/
theorem extractLoop_eq (input : List Char) (fuel pos : Nat) (temp : List Char)
    (hfuel : input.length - pos ≤ fuel) :
    extractLoop input fuel pos temp =
      (temp ++ (input.drop pos).takeWhile (fun ch => ch != ' '),
        pos + ((input.drop pos).takeWhile (fun ch => ch != ' ')).length) := by
  induction fuel generalizing pos temp with
  | zero =>
    have hle : input.length ≤ pos := by omega
    simp [extractLoop, List.drop_eq_nil_of_le hle]
  | succ n ih =>
    unfold extractLoop
    by_cases hlt : pos < input.length
    · have hget : input[pos]? = some input[pos] := List.getElem?_eq_getElem hlt
      have hdrop : input.drop pos = input[pos] :: input.drop (pos + 1) :=
        List.drop_eq_getElem_cons hlt
      rw [hget, hdrop]
      by_cases hsp : input[pos] = ' '
      · simp [hsp]
      · have hfuel1 : input.length - (pos + 1) ≤ n := by omega
        dsimp only
        rw [if_pos hsp, ih (pos + 1) (temp ++ [input[pos]]) hfuel1]
        rw [List.takeWhile_cons_of_pos (by simpa using hsp)]
        simp only [List.length_cons, List.append_assoc, List.singleton_append, Prod.mk.injEq,
          true_and]
        omega
    · have hle : input.length ≤ pos := by omega
      have hget : input[pos]? = none := List.getElem?_eq_none hle
      simp [hget, List.drop_eq_nil_of_le hle]

/-- The text returned by `extractSubstring` runs from `currentPosition` to the
next space, whatever the delimiter argument. -/
theorem extractSubstring_eq (input : List Char) (pos : Nat) (delimeter : Char) :
    extractSubstring input pos delimeter =
      ((input.drop pos).takeWhile (fun ch => ch != ' '),
        pos + ((input.drop pos).takeWhile (fun ch => ch != ' ')).length) := by
  unfold extractSubstring
  rw [extractLoop_eq input input.length pos [] (by omega)]
  simp

theorem takeWhile_until_space (t rest : List Char) (h : ' ' ∉ t) :
    (t ++ ' ' :: rest).takeWhile (fun ch => ch != ' ') = t := by
  induction t with
  | nil => simp
  | cons c cs ih =>
    have hc : c ≠ ' ' := fun e => h (by simp [e])
    have hcs : ' ' ∉ cs := fun e => h (by simp [e])
    simp [List.takeWhile_cons, hc, ih hcs]

/-- On a header line `P(T1 s, T2 s)`, `P` without `(`, `T1` and `T2` without a
space, the first `(` is found behind `P` and the two times are the narrowed
values of `atof` on `T1` and `T2`. -/
theorem metadataFields_header (P T1 T2 tail : List Char) (frame : Frame)
    (hP : '(' ∉ P) (h1 : ' ' ∉ T1) (h2 : ' ' ∉ T2) :
    (P ++ '(' :: (T1 ++ " s, ".toList ++ (T2 ++ ' ' :: tail))).indexOf '(' = P.length ∧
    metadataFields (P ++ '(' :: (T1 ++ " s, ".toList ++ (T2 ++ ' ' :: tail))) P.length frame =
      { frame with time_ := (atof T1).toFloat, runningTime_ := (atof T2).toFloat } := by
  constructor
  · rw [List.indexOf_append_of_not_mem hP]
    simp
  · unfold metadataFields
    simp only [extractSubstring_eq]
    have hd1 : (P ++ '(' :: (T1 ++ " s, ".toList ++ (T2 ++ ' ' :: tail))).drop (P.length + 1)
        = T1 ++ ' ' :: ('s' :: ',' :: ' ' :: (T2 ++ ' ' :: tail)) := by
      rw [List.drop_append_eq_append_drop]
      simp
    rw [hd1, takeWhile_until_space T1 _ h1]
    have hd2 : (P ++ '(' :: (T1 ++ " s, ".toList ++ (T2 ++ ' ' :: tail))).drop
        (P.length + 1 + T1.length + " s, ".length) = T2 ++ ' ' :: tail := by
      have : P.length + 1 + T1.length + " s, ".length = (P.length + 1) + (T1.length + 4) := by
        simp [String.length]; omega
      rw [this, ← List.drop_drop, hd1]
      have h4 : T1 ++ ' ' :: 's' :: ',' :: ' ' :: (T2 ++ ' ' :: tail)
          = (T1 ++ [' ', 's', ',', ' ']) ++ (T2 ++ ' ' :: tail) := by simp
      rw [h4, List.drop_append_eq_append_drop]
      simp
    rw [hd2, takeWhile_until_space T2 _ h2]
    simp [Frame.setTime, Frame.setRunningTime]

/-! ## Lemmas on `getFrame` -/

/-- The line that `getline` reads from `line ++ rest`, when `line` has no
newline and `rest` is empty or starts with one, is `line`. -/
theorem splitLine_first (line rest : List Char) (hnl : '\n' ∉ line)
    (hrest : rest = [] ∨ ∃ rest1, rest = '\n' :: rest1) : (splitLine (line ++ rest)).1 = line := by
  rcases hrest with h | ⟨rest1, h⟩
  · rw [h, List.append_nil, splitLine_unterminated line hnl]
  · rw [h, splitLine_terminated line rest1 hnl]

theorem getFrame_header_rejected (r : TextFileReader) (hgood : r.in_.good = true)
    (h : r.in_.unread ≠ []) (hline : '(' ∉ (splitLine r.in_.unread).1) :
    r.getFrame = some (.error (.missingMetadata r.lineNumber_)) := by
  unfold TextFileReader.getFrame
  exact getFrameLoop_header_rejected _ { r with currentPixelNumber_ := 0 } _ hgood h hline

theorem unread_length_le (s : IfStream) : s.unread.length ≤ s.data.length := by
  unfold IfStream.unread
  split
  · rw [List.length_drop]; omega
  · simp

/-- C6: when a closed reader (a new one, or one closed before) opens a file that
is not empty and whose first line has no `(`, the first `getFrame` throws the
malformed-header failure with line number 1; the call returns no frame. -/
theorem getFrame_first_line_not_header (r0 : TextFileReader) (file : File)
    (line rest : List Char) (hclosed : r0.in_.isOpen = false) (hflag : r0.in_.failbit = false)
    (hreg : file.isRegular = true) (hread : file.readable = true) (hne : file.content ≠ [])
    (hcontent : file.content = line ++ rest) (hnl : '\n' ∉ line)
    (hrest : rest = [] ∨ ∃ rest1, rest = '\n' :: rest1) (hparen : '(' ∉ line) :
    ∃ r, r0.open (some file) = .ok r ∧
      r.getFrame = some (.error (.missingMetadata 1)) := by
  refine ⟨_, by simp [TextFileReader.open, hclosed, hflag, hreg, hread, hne]; rfl, ?_⟩
  have hfirst := splitLine_first line rest hnl hrest
  rw [← hcontent] at hfirst
  apply getFrame_header_rejected
  · rfl
  · simpa [IfStream.unread] using hne
  · simpa [IfStream.unread, hfirst] using hparen

theorem getFrame_first_line_not_header_witness :
    ∃ r, TextFileReader.new.open (some (fileOf "[19, 0, 55]\nFrame 1 (1.0 s, 0.1 s)\n")) = .ok r ∧
      r.getFrame = some (.error (.missingMetadata 1)) :=
  getFrame_first_line_not_header TextFileReader.new
    (fileOf "[19, 0, 55]\nFrame 1 (1.0 s, 0.1 s)\n")
    "[19, 0, 55]".toList "\nFrame 1 (1.0 s, 0.1 s)\n".toList (by decide) (by decide) (by decide)
    (by decide) (by decide) (by decide) (by decide) (Or.inr ⟨"Frame 1 (1.0 s, 0.1 s)\n".toList, by decide⟩) (by decide)

/-- C8, as amended: at the end of the input, on a stream that is still `good()`,
`getFrame` returns a default-constructed frame (times 0, no pixel) without any
error; it only sets `eofbit` and resets the pixel counter.  The end of the
stream is what `endOfStream` reports there. -/
theorem getFrame_at_end_returns_default (r : TextFileReader) (hgood : r.in_.good = true)
    (h : r.in_.unread = []) :
    r.getFrame = some (.ok (Frame.default,
      { r with currentPixelNumber_ := 0, in_ := { r.in_ with eofbit := true } })) ∧
    r.endOfStream = .ok (true, { r with in_ := { r.in_ with eofbit := true } }) := by
  refine ⟨?_, endOfStream_of_exhausted r hgood h⟩
  unfold TextFileReader.getFrame
  exact getFrameLoop_exhausted _ { r with currentPixelNumber_ := 0 } _ _ hgood h

/-- C10, as amended: `parseMetadataString` rejects exactly the lines without
`(`.  On such a line it returns false and leaves the reader (cursor, line
number) and the frame as they were.  A line with `(` is accepted whatever
follows: the line is consumed and counted, and the times of the frame are set,
by `setTime` and `setRunningTime`, to what `atof` makes of the two texts
extracted behind the `(`. -/
theorem parseMetadataString_rejects_iff_no_paren (r : TextFileReader) (frame : Frame)
    (line rest : List Char) (hgood : r.in_.good = true) (hnl : '\n' ∉ line)
    (hrest : rest = [] ∨ ∃ rest1, rest = '\n' :: rest1) (hne : line ++ rest ≠ [])
    (hunread : r.in_.unread = line ++ rest) :
    ('(' ∉ line → r.parseMetadataString frame = .ok (false, r, frame)) ∧
    ('(' ∈ line → r.parseMetadataString frame =
      .ok (true, { r with in_ := r.in_.afterLine, lineNumber_ := (r.lineNumber_ + 1) % 2 ^ 32 },
        (frame.setTime (atof (metadataTexts line (line.indexOf '(')).1)).setRunningTime
          (atof (metadataTexts line (line.indexOf '(')).2))) := by
  have hne1 : r.in_.unread ≠ [] := by rw [hunread]; exact hne
  have hfirst : (splitLine r.in_.unread).1 = line := by
    rw [hunread, splitLine_first line rest hnl hrest]
  rw [parseMetadataString_of_unread r frame hgood hne1, hfirst]
  constructor
  · intro hp
    rw [find_of_not_mem _ _ hp]
  · intro hp
    rw [find_of_mem _ _ hp]
    rfl

/-- On a `good()` stream positioned at a header line `P(T1 s, T2 ...` that is
followed by a line without `[`, `getFrame` succeeds and returns a frame with an
empty pixel map; its times are the values of `T1` and `T2` narrowed to `float`
by `setTime` and `setRunningTime`. -/
theorem getFrame_header_then_non_cluster (r : TextFileReader)
    (P T1 T2 tail l rest : List Char) (hgood : r.in_.good = true)
    (hP : '(' ∉ P) (h1 : ' ' ∉ T1) (h2 : ' ' ∉ T2)
    (hhdr : '\n' ∉ P ++ '(' :: (T1 ++ " s, ".toList ++ (T2 ++ ' ' :: tail)))
    (hl : '[' ∉ l) (hln : '\n' ∉ l) (hrest : rest = [] ∨ ∃ rest1, rest = '\n' :: rest1)
    (hunread : r.in_.unread =
      (P ++ '(' :: (T1 ++ " s, ".toList ++ (T2 ++ ' ' :: tail))) ++ '\n' :: (l ++ rest)) :
    ∃ r1, r.getFrame = some (.ok
      ({ pixels_ := [], time_ := (atof T1).toFloat, runningTime_ := (atof T2).toFloat }, r1)) := by
  have hne : r.in_.unread ≠ [] := by rw [hunread]; simp
  obtain ⟨hfirst, hun2, hgood2⟩ := afterLine_terminated r.in_ _ (l ++ rest) hhdr hgood hunread
  obtain ⟨hidx, hfields⟩ := metadataFields_header P T1 T2 tail Frame.default hP h1 h2
  have hparen : '(' ∈ (splitLine r.in_.unread).1 := by rw [hfirst]; simp
  obtain ⟨n, hn⟩ : ∃ n, r.in_.data.length = n + 1 := by
    have h1 := unread_length_le r.in_
    have h2 : 0 < r.in_.unread.length := List.length_pos.mpr hne
    exact ⟨r.in_.data.length - 1, by omega⟩
  unfold TextFileReader.getFrame
  rw [hn, getFrameLoop_header_accepted (n + 1) { r with currentPixelNumber_ := 0 } _ hgood hne hparen]
  simp only [hfirst, hidx, hfields]
  by_cases hempty : l ++ rest = []
  · rw [getFrameLoop_exhausted n _ _ _ hgood2 (by show r.in_.afterLine.unread = []; rw [hun2, hempty])]
    exact ⟨_, rfl⟩
  · rw [getFrameLoop_terminator n _ _ hgood2
      (by show r.in_.afterLine.unread ≠ []; rw [hun2]; exact hempty)
      (by show '[' ∉ (splitLine r.in_.afterLine.unread).1
          rw [hun2, splitLine_first l rest hln hrest]; exact hl)]
    exact ⟨_, rfl⟩

theorem getFrame_header_then_non_cluster_witness :
    ∃ r1, (readerOn "Frame 1 (1.5 s, 0.25 s)\n\nFrame 2 (1.75 s, 0.5 s)\n").getFrame = some (.ok
      ({ pixels_ := [], time_ := (atof "1.5".toList).toFloat,
         runningTime_ := (atof "0.25".toList).toFloat }, r1)) :=
  getFrame_header_then_non_cluster (readerOn "Frame 1 (1.5 s, 0.25 s)\n\nFrame 2 (1.75 s, 0.5 s)\n")
    "Frame 1 ".toList "1.5".toList "0.25".toList "s)".toList [] "\nFrame 2 (1.75 s, 0.5 s)\n".toList
    (by decide) (by decide) (by decide) (by decide) (by decide) (by decide) (by decide)
    (Or.inr ⟨"Frame 2 (1.75 s, 0.5 s)\n".toList, by decide⟩) (by decide)

/-! ## The keys of the pixel map -/

theorem textLinesAux_eq (cur u : List Char) (h : cur ≠ [] ∨ u ≠ []) :
    textLinesAux cur u =
      (cur.reverse ++ (splitLine u).1) :: textLinesAux [] (u.drop (splitLine u).2.1) := by
  induction u generalizing cur with
  | nil =>
    have hc : cur ≠ [] := by
      rcases h with h | h
      · exact h
      · exact absurd rfl h
    simp [textLinesAux, splitLine, hc]
  | cons c cs ih =>
    by_cases hnl : c = '\n'
    · simp [textLinesAux, splitLine, hnl]
    · have := ih (c :: cur) (Or.inl (by simp))
      simp [textLinesAux, splitLine, hnl, this]

/-- The lines of a non-empty text are the line that `getline` reads and the
lines of what it leaves unread. -/
theorem textLines_eq (u : List Char) (h : u ≠ []) :
    textLines u = (splitLine u).1 :: textLines (u.drop (splitLine u).2.1) := by
  unfold textLines
  rw [textLinesAux_eq [] u (Or.inr h)]
  simp

theorem textLines_unread (s : IfStream) (h : s.unread ≠ []) :
    textLines s.unread = (splitLine s.unread).1 :: textLines s.afterLine.unread := by
  rw [afterLine_unread s h]
  exact textLines_eq s.unread h

theorem clusterLineCount_le (lines : List (List Char)) : clusterLineCount lines ≤ lines.length := by
  induction lines with
  | nil => simp [clusterLineCount]
  | cons line rest ih =>
    unfold clusterLineCount
    split
    · simp; exact ih
    · simp

/-- Storing under a key greater than all keys of the map appends the entry. -/
theorem mapSet_append {V : Type} (k : Nat) (v : V) (l : List (Nat × V))
    (h : ∀ e ∈ l, e.1 < k) : mapSet k v l = l ++ [(k, v)] := by
  induction l with
  | nil => rfl
  | cons e rest ih =>
    obtain ⟨k1, v1⟩ := e
    have hk : k1 < k := h (k1, v1) (by simp)
    have hrest : ∀ e ∈ rest, e.1 < k := fun e he => h e (by simp [he])
    have h1 : ¬ k < k1 := by omega
    have h2 : ¬ k = k1 := by omega
    simp [mapSet, h1, h2, ih hrest]

theorem metadataFields_pixels (line : List Char) (pos : Nat) (frame : Frame) :
    (metadataFields line pos frame).pixels_ = frame.pixels_ := by
  simp [metadataFields, Frame.setTime, Frame.setRunningTime]

/-- Inside a frame, a loop that returns has appended one pixel for every leading
line with `[`, under the keys that follow the counter, in reading order. -/
theorem getFrameLoop_inFrame_pixels (fuel : Nat) :
    ∀ (r : TextFileReader) (frame f : Frame) (r1 : TextFileReader),
      r.in_.exceptions = true →
      (∀ e ∈ frame.pixels_, e.1 ≤ r.currentPixelNumber_) →
      r.currentPixelNumber_ + clusterLineCount (textLines r.in_.unread) < 2 ^ 32 →
      TextFileReader.getFrameLoop fuel r frame true = some (.ok (f, r1)) →
      f.pixels_ = frame.pixels_ ++
        (List.range' (r.currentPixelNumber_ + 1) (clusterLineCount (textLines r.in_.unread))).zip
          (((textLines r.in_.unread).take (clusterLineCount (textLines r.in_.unread))).map
            pixelOfLine) := by
  induction fuel with
  | zero =>
    intro r frame f r1 _ _ _ h
    simp [TextFileReader.getFrameLoop] at h
  | succ n ih =>
    intro r frame f r1 hexc hkeys hsize h
    cases heof : r.in_.good with
    | false =>
      rw [getFrameLoop_not_good n r frame true heof hexc] at h
      simp at h
    | true =>
      by_cases hun : r.in_.unread = []
      · rw [getFrameLoop_exhausted n r frame true heof hun] at h
        simp at h
        simp [hun, textLines, textLinesAux, clusterLineCount, ← h.1]
      · rw [textLines_unread r.in_ hun] at hsize ⊢
        by_cases hline : '[' ∈ (splitLine r.in_.unread).1
        · rw [getFrameLoop_cluster_accepted n r frame heof hun hline] at h
          have hcount : clusterLineCount ((splitLine r.in_.unread).1 :: textLines r.in_.afterLine.unread)
              = clusterLineCount (textLines r.in_.afterLine.unread) + 1 := by
            simp [clusterLineCount, hline]
          rw [hcount] at hsize ⊢
          have hkey : (r.currentPixelNumber_ + 1) % 2 ^ 32 = r.currentPixelNumber_ + 1 :=
            Nat.mod_eq_of_lt (by omega)
          rw [hkey] at h
          have hset : (frame.setPixel (r.currentPixelNumber_ + 1)
              (clusterFields (splitLine r.in_.unread).1
                ((splitLine r.in_.unread).1.indexOf '['))).pixels_
              = frame.pixels_ ++ [(r.currentPixelNumber_ + 1, pixelOfLine (splitLine r.in_.unread).1)] := by
            unfold Frame.setPixel
            exact mapSet_append _ _ _ (fun e he => Nat.lt_succ_of_le (hkeys e he))
          have := ih _ _ f r1 (by exact hexc) (by
              intro e he
              rw [hset] at he
              rcases List.mem_append.mp he with he | he
              · exact Nat.le_succ_of_le (hkeys e he)
              · simp at he; simp [he]) (by
              show r.currentPixelNumber_ + 1 + clusterLineCount (textLines r.in_.afterLine.unread) < 2 ^ 32
              omega) h
          rw [this, hset]
          simp [List.range'_succ]
        · rw [getFrameLoop_terminator n r frame heof hun hline] at h
          simp at h
          simp [clusterLineCount, hline, ← h.1]

/-- A reader without an open file gets no pixel from `getFrame`. -/
theorem getFrame_closed_pixels (r : TextFileReader) (f : Frame) (r1 : TextFileReader)
    (hclosed : r.in_.isOpen = false) (hret : r.getFrame = some (.ok (f, r1))) :
    f.pixels_ = [] := by
  unfold TextFileReader.getFrame TextFileReader.getFrameLoop at hret
  cases he : TextFileReader.endOfStream { r with currentPixelNumber_ := 0 } with
  | error e => simp [he] at hret
  | ok res =>
    obtain ⟨eos, r2⟩ := res
    cases eos with
    | true =>
      simp [he] at hret
      rw [← hret.1]
      rfl
    | false =>
      have hopen : r2.in_.isOpen = false := by
        unfold TextFileReader.endOfStream at he
        cases hp : IfStream.peek r.in_ with
        | error e => simp [hp] at he
        | ok s =>
          simp [hp] at he
          rw [← he.2]
          show s.isOpen = false
          unfold IfStream.peek IfStream.setstate at hp
          split at hp
          · split at hp
            · split at hp
              · simp at hp
              · simp at hp; rw [← hp]; exact hclosed
            · simp at hp; rw [← hp]; exact hclosed
          · split at hp
            · simp at hp
            · simp at hp; rw [← hp]; exact hclosed
      simp [he, TextFileReader.parseMetadataString, hopen] at hret

/-- C4: a frame returned by `getFrame` has exactly the keys `1, ..., N`, `N`
being the number of lines with `[` that directly follow the first unread line,
the header; the key `i` holds the pixel of the `i`-th of these lines.  The
reader has the exception mask that `open` sets, or no open file.  The counter
is an `unsigned int`, hence the bound on `N`. -/
theorem getFrame_pixel_keys (r : TextFileReader) (f : Frame) (r1 : TextFileReader)
    (hmask : r.in_.exceptions = true ∨ r.in_.isOpen = false)
    (hsize : clusterLineCount (textLines r.in_.unread).tail < 2 ^ 32)
    (hret : r.getFrame = some (.ok (f, r1))) :
    f.getPixels.map Prod.fst = List.range' 1 (clusterLineCount (textLines r.in_.unread).tail) ∧
    f.getPixels.map Prod.snd =
      ((textLines r.in_.unread).tail.take (clusterLineCount (textLines r.in_.unread).tail)).map
        pixelOfLine := by
  by_cases hclosed : r.in_.isOpen = false
  · have hpix := getFrame_closed_pixels r f r1 hclosed hret
    have hun : r.in_.unread = [] := by simp [IfStream.unread, hclosed]
    simp [hun, textLines, textLinesAux, clusterLineCount, Frame.getPixels, hpix]
  have hexc : r.in_.exceptions = true := by
    rcases hmask with h | h
    · exact h
    · exact absurd h hclosed
  unfold TextFileReader.getFrame at hret
  cases heof : r.in_.good with
  | false =>
    rw [getFrameLoop_not_good _ { r with currentPixelNumber_ := 0 } _ _ heof hexc] at hret
    simp at hret
  | true =>
    by_cases hun : r.in_.unread = []
    · rw [getFrameLoop_exhausted _ { r with currentPixelNumber_ := 0 } _ _ heof hun] at hret
      simp at hret
      simp [hun, textLines, textLinesAux, clusterLineCount, ← hret.1, Frame.getPixels,
        Frame.default]
    · obtain ⟨n, hn⟩ : ∃ n, r.in_.data.length = n + 1 := by
        have h1 := unread_length_le r.in_
        have h2 : 0 < r.in_.unread.length := List.length_pos.mpr hun
        exact ⟨r.in_.data.length - 1, by omega⟩
      rw [hn] at hret
      rw [textLines_unread r.in_ hun] at hsize ⊢
      simp only [List.tail_cons] at hsize ⊢
      by_cases hline : '(' ∈ (splitLine r.in_.unread).1
      · rw [getFrameLoop_header_accepted (n + 1) { r with currentPixelNumber_ := 0 } _ heof hun
          hline] at hret
        have hpix := getFrameLoop_inFrame_pixels (n + 1) _ _ f r1 (by exact hexc)
          (by intro e he; rw [metadataFields_pixels] at he; simp [Frame.default] at he)
          (by
            show 0 + clusterLineCount (textLines r.in_.afterLine.unread) < 2 ^ 32
            omega) hret
        rw [metadataFields_pixels] at hpix
        have hlen := clusterLineCount_le (textLines r.in_.afterLine.unread)
        have hpix1 : f.getPixels =
            (List.range' 1 (clusterLineCount (textLines r.in_.afterLine.unread))).zip
              (((textLines r.in_.afterLine.unread).take
                (clusterLineCount (textLines r.in_.afterLine.unread))).map pixelOfLine) := by
          simpa [Frame.getPixels, Frame.default] using hpix
        rw [hpix1]
        constructor
        · apply List.map_fst_zip
          simp [List.length_take]
          exact hlen
        · apply List.map_snd_zip
          simp [List.length_take]
      · rw [getFrameLoop_header_rejected (n + 1) { r with currentPixelNumber_ := 0 } _ heof hun
          hline] at hret
        simp at hret

theorem getFrame_pixel_keys_witness :
    ({ pixels_ := [(1, { x_ := 19, y_ := 0, c_ := 5 }), (2, { x_ := 3, y_ := 0, c_ := 0 })],
       time_ := .finite false 1 0,
       runningTime_ := .finite false 13421773 (-27) } : Frame).getPixels.map Prod.fst =
      List.range' 1 (clusterLineCount (textLines
        (readerOn "Frame 1 (1.0 s, 0.1 s)\n[19, 0, 55]\n[3, 4, 2]\n\n").in_.unread).tail) :=
  (getFrame_pixel_keys (readerOn "Frame 1 (1.0 s, 0.1 s)\n[19, 0, 55]\n[3, 4, 2]\n\n")
    { pixels_ := [(1, { x_ := 19, y_ := 0, c_ := 5 }), (2, { x_ := 3, y_ := 0, c_ := 0 })],
      time_ := .finite false 1 0,
      runningTime_ := .finite false 13421773 (-27) }
    { readerOn "Frame 1 (1.0 s, 0.1 s)\n[19, 0, 55]\n[3, 4, 2]\n\n" with
      in_ := { (readerOn "Frame 1 (1.0 s, 0.1 s)\n[19, 0, 55]\n[3, 4, 2]\n\n").in_ with pos := 46 }
      currentPixelNumber_ := 2
      lineNumber_ := 5 }
    (Or.inl (by decide)) (by decide) (by decide)).1

/-! ## The code on concrete inputs -/

/-- C1: on the line `[19, 0, 55]` `parseClusterString` stores the pixel
`(19, 0, 5)`, not `(19, 0, 55)`, and from `[3, 4, 2]` it makes `(3, 0, 0)`:
the fields after the first are read one character too far to the right. -/
theorem parseClusterString_canonical_line_fields :
    ((readerOn "[19, 0, 55]\n").parseClusterString Frame.default).map
        (fun res => (res.1, res.2.2.getPixels.map Prod.snd))
      = .ok (true, [{ x_ := 19, y_ := 0, c_ := 5 }]) ∧
    pixelOfLine "[3, 4, 2]".toList = { x_ := 3, y_ := 0, c_ := 0 } := by
  decide

/-- C2: on the header `Frame 1 (1335967757.29 s, 0.1 s)` the frame reports the
time `81541 * 2^14 = 1335967744` and the running time `13421773 * 2^-27`, the
nearest `float` values, while `atof` gave the nearest `double` values
`1400863727068119 * 2^-20` and `3602879701896397 * 2^-55`. -/
theorem parseMetadataString_times_narrowed :
    ((readerOn "Frame 1 (1335967757.29 s, 0.1 s)\n").parseMetadataString Frame.default).map
        (fun res => (res.1, res.2.2.getTime, res.2.2.getRunningTime))
      = .ok (true, .finite false 81541 14, .finite false 13421773 (-27)) ∧
    atof "1335967757.29".toList = .finite false 1400863727068119 (-20) ∧
    atof "0.1".toList = .finite false 3602879701896397 (-55) := by
  decide

/-- C7: on the header `Frame 1 (1335967757.29 s, 0.1 s)` followed by a blank
line `getFrame` succeeds and the pixel map of the frame is empty, but the frame
does not carry the header's times: it reports `81541 * 2^14 = 1335967744` and
`13421773 * 2^-27`, while the header's times are the `double` values
`1400863727068119 * 2^-20` and `3602879701896397 * 2^-55` that `atof` returned. -/
theorem getFrame_header_times_narrowed :
    (readerOn "Frame 1 (1335967757.29 s, 0.1 s)\n\n").getFrame.map (Except.map Prod.fst)
      = some (.ok { pixels_ := [], time_ := .finite false 81541 14,
                    runningTime_ := .finite false 13421773 (-27) }) ∧
    (metadataTexts "Frame 1 (1335967757.29 s, 0.1 s)".toList 8)
      = ("1335967757.29".toList, "0.1".toList) ∧
    atof "1335967757.29".toList = .finite false 1400863727068119 (-20) ∧
    atof "0.1".toList = .finite false 3602879701896397 (-55) := by
  decide

/-- C3: on the six-line scenario the retrieval loop stores two frames, with the
pixels `(19,0,5)`, `(3,0,0)` and `(1,0,0)` and both times `1335967744`, and is
then left by the stream failure that the third `endOfStream` raises.  When the
sixth line has no newline, the second `getFrame` throws and one frame is stored. -/
theorem retrieveFrames_scenario :
    retrieveFrames (readerOn
      "Frame 1 (1335967757.29 s, 0.1 s)\n[19, 0, 55]\n[3, 4, 2]\n\nFrame 2 (1335967757.39 s, 0.2 s)\n[1, 1, 9]\n")
      = some ([(1,
          { pixels_ := [(1, { x_ := 19, y_ := 0, c_ := 5 }), (2, { x_ := 3, y_ := 0, c_ := 0 })],
            time_ := .finite false 81541 14,
            runningTime_ := .finite false 13421773 (-27) }),
         (2,
          { pixels_ := [(1, { x_ := 1, y_ := 0, c_ := 0 })],
            time_ := .finite false 81541 14,
            runningTime_ := .finite false 13421773 (-26) })],
        .error .ios) ∧
    retrieveFrames (readerOn
      "Frame 1 (1335967757.29 s, 0.1 s)\n[19, 0, 55]\n[3, 4, 2]\n\nFrame 2 (1335967757.39 s, 0.2 s)\n[1, 1, 9]")
      = some ([(1,
          { pixels_ := [(1, { x_ := 19, y_ := 0, c_ := 5 }), (2, { x_ := 3, y_ := 0, c_ := 0 })],
            time_ := .finite false 81541 14,
            runningTime_ := .finite false 13421773 (-27) })],
        .error .ios) := by
  decide

/-- C5: on a log of one block without a terminator line the retrieval loop
stores the frame and is then left by the stream failure of `endOfStream`; the
same happens when the terminator line is there but has no newline. -/
theorem retrieveFrames_without_terminator :
    retrieveFrames (readerOn "Frame 1 (1.0 s, 0.5 s)\n[1, 2, 3]\n")
      = some ([(1, { pixels_ := [(1, { x_ := 1, y_ := 0, c_ := 0 })],
                     time_ := .finite false 1 0, runningTime_ := .finite false 1 (-1) })],
        .error .ios) ∧
    retrieveFrames (readerOn "Frame 1 (1.0 s, 0.5 s)\n[1, 2, 3]\nend")
      = some ([(1, { pixels_ := [(1, { x_ := 1, y_ := 0, c_ := 0 })],
                     time_ := .finite false 1 0, runningTime_ := .finite false 1 (-1) })],
        .error .ios) := by
  decide

/-- C8, counterexample: after the only frame of `Frame 1 (1.0 s, 0.5 s)`, blank
line, has been read nothing is unread, and the next `getFrame` returns a frame,
the default one. -/
theorem getFrame_at_end_hands_out_frame :
    (readerOn "Frame 1 (1.0 s, 0.5 s)\n\n").afterGetFrame.in_.unread = [] ∧
    (readerOn "Frame 1 (1.0 s, 0.5 s)\n\n").afterGetFrame.getFrame.map (Except.map Prod.fst)
      = some (.ok Frame.default) := by
  decide

theorem getFrame_at_end_returns_default_witness :
    (readerOn "Frame 1 (1.0 s, 0.5 s)\n\n").afterGetFrame.getFrame =
      some (.ok (Frame.default,
        { (readerOn "Frame 1 (1.0 s, 0.5 s)\n\n").afterGetFrame with
          currentPixelNumber_ := 0
          in_ := { (readerOn "Frame 1 (1.0 s, 0.5 s)\n\n").afterGetFrame.in_ with eofbit := true } })) :=
  (getFrame_at_end_returns_default (readerOn "Frame 1 (1.0 s, 0.5 s)\n\n").afterGetFrame
    (by decide) (by decide)).1

/-- C9: when the header is the last line and has no newline, the header is
parsed and no line is left, yet `getFrame` throws the stream failure; so it
does when the last cluster line has no newline. -/
theorem getFrame_fails_after_unterminated_line :
    (readerOn "Frame 1 (1.0 s, 0.5 s)").getFrame = some (.error .ios) ∧
    (readerOn "Frame 1 (1.0 s, 0.5 s)\n[1, 2, 3]").getFrame = some (.error .ios) := by
  decide

/-- C10, counterexample: the line `Frame (abc` has no number after the `(`, yet
`parseMetadataString` answers true, moves the cursor behind the line, counts
the line and sets both times (to 0). -/
theorem parseMetadataString_accepts_malformed :
    ((readerOn "Frame (abc\n").parseMetadataString
        { pixels_ := [], time_ := .finite false 1 0, runningTime_ := .finite false 1 0 }).map
        (fun res => (res.1, res.2.1.in_.pos, res.2.1.lineNumber_, res.2.2))
      = .ok (true, 11, 2, Frame.default) := by
  decide

theorem parseMetadataString_rejects_iff_no_paren_witness :
    (readerOn "[19, 0, 55]\n").parseMetadataString Frame.default =
      .ok (false, readerOn "[19, 0, 55]\n", Frame.default) ∧
    ((readerOn "Frame 9 (soon s, 2.5 s)\n").parseMetadataString Frame.default).map
        (fun res => (res.1, res.2.1.in_.pos, res.2.1.lineNumber_, res.2.2))
      = .ok (true, 24, 2,
          { pixels_ := [], time_ := .finite false 0 0, runningTime_ := .finite false 5 (-1) }) :=
  ⟨(parseMetadataString_rejects_iff_no_paren (readerOn "[19, 0, 55]\n") Frame.default
      "[19, 0, 55]".toList "\n".toList (by decide) (by decide) (Or.inr ⟨[], by decide⟩)
      (by decide) (by decide)).1 (by decide),
   ((parseMetadataString_rejects_iff_no_paren (readerOn "Frame 9 (soon s, 2.5 s)\n")
      Frame.default "Frame 9 (soon s, 2.5 s)".toList "\n".toList (by decide) (by decide)
      (Or.inr ⟨[], by decide⟩) (by decide) (by decide)).2 (by decide)).symm ▸ (by decide)⟩

/-! ## The fuel of `getFrame` is enough -/

theorem setstate_unread (s s1 : IfStream) (eof fail : Bool) (h : s.setstate eof fail = .ok s1) :
    s1.unread = s.unread := by
  unfold IfStream.setstate at h
  split at h
  · simp at h
  · simp at h
    rw [← h]
    rfl

/-- The call `endOfStream` leaves the unread bytes as they are. -/
theorem endOfStream_unread (r r1 : TextFileReader) (b : Bool) (h : r.endOfStream = .ok (b, r1)) :
    r1.in_.unread = r.in_.unread := by
  unfold TextFileReader.endOfStream at h
  cases hp : r.in_.peek with
  | error e => simp [hp] at h
  | ok s =>
    simp [hp] at h
    rw [← h.2]
    unfold IfStream.peek at hp
    split at hp
    · split at hp
      · exact setstate_unread _ _ _ _ hp
      · simp at hp
        rw [← hp]
    · exact setstate_unread _ _ _ _ hp

theorem setstate_fail_not_good (s s1 : IfStream) (eof : Bool) (h : s.setstate eof true = .ok s1) :
    s1.good = false := by
  unfold IfStream.setstate at h
  split at h
  · simp at h
  · simp at h
    rw [← h]
    simp [IfStream.good]

theorem endOfStream_not_good_inv (r r1 : TextFileReader) (b : Bool) (hbad : r.in_.good = false)
    (h : r.endOfStream = .ok (b, r1)) : r1.in_.good = false := by
  unfold TextFileReader.endOfStream at h
  cases hp : r.in_.peek with
  | error e => simp [hp] at h
  | ok s =>
    simp [hp] at h
    rw [← h.2]
    unfold IfStream.peek at hp
    simp only [hbad] at hp
    exact setstate_fail_not_good _ _ _ hp

/-- A line can only be read from a `good()` stream. -/
theorem getline_not_good (s : IfStream) (hbad : s.good = false) (line : List Char) (s1 : IfStream)
    (h : s.getline = .ok (line, s1)) : line = [] := by
  unfold IfStream.getline at h
  simp only [hbad] at h
  cases hs : s.setstate false true with
  | error e => simp [hs] at h
  | ok s2 =>
    simp [hs] at h
    exact h.1

theorem find_nil (c : Char) : find [] c = none := by
  simp [find]

/-- When `parseMetadataString` answers true, the stream was `good()`, had unread
bytes, and the first of its unread lines was consumed. -/
theorem parseMetadataString_true_inv (r r2 : TextFileReader) (frame f2 : Frame)
    (h : r.parseMetadataString frame = .ok (true, r2, f2)) :
    r.in_.unread ≠ [] ∧ r2.in_ = r.in_.afterLine := by
  cases hg : r.in_.good with
  | true =>
    by_cases hun : r.in_.unread = []
    · unfold TextFileReader.parseMetadataString at h
      rw [endOfStream_of_exhausted r hg hun] at h
      split at h <;> simp at h
    · rw [parseMetadataString_of_unread r frame hg hun] at h
      split at h
      · simp at h
      · simp at h
        exact ⟨hun, by rw [← h.1]⟩
  | false =>
    exfalso
    unfold TextFileReader.parseMetadataString at h
    split at h
    · simp at h
    · cases he : r.endOfStream with
      | error e => simp [he] at h
      | ok res =>
        obtain ⟨b, r1⟩ := res
        have hr1 : r1.in_.good = false := endOfStream_not_good_inv r r1 b hg he
        cases b with
        | true => simp [he] at h
        | false =>
          simp only [he] at h
          cases hl : r1.in_.getline with
          | error e => simp [hl] at h
          | ok res2 =>
            obtain ⟨line, s⟩ := res2
            have := getline_not_good r1.in_ hr1 line s hl
            simp only [hl, this, find_nil] at h
            split at h <;> simp at h

/-- When `parseClusterString` answers true, the stream was `good()`, had unread
bytes, and the first of its unread lines was consumed. -/
theorem parseClusterString_true_inv (r r2 : TextFileReader) (frame f2 : Frame)
    (h : r.parseClusterString frame = .ok (true, r2, f2)) :
    r.in_.unread ≠ [] ∧ r2.in_ = r.in_.afterLine := by
  cases hg : r.in_.good with
  | true =>
    by_cases hun : r.in_.unread = []
    · unfold TextFileReader.parseClusterString at h
      rw [endOfStream_of_exhausted r hg hun] at h
      split at h <;> simp at h
    · rw [parseClusterString_of_unread r frame hg hun] at h
      split at h
      · simp at h
      · simp at h
        exact ⟨hun, by rw [← h.1]⟩
  | false =>
    exfalso
    unfold TextFileReader.parseClusterString at h
    split at h
    · simp at h
    · cases he : r.endOfStream with
      | error e => simp [he] at h
      | ok res =>
        obtain ⟨b, r1⟩ := res
        have hr1 : r1.in_.good = false := endOfStream_not_good_inv r r1 b hg he
        cases b with
        | true => simp [he] at h
        | false =>
          simp only [he] at h
          cases hl : r1.in_.getline with
          | error e => simp [hl] at h
          | ok res2 =>
            obtain ⟨line, s⟩ := res2
            have := getline_not_good r1.in_ hr1 line s hl
            simp only [hl, this, find_nil] at h
            split at h <;> simp at h

/-- The loop of `getFrame` ends, by a return or by an exception, as soon as it
has more fuel than there are unread bytes. -/
theorem getFrameLoop_isSome (fuel : Nat) :
    ∀ (r : TextFileReader) (frame : Frame) (b : Bool), r.in_.unread.length < fuel →
      (TextFileReader.getFrameLoop fuel r frame b).isSome = true := by
  induction fuel with
  | zero => intro r frame b h; omega
  | succ n ih =>
    intro r frame b hfuel
    unfold TextFileReader.getFrameLoop
    cases he : r.endOfStream with
    | error e => simp
    | ok res =>
      obtain ⟨eos, r1⟩ := res
      have hun1 := endOfStream_unread r r1 eos he
      cases eos with
      | true => simp
      | false =>
        cases b with
        | false =>
          simp only [if_true]
          cases hp : r1.parseMetadataString frame with
          | error e => simp
          | ok res2 =>
            obtain ⟨acc, r2, f2⟩ := res2
            cases acc with
            | false => simp
            | true =>
              obtain ⟨hne, hin⟩ := parseMetadataString_true_inv r1 r2 frame f2 hp
              have hlt := afterLine_unread_length r1.in_ hne
              rw [hun1] at hlt
              exact ih r2 f2 true (by rw [hin]; omega)
        | true =>
          simp only [Bool.true_eq_false, if_false]
          cases hp : r1.parseClusterString frame with
          | error e => simp
          | ok res2 =>
            obtain ⟨acc, r2, f2⟩ := res2
            cases acc with
            | true =>
              obtain ⟨hne, hin⟩ := parseClusterString_true_inv r1 r2 frame f2 hp
              have hlt := afterLine_unread_length r1.in_ hne
              rw [hun1] at hlt
              exact ih r2 f2 true (by rw [hin]; omega)
            | false =>
              simp only
              cases r2.eatLine <;> simp

/-- The method `getFrame` always ends, by a return or by an exception: its fuel
is never used up. -/
theorem getFrame_isSome (r : TextFileReader) : r.getFrame.isSome = true := by
  unfold TextFileReader.getFrame
  apply getFrameLoop_isSome
  have := unread_length_le r.in_
  show r.in_.unread.length < r.in_.data.length + 1
  omega

/-! ## Classification of cluster lines -/

theorem setstate_fields (s s1 : IfStream) (eof fail : Bool) (h : s.setstate eof fail = .ok s1) :
    s1.pos = s.pos ∧ s1.data = s.data ∧ s1.isOpen = s.isOpen ∧ (fail = true → s1.failbit = true) := by
  unfold IfStream.setstate at h
  split at h
  · simp at h
  · simp at h
    rw [← h]
    simp
    intro hf
    exact Or.inr hf

theorem peek_fields (s s1 : IfStream) (h : s.peek = .ok s1) :
    s1.pos = s.pos ∧ s1.data = s.data ∧ s1.isOpen = s.isOpen := by
  unfold IfStream.peek at h
  split at h
  · split at h
    · have := setstate_fields _ _ _ _ h
      exact ⟨this.1, this.2.1, this.2.2.1⟩
    · simp at h
      rw [← h]
      simp
  · have := setstate_fields _ _ _ _ h
    exact ⟨this.1, this.2.1, this.2.2.1⟩

/-- The call `endOfStream` changes neither the read position nor the counters. -/
theorem endOfStream_fields (r r1 : TextFileReader) (b : Bool) (h : r.endOfStream = .ok (b, r1)) :
    r1.in_.pos = r.in_.pos ∧ r1.in_.data = r.in_.data ∧ r1.in_.isOpen = r.in_.isOpen ∧
      r1.lineNumber_ = r.lineNumber_ ∧ r1.currentPixelNumber_ = r.currentPixelNumber_ := by
  unfold TextFileReader.endOfStream at h
  cases hp : r.in_.peek with
  | error e => simp [hp] at h
  | ok s =>
    simp [hp] at h
    have := peek_fields _ _ hp
    rw [← h.2]
    exact ⟨this.1, this.2.1, this.2.2, rfl, rfl⟩

theorem getline_not_good_fields (s : IfStream) (hbad : s.good = false) (line : List Char)
    (s1 : IfStream) (h : s.getline = .ok (line, s1)) :
    line = [] ∧ s1.pos = s.pos ∧ s1.data = s.data ∧ s1.isOpen = s.isOpen ∧ s1.failbit = true := by
  unfold IfStream.getline at h
  simp only [hbad] at h
  cases hs : s.setstate false true with
  | error e => simp [hs] at h
  | ok s2 =>
    simp [hs] at h
    have := setstate_fields _ _ _ _ hs
    rw [← h.2]
    exact ⟨h.1, this.1, this.2.1, this.2.2.1, this.2.2.2 rfl⟩

theorem seekg_failbit_fields (s s1 : IfStream) (pos : Nat) (hf : s.failbit = true)
    (h : s.seekg pos = .ok s1) : s1.pos = s.pos ∧ s1.data = s.data ∧ s1.isOpen = s.isOpen := by
  unfold IfStream.seekg at h
  simp only [hf, if_true] at h
  have := setstate_fields _ _ _ _ h
  exact ⟨this.1, this.2.1, this.2.2.1⟩

theorem unread_congr (s s1 : IfStream) (hpos : s1.pos = s.pos) (hdata : s1.data = s.data)
    (hopen : s1.isOpen = s.isOpen) : s1.unread = s.unread := by
  unfold IfStream.unread
  rw [hpos, hdata, hopen]

/-- When `parseMetadataString` answers false, in whatever state the stream was, the
read position, the unread bytes, the two counters and the frame are as before. -/
theorem parseMetadataString_false_restores (r r1 : TextFileReader) (frame f1 : Frame)
    (h : r.parseMetadataString frame = .ok (false, r1, f1)) :
    r1.in_.pos = r.in_.pos ∧ r1.in_.unread = r.in_.unread ∧ r1.lineNumber_ = r.lineNumber_ ∧
      r1.currentPixelNumber_ = r.currentPixelNumber_ ∧ f1 = frame := by
  cases hg : r.in_.good with
  | true =>
    by_cases hun : r.in_.unread = []
    · unfold TextFileReader.parseMetadataString at h
      rw [endOfStream_of_exhausted r hg hun] at h
      split at h
      · simp at h
      · simp at h
        rw [← h.1, ← h.2]
        exact ⟨rfl, rfl, rfl, rfl, rfl⟩
    · rw [parseMetadataString_of_unread r frame hg hun] at h
      split at h
      · simp at h
        rw [← h.1, ← h.2]
        exact ⟨rfl, rfl, rfl, rfl, rfl⟩
      · simp at h
  | false =>
    unfold TextFileReader.parseMetadataString at h
    split at h
    · simp at h
    · cases he : r.endOfStream with
      | error e => simp [he] at h
      | ok res =>
        obtain ⟨b, r0⟩ := res
        have hr0 : r0.in_.good = false := endOfStream_not_good_inv r r0 b hg he
        obtain ⟨hpos0, hdata0, hopen0, hln0, hpn0⟩ := endOfStream_fields r r0 b he
        cases b with
        | true =>
          simp [he] at h
          rw [← h.1, ← h.2]
          exact ⟨hpos0, unread_congr _ _ hpos0 hdata0 hopen0, hln0, hpn0, rfl⟩
        | false =>
          simp only [he] at h
          cases hl : r0.in_.getline with
          | error e => simp [hl] at h
          | ok res2 =>
            obtain ⟨line, s⟩ := res2
            obtain ⟨hline, hpos1, hdata1, hopen1, hfail1⟩ :=
              getline_not_good_fields r0.in_ hr0 line s hl
            simp only [hl, hline, find_nil] at h
            cases hs : s.seekg r0.in_.tellg with
            | error e => simp [hs] at h
            | ok s1 =>
              obtain ⟨hpos2, hdata2, hopen2⟩ := seekg_failbit_fields s s1 _ hfail1 hs
              simp [hs] at h
              rw [← h.1, ← h.2]
              refine ⟨?_, ?_, hln0, hpn0, rfl⟩
              · show s1.pos = r.in_.pos
                rw [hpos2, hpos1, hpos0]
              · show s1.unread = r.in_.unread
                exact unread_congr _ _ (by rw [hpos2, hpos1, hpos0])
                  (by rw [hdata2, hdata1, hdata0]) (by rw [hopen2, hopen1, hopen0])

/-- When `parseClusterString` answers false, in whatever state the stream was, the
read position, the unread bytes, the two counters and the frame are as before. -/
theorem parseClusterString_false_restores (r r1 : TextFileReader) (frame f1 : Frame)
    (h : r.parseClusterString frame = .ok (false, r1, f1)) :
    r1.in_.pos = r.in_.pos ∧ r1.in_.unread = r.in_.unread ∧ r1.lineNumber_ = r.lineNumber_ ∧
      r1.currentPixelNumber_ = r.currentPixelNumber_ ∧ f1 = frame := by
  cases hg : r.in_.good with
  | true =>
    by_cases hun : r.in_.unread = []
    · unfold TextFileReader.parseClusterString at h
      rw [endOfStream_of_exhausted r hg hun] at h
      split at h
      · simp at h
      · simp at h
        rw [← h.1, ← h.2]
        exact ⟨rfl, rfl, rfl, rfl, rfl⟩
    · rw [parseClusterString_of_unread r frame hg hun] at h
      split at h
      · simp at h
        rw [← h.1, ← h.2]
        exact ⟨rfl, rfl, rfl, rfl, rfl⟩
      · simp at h
  | false =>
    unfold TextFileReader.parseClusterString at h
    split at h
    · simp at h
    · cases he : r.endOfStream with
      | error e => simp [he] at h
      | ok res =>
        obtain ⟨b, r0⟩ := res
        have hr0 : r0.in_.good = false := endOfStream_not_good_inv r r0 b hg he
        obtain ⟨hpos0, hdata0, hopen0, hln0, hpn0⟩ := endOfStream_fields r r0 b he
        cases b with
        | true =>
          simp [he] at h
          rw [← h.1, ← h.2]
          exact ⟨hpos0, unread_congr _ _ hpos0 hdata0 hopen0, hln0, hpn0, rfl⟩
        | false =>
          simp only [he] at h
          cases hl : r0.in_.getline with
          | error e => simp [hl] at h
          | ok res2 =>
            obtain ⟨line, s⟩ := res2
            obtain ⟨hline, hpos1, hdata1, hopen1, hfail1⟩ :=
              getline_not_good_fields r0.in_ hr0 line s hl
            simp only [hl, hline, find_nil] at h
            cases hs : s.seekg r0.in_.tellg with
            | error e => simp [hs] at h
            | ok s1 =>
              obtain ⟨hpos2, hdata2, hopen2⟩ := seekg_failbit_fields s s1 _ hfail1 hs
              simp [hs] at h
              rw [← h.1, ← h.2]
              refine ⟨?_, ?_, hln0, hpn0, rfl⟩
              · show s1.pos = r.in_.pos
                rw [hpos2, hpos1, hpos0]
              · show s1.unread = r.in_.unread
                exact unread_congr _ _ (by rw [hpos2, hpos1, hpos0])
                  (by rw [hdata2, hdata1, hdata0]) (by rw [hopen2, hopen1, hopen0])

/-- C14: when `parseClusterString` or `parseMetadataString` returns false, in
whatever state of the stream, the cursor is where it was before the call (the
same bytes are unread), `lineNumber_` and the pixel counter are unchanged, and
the frame is the frame passed in. -/
theorem failed_classification_restores (r r1 : TextFileReader) (frame f1 : Frame)
    (h : r.parseClusterString frame = .ok (false, r1, f1) ∨
      r.parseMetadataString frame = .ok (false, r1, f1)) :
    r1.in_.pos = r.in_.pos ∧ r1.in_.unread = r.in_.unread ∧ r1.lineNumber_ = r.lineNumber_ ∧
      r1.currentPixelNumber_ = r.currentPixelNumber_ ∧ f1 = frame := by
  rcases h with h | h
  · exact parseClusterString_false_restores r r1 frame f1 h
  · exact parseMetadataString_false_restores r r1 frame f1 h

theorem failed_classification_restores_witness :
    (readerOn "Frame 1 (1.0 s, 0.5 s)\n[1, 2, 3]\n\n[4, 5, 6]\n").afterGetFrame.in_.getline.map
        (fun res => (res.1, res.2.pos)) = .ok ("[4, 5, 6]".toList, 44) ∧
    (∃ r1 f1,
      (readerOn "Frame 1 (1.0 s, 0.5 s)\n[1, 2, 3]\n\n[4, 5, 6]\n").afterGetFrame.parseMetadataString
          { pixels_ := [], time_ := .finite false 1 0, runningTime_ := .finite false 1 (-1) }
        = .ok (false, r1, f1) ∧
      r1.in_.pos = 34 ∧ r1.in_.unread = "[4, 5, 6]\n".toList ∧ r1.lineNumber_ = 4 ∧
      r1.currentPixelNumber_ = 1 ∧
      f1 = { pixels_ := [], time_ := .finite false 1 0, runningTime_ := .finite false 1 (-1) }) ∧
    (∃ r1 f1,
      (readerOn "Frame 1 (1.0 s, 0.5 s)\nend\n").parseClusterString Frame.default
        = .ok (false, r1, f1) ∧
      r1.in_.pos = 0 ∧ r1.in_.unread = "Frame 1 (1.0 s, 0.5 s)\nend\n".toList ∧
      r1.lineNumber_ = 1 ∧ f1 = Frame.default) :=
  have h1 : (readerOn
        "Frame 1 (1.0 s, 0.5 s)\n[1, 2, 3]\n\n[4, 5, 6]\n").afterGetFrame.parseMetadataString
          { pixels_ := [], time_ := .finite false 1 0, runningTime_ := .finite false 1 (-1) }
      = .ok (false,
          (readerOn "Frame 1 (1.0 s, 0.5 s)\n[1, 2, 3]\n\n[4, 5, 6]\n").afterGetFrame,
          { pixels_ := [], time_ := .finite false 1 0, runningTime_ := .finite false 1 (-1) }) := by
    decide
  have h2 : (readerOn "Frame 1 (1.0 s, 0.5 s)\nend\n").parseClusterString Frame.default
      = .ok (false, readerOn "Frame 1 (1.0 s, 0.5 s)\nend\n", Frame.default) := by decide
  have hr1 := failed_classification_restores _ _ _ _ (Or.inr h1)
  have hr2 := failed_classification_restores _ _ _ _ (Or.inl h2)
  ⟨by decide,
   ⟨_, _, h1, hr1.1.trans (by decide), hr1.2.1.trans (by decide), hr1.2.2.1.trans (by decide),
     hr1.2.2.2.1.trans (by decide), hr1.2.2.2.2⟩,
   ⟨_, _, h2, hr2.1.trans (by decide), hr2.2.1.trans (by decide), hr2.2.2.1.trans (by decide),
     hr2.2.2.2.2⟩⟩

/-! ## Permissive numeric conversion -/

theorem readDigits_no_digit (c : Char) (cs : List Char) (h : digitVal c = none) :
    readDigits (c :: cs) 0 0 = (0, 0, c :: cs) := by
  simp [readDigits, h]

/-- When the text does not begin with an integer, `atoi` returns 0. -/
theorem atoi_eq_zero (t : List Char) (h : beginsWithInteger t = false) : atoi t = 0 := by
  unfold beginsWithInteger at h
  unfold atoi strtol10
  rcases hs : readSign (skipSpaces t) with ⟨neg, rest⟩
  rw [hs] at h
  simp only at h ⊢
  cases rest with
  | nil =>
    cases neg <;> simp [readDigits] <;> decide
  | cons c cs =>
    have hc : digitVal c = none := by
      cases hd : digitVal c with
      | none => rfl
      | some d => simp [hd] at h
    rw [readDigits_no_digit c cs hc]
    cases neg <;> simp <;> decide

theorem zero_toFloat : CDouble.zero.toFloat = CDouble.zero := by decide

/-- When the text does not begin with a floating-point number, `atof` returns
positive zero. -/
theorem atof_eq_zero (t : List Char) (h : beginsWithFloat t = false) : atof t = CDouble.zero := by
  unfold beginsWithFloat at h
  unfold atof strtod
  rcases hs : readSign (skipSpaces t) with ⟨neg, r⟩
  rw [hs] at h
  simp only [Bool.or_eq_false_iff] at h
  obtain ⟨⟨hinf, hnan⟩, hnum⟩ := h
  simp only [hinf, hnan]
  have hdec : strtodDecimal neg r = CDouble.zero := by
    unfold strtodDecimal
    cases r with
    | nil => simp [readDigits]
    | cons c cs =>
      have hc : digitVal c = none := by
        cases hd : digitVal c with
        | none => rfl
        | some d => simp [hd] at hnum
      rw [readDigits_no_digit c cs hc]
      by_cases hdot : c = '.'
      · subst hdot
        cases cs with
        | nil => simp [readDigits]
        | cons d ds =>
          have hd : digitVal d = none := by
            cases hdd : digitVal d with
            | none => rfl
            | some v => simp [hdd] at hnum
          simp [readDigits_no_digit d ds hd]
      · simp
        split
        · rename_i heq
          simp at heq
          exact absurd heq.1 hdot
        · simp
  cases r with
  | nil => simpa using hdec
  | cons c cs =>
    have hc : digitVal c = none := by
      cases hd : digitVal c with
      | none => rfl
      | some d => simp [hd] at hnum
    have hne : c ≠ '0' := by
      intro h0
      rw [h0] at hc
      revert hc
      decide
    simp only [Bool.false_eq_true, if_false]
    split
    · rename_i heq
      simp at heq
      exact absurd heq.1 hne
    · exact hdec

theorem beginsWithFloat_eq (t : List Char) :
    beginsWithFloat t = (beginsWithInfNan t || beginsWithNumber t) := by
  unfold beginsWithFloat beginsWithInfNan beginsWithNumber
  cases (readSign (skipSpaces t)).2 <;> rfl

/-- When the text begins with the letters `inf` or `nan`, `atof` returns an
infinity or a NaN. -/
theorem atof_inf_nan (t : List Char) (h : beginsWithInfNan t = true) :
    atof t = .nan ∨ ∃ neg, atof t = .inf neg := by
  unfold beginsWithInfNan at h
  unfold atof strtod
  rcases hs : readSign (skipSpaces t) with ⟨neg, r⟩
  rw [hs] at h
  simp only [Bool.or_eq_true] at h
  simp only
  by_cases hinf : hasPrefixCI r ['i', 'n', 'f'] = true
  · right
    exact ⟨neg, by simp [hinf]⟩
  · left
    rcases h with h | h
    · exact absurd h hinf
    · simp [hinf, h]

/-- Narrowing to `float` keeps an infinity and a NaN. -/
theorem toFloat_inf_nan (v : CDouble) (h : v = .nan ∨ ∃ neg, v = .inf neg) :
    v.toFloat = .nan ∨ ∃ neg, v.toFloat = .inf neg := by
  rcases h with h | ⟨neg, h⟩
  · left; rw [h]; rfl
  · right; exact ⟨neg, by rw [h]; rfl⟩

/-- C12, as amended: a line with the opening delimiter is accepted whatever its
fields are.  A pixel field whose text does not begin with a number is stored as
the integer 0.  A time whose text begins neither with a number nor with the
letters `inf` or `nan` is stored as the `double` 0.0; a time whose text begins
with `inf` or `nan` (as `info` and `nano` do) is stored as an infinity or a NaN.
The texts are those that the routine extracts and hands to `atoi` and `atof`. -/
theorem permissive_numeric_conversion (r : TextFileReader) (frame : Frame)
    (line rest : List Char) (hgood : r.in_.good = true) (hnl : '\n' ∉ line)
    (hrest : rest = [] ∨ ∃ rest1, rest = '\n' :: rest1)
    (hunread : r.in_.unread = line ++ rest) :
    ('[' ∈ line → ∃ r1 pixel,
      r.parseClusterString frame =
        .ok (true, r1, frame.setPixel ((r.currentPixelNumber_ + 1) % 2 ^ 32) pixel) ∧
      (beginsWithInteger (clusterTexts line (line.indexOf '[')).1 = false → pixel.x = 0) ∧
      (beginsWithInteger (clusterTexts line (line.indexOf '[')).2.1 = false → pixel.y = 0) ∧
      (beginsWithInteger (clusterTexts line (line.indexOf '[')).2.2 = false → pixel.c = 0)) ∧
    ('(' ∈ line → ∃ r1 frame1,
      r.parseMetadataString frame = .ok (true, r1, frame1) ∧
      (beginsWithNumber (metadataTexts line (line.indexOf '(')).1 = false →
        beginsWithInfNan (metadataTexts line (line.indexOf '(')).1 = false →
        frame1.getTime = CDouble.zero) ∧
      (beginsWithInfNan (metadataTexts line (line.indexOf '(')).1 = true →
        frame1.getTime = .nan ∨ ∃ neg, frame1.getTime = .inf neg) ∧
      (beginsWithNumber (metadataTexts line (line.indexOf '(')).2 = false →
        beginsWithInfNan (metadataTexts line (line.indexOf '(')).2 = false →
        frame1.getRunningTime = CDouble.zero) ∧
      (beginsWithInfNan (metadataTexts line (line.indexOf '(')).2 = true →
        frame1.getRunningTime = .nan ∨ ∃ neg, frame1.getRunningTime = .inf neg)) := by
  have hfirst : (splitLine r.in_.unread).1 = line := by
    rw [hunread, splitLine_first line rest hnl hrest]
  constructor
  · intro hp
    have hne1 : r.in_.unread ≠ [] := by
      rw [hunread]
      intro hnil
      rw [List.append_eq_nil] at hnil
      rw [hnil.1] at hp
      simp at hp
    rw [parseClusterString_of_unread r frame hgood hne1, hfirst, find_of_mem _ _ hp]
    refine ⟨_, _, rfl, ?_, ?_, ?_⟩
    · intro h
      exact atoi_eq_zero _ h
    · intro h
      exact atoi_eq_zero _ h
    · intro h
      exact atoi_eq_zero _ h
  · intro hp
    have hne1 : r.in_.unread ≠ [] := by
      rw [hunread]
      intro hnil
      rw [List.append_eq_nil] at hnil
      rw [hnil.1] at hp
      simp at hp
    rw [parseMetadataString_of_unread r frame hgood hne1, hfirst, find_of_mem _ _ hp]
    refine ⟨_, _, rfl, ?_, ?_, ?_, ?_⟩
    · intro h h0
      show (atof (metadataTexts line (line.indexOf '(')).1).toFloat = CDouble.zero
      rw [atof_eq_zero _ (by rw [beginsWithFloat_eq, h, h0]; rfl), zero_toFloat]
    · intro h
      show (atof (metadataTexts line (line.indexOf '(')).1).toFloat = .nan ∨
        ∃ neg, (atof (metadataTexts line (line.indexOf '(')).1).toFloat = .inf neg
      exact toFloat_inf_nan _ (atof_inf_nan _ h)
    · intro h h0
      show (atof (metadataTexts line (line.indexOf '(')).2).toFloat = CDouble.zero
      rw [atof_eq_zero _ (by rw [beginsWithFloat_eq, h, h0]; rfl), zero_toFloat]
    · intro h
      show (atof (metadataTexts line (line.indexOf '(')).2).toFloat = .nan ∨
        ∃ neg, (atof (metadataTexts line (line.indexOf '(')).2).toFloat = .inf neg
      exact toFloat_inf_nan _ (atof_inf_nan _ h)

theorem permissive_numeric_conversion_witness :
    (∃ r1 pixel, (readerOn "[x, 17, ]\n").parseClusterString Frame.default =
      .ok (true, r1, Frame.default.setPixel
        (((readerOn "[x, 17, ]\n").currentPixelNumber_ + 1) % 2 ^ 32) pixel) ∧
      pixel.x = 0 ∧ pixel.c = 0) ∧
    (∃ r1 frame1, (readerOn "Frame (soon s, -later s)\n").parseMetadataString Frame.default =
      .ok (true, r1, frame1) ∧ frame1.getTime = CDouble.zero ∧
        frame1.getRunningTime = CDouble.zero) :=
  ⟨match (permissive_numeric_conversion (readerOn "[x, 17, ]\n") Frame.default
      "[x, 17, ]".toList "\n".toList (by decide) (by decide) (Or.inr ⟨[], by decide⟩)
      (by decide)).1 (by decide) with
    | ⟨r1, pixel, h, hx, _, hc⟩ => ⟨r1, pixel, h, hx (by decide), hc (by decide)⟩,
   match (permissive_numeric_conversion (readerOn "Frame (soon s, -later s)\n") Frame.default
      "Frame (soon s, -later s)".toList "\n".toList (by decide) (by decide)
      (Or.inr ⟨[], by decide⟩) (by decide)).2 (by decide) with
    | ⟨r1, frame1, h, h1, _, h2, _⟩ =>
      ⟨r1, frame1, h, h1 (by decide) (by decide), h2 (by decide) (by decide)⟩⟩

/-- C12, counterexample: on the line `Frame (info s, nano s)` the texts of the two
times are `info` and `nano`; neither begins with a number, yet the line is
accepted with the time `+inf` and the running time NaN, not 0.0. -/
theorem permissive_conversion_inf_nan_not_zero :
    metadataTexts "Frame (info s, nano s)".toList ("Frame (info s, nano s)".toList.indexOf '(')
      = ("info".toList, "nano".toList) ∧
    beginsWithNumber "info".toList = false ∧ beginsWithNumber "nano".toList = false ∧
    ((readerOn "Frame (info s, nano s)\n").parseMetadataString Frame.default).map
        (fun res => (res.1, res.2.2.getTime, res.2.2.getRunningTime))
      = .ok (true, .inf false, .nan) ∧
    CDouble.inf false ≠ CDouble.zero ∧ CDouble.nan ≠ CDouble.zero := by
  decide

/-! ## Field extraction stays inside the line -/

theorem extractLoopChecked_eq (input : List Char) (fuel : Nat) :
    ∀ (pos : Nat) (temp : List Char),
      extractLoopChecked input fuel pos temp = some (extractLoop input fuel pos temp) := by
  induction fuel with
  | zero => intro pos temp; rfl
  | succ n ih =>
    intro pos temp
    unfold extractLoopChecked extractLoop
    by_cases hlt : pos < input.length
    · have hget : input[pos]? = some input[pos] := List.getElem?_eq_getElem hlt
      rw [if_pos hlt, hget]
      dsimp only
      by_cases hsp : input[pos] = ' '
      · simp [hsp]
      · rw [if_pos hsp, if_pos hsp]
        exact ih _ _
    · have hget : input[pos]? = none := List.getElem?_eq_none (by omega)
      rw [if_neg hlt, hget]

theorem extractSubstringChecked_eq (input : List Char) (pos : Nat) (delimeter : Char) :
    extractSubstringChecked input pos delimeter = some (extractSubstring input pos delimeter) := by
  unfold extractSubstringChecked extractSubstring
  exact extractLoopChecked_eq input input.length pos []

/-- C13: for every line, every start position (also at or beyond the end) and
every delimiter, `extractSubstring` and the field extraction of both parse
routines read `input[i]` only at indices `i < input.length()`: the versions
with checked reads never fail and return what the code returns.  A field that
starts at or beyond the end of the line is the empty text, and the position is
left alone. -/
theorem field_extraction_in_bounds (input line : List Char) (pos : Nat) (delimeter : Char)
    (frame : Frame) :
    extractSubstringChecked input pos delimeter = some (extractSubstring input pos delimeter) ∧
    clusterFieldsChecked line pos = some (clusterFields line pos) ∧
    metadataFieldsChecked line pos frame = some (metadataFields line pos frame) ∧
    (input.length ≤ pos → extractSubstring input pos delimeter = ([], pos)) := by
  refine ⟨extractSubstringChecked_eq input pos delimeter, ?_, ?_, ?_⟩
  · unfold clusterFieldsChecked
    simp only [extractSubstringChecked_eq]
    rfl
  · unfold metadataFieldsChecked
    simp only [extractSubstringChecked_eq]
    rfl
  · intro hle
    rw [extractSubstring_eq, List.drop_eq_nil_of_le hle]
    rfl

theorem field_extraction_in_bounds_witness :
    extractSubstring "[".toList 1 ',' = ([], 1) ∧
    clusterFieldsChecked "[".toList 0 = some { x_ := 0, y_ := 0, c_ := 0 } :=
  ⟨(field_extraction_in_bounds "[".toList "[".toList 1 ',' Frame.default).2.2.2 (by decide),
   (field_extraction_in_bounds "[".toList "[".toList 0 ',' Frame.default).2.1.trans (by decide)⟩

/-! ## Pixel -/

theorem wrapInt32_of_fits (z : Int) (hlo : -(2 ^ 31) ≤ z) (hhi : z < 2 ^ 31) : wrapInt32 z = z := by
  unfold wrapInt32
  rw [Int.emod_eq_of_lt (by omega) (by omega)]
  omega

/-- C15: a pixel constructed from `(x, y, c)` gives back `x`, `y` and `c`; its
`xy()` is `256 * y + x` computed in `int`, which is the mathematical value
whenever that fits in 32 bits; the default pixel is `(0, 0, 0)` with `xy()` 0. -/
theorem pixel_accessors (x y c : Int) :
    (Pixel.mk x y c).x = x ∧ (Pixel.mk x y c).y = y ∧ (Pixel.mk x y c).c = c ∧
    (Pixel.mk x y c).xy = wrapInt32 (256 * y + x) ∧
    (-(2 ^ 31) ≤ 256 * y + x ∧ 256 * y + x < 2 ^ 31 → (Pixel.mk x y c).xy = 256 * y + x) ∧
    Pixel.default = Pixel.mk 0 0 0 ∧ Pixel.default.xy = 0 := by
  refine ⟨rfl, rfl, rfl, rfl, ?_, rfl, by decide⟩
  intro h
  exact wrapInt32_of_fits _ h.1 h.2

theorem pixel_accessors_witness : (Pixel.mk 19 3 55).xy = 256 * 3 + 19 :=
  (pixel_accessors 19 3 55).2.2.2.2.1 (by decide)

/-- C16: the operator `==` of pixels is true exactly when the three members are
equal; it is reflexive, symmetric and transitive. -/
theorem pixel_eq_structural (p q : Pixel) :
    (p.eq q = true ↔ p.x = q.x ∧ p.y = q.y ∧ p.c = q.c) ∧
    p.eq p = true ∧ p.eq q = q.eq p ∧
    (∀ s : Pixel, p.eq q = true → q.eq s = true → p.eq s = true) := by
  have hiff : ∀ a b : Pixel, a.eq b = true ↔ a.x = b.x ∧ a.y = b.y ∧ a.c = b.c := by
    intro a b
    unfold Pixel.eq Pixel.x Pixel.y Pixel.c
    constructor
    · intro h
      split at h
      · rename_i hc
        exact ⟨hc.1.symm, hc.2.1.symm, hc.2.2.symm⟩
      · simp at h
    · intro h
      rw [if_pos ⟨h.1.symm, h.2.1.symm, h.2.2.symm⟩]
  refine ⟨hiff p q, (hiff p p).mpr ⟨rfl, rfl, rfl⟩, ?_, ?_⟩
  · cases hpq : p.eq q with
    | true =>
      have := (hiff p q).mp hpq
      exact ((hiff q p).mpr ⟨this.1.symm, this.2.1.symm, this.2.2.symm⟩).symm
    | false =>
      cases hqp : q.eq p with
      | false => rfl
      | true =>
        have := (hiff q p).mp hqp
        rw [(hiff p q).mpr ⟨this.1.symm, this.2.1.symm, this.2.2.symm⟩] at hpq
        exact absurd hpq (by simp)
  · intro s h1 h2
    have a := (hiff p q).mp h1
    have b := (hiff q s).mp h2
    exact (hiff p s).mpr ⟨a.1.trans b.1, a.2.1.trans b.2.1, a.2.2.trans b.2.2⟩

theorem pixel_eq_structural_witness :
    (Pixel.mk 19 0 55).eq (Pixel.mk 19 0 55) = true ∧ (Pixel.mk 19 0 55).eq (Pixel.mk 19 0 5) = false :=
  ⟨(pixel_eq_structural (Pixel.mk 19 0 55) (Pixel.mk 19 0 55)).2.2.2 (Pixel.mk 19 0 55)
      (by decide) (by decide),
   by decide⟩

/-! ## Frame -/

theorem mapFind_mapSet_self {V : Type} (k : Nat) (v : V) (l : List (Nat × V)) :
    mapFind k (mapSet k v l) = some v := by
  induction l with
  | nil => simp [mapSet, mapFind]
  | cons e rest ih =>
    obtain ⟨k1, v1⟩ := e
    unfold mapSet
    by_cases h1 : k < k1
    · simp [h1, mapFind]
    · by_cases h2 : k = k1
      · simp [h1, h2, mapFind]
      · simp [h1, h2, mapFind, ih]

theorem mapFind_mapSet_other {V : Type} (k k0 : Nat) (v : V) (l : List (Nat × V)) (h : k0 ≠ k) :
    mapFind k0 (mapSet k v l) = mapFind k0 l := by
  induction l with
  | nil => simp [mapSet, mapFind, h]
  | cons e rest ih =>
    obtain ⟨k1, v1⟩ := e
    unfold mapSet
    by_cases h1 : k < k1
    · simp [h1, mapFind, h]
    · by_cases h2 : k = k1
      · subst h2
        simp [mapFind, h]
      · simp only [h1, h2, if_false]
        unfold mapFind
        rw [ih]

theorem mem_mapSet {V : Type} (k : Nat) (v : V) (l : List (Nat × V)) (e : Nat × V)
    (h : e ∈ mapSet k v l) : e.1 = k ∨ e ∈ l := by
  induction l with
  | nil =>
    simp [mapSet] at h
    left
    rw [h]
  | cons e1 rest ih =>
    obtain ⟨k1, v1⟩ := e1
    unfold mapSet at h
    by_cases h1 : k < k1
    · simp only [h1, if_true, List.mem_cons] at h
      rcases h with h | h | h
      · left; rw [h]
      · right; simp [h]
      · right; simp [h]
    · by_cases h2 : k = k1
      · subst h2
        simp only [Nat.lt_irrefl, if_false, if_true, List.mem_cons] at h
        rcases h with h | h
        · left; rw [h]
        · right; simp [h]
      · simp only [h1, h2, if_false, List.mem_cons] at h
        rcases h with h | h
        · right; simp [h]
        · rcases ih h with h3 | h3
          · left; exact h3
          · right; simp [h3]

/-- The assignment `m[k] = v` keeps the keys of the map in strictly increasing
order, the order in which a `std::map` holds them. -/
theorem mapSet_sorted {V : Type} (k : Nat) (v : V) (l : List (Nat × V))
    (h : List.Pairwise (fun a b : Nat × V => a.1 < b.1) l) :
    List.Pairwise (fun a b : Nat × V => a.1 < b.1) (mapSet k v l) := by
  induction l with
  | nil => simp [mapSet]
  | cons e1 rest ih =>
    obtain ⟨k1, v1⟩ := e1
    rw [List.pairwise_cons] at h
    unfold mapSet
    by_cases h1 : k < k1
    · simp only [h1, if_true]
      rw [List.pairwise_cons, List.pairwise_cons]
      refine ⟨?_, h.1, h.2⟩
      intro e he
      rcases List.mem_cons.mp he with he | he
      · rw [he]; exact h1
      · exact Nat.lt_trans h1 (h.1 e he)
    · by_cases h2 : k = k1
      · subst h2
        simp only [Nat.lt_irrefl, if_false, if_true]
        rw [List.pairwise_cons]
        exact ⟨h.1, h.2⟩
      · simp only [h1, h2, if_false]
        rw [List.pairwise_cons]
        refine ⟨?_, ih h.2⟩
        intro e he
        rcases mem_mapSet k v rest e he with he | he
        · rw [he]; omega
        · exact h.1 e he

/-- C17: after `f.setPixel(k, p)` the map has `p` under `k`, every other key has
what it had before (present or absent), and the two times are unchanged; the
keys stay in increasing order; a default-constructed frame has both times 0
and an empty map. -/
theorem setPixel_inserts_or_overwrites (f : Frame) (k : Nat) (p : Pixel) :
    mapFind k (f.setPixel k p).getPixels = some p ∧
    (∀ k0, k0 ≠ k → mapFind k0 (f.setPixel k p).getPixels = mapFind k0 f.getPixels) ∧
    (f.setPixel k p).getTime = f.getTime ∧
    (f.setPixel k p).getRunningTime = f.getRunningTime ∧
    (List.Pairwise (fun a b : Nat × Pixel => a.1 < b.1) f.getPixels →
      List.Pairwise (fun a b : Nat × Pixel => a.1 < b.1) (f.setPixel k p).getPixels) ∧
    Frame.default.getTime = CDouble.zero ∧ Frame.default.getRunningTime = CDouble.zero ∧
    Frame.default.getPixels = [] := by
  refine ⟨mapFind_mapSet_self k p f.pixels_, ?_, rfl, rfl, ?_, rfl, rfl, rfl⟩
  · intro k0 h
    exact mapFind_mapSet_other k k0 p f.pixels_ h
  · intro h
    exact mapSet_sorted k p f.pixels_ h

theorem setPixel_inserts_or_overwrites_witness :
    mapFind 1 ((Frame.default.setPixel 1 (Pixel.mk 19 0 55)).setPixel 2
      (Pixel.mk 3 4 2)).getPixels = mapFind 1 (Frame.default.setPixel 1 (Pixel.mk 19 0 55)).getPixels :=
  (setPixel_inserts_or_overwrites (Frame.default.setPixel 1 (Pixel.mk 19 0 55)) 2
    (Pixel.mk 3 4 2)).2.1 1 (by decide)

/-! ## The table entry -/

/-- C19, as amended: `generateEntry` returns the row separator line `|-`, then
the row `| source || size || lines || frames || settings` with the numbers in
decimal and the five fields in that order, then a single newline, and nothing
else. -/
theorem generateEntry_format (source : String) (size lines frames : Nat) (settings : String) :
    (TableEntryGen.new source size lines frames settings).generateEntry =
      "|-\n" ++ ("| " ++ source ++ " || " ++ toString size ++ " || " ++ toString lines ++ " || " ++
        toString frames ++ " || " ++ settings ++ "\n") := by
  unfold TableEntryGen.generateEntry TableEntryGen.new
  have h : "|-\n| " = "|-\n" ++ "| " := by decide
  simp only [h, String.append_assoc]

/-- C19, counterexample: the entry for `detector`, 24 bytes, 2 lines, 1 frame,
`settings` starts with the line `|-`; it is not the row alone. -/
theorem generateEntry_has_separator_line :
    (TableEntryGen.new "detector" 24 2 1 "settings").generateEntry =
      "|-\n| detector || 24 || 2 || 1 || settings\n" ∧
    (TableEntryGen.new "detector" 24 2 1 "settings").generateEntry ≠
      "| detector || 24 || 2 || 1 || settings\n" := by
  decide

/-- In table mode the number handed to the table entry generator is one more
(in `unsigned int`) than the number of frames written to the log. -/
theorem mainTableMode_counts (input : TextFileReader) (run : TableRun)
    (h : mainTableMode input = some (.ok run)) :
    run.loggedNumberOfFrames = (run.tableEntryGen.numberOfFrames_ + 2 ^ 32 - 1) % 2 ^ 32 := by
  unfold mainTableMode at h
  split at h
  · simp at h
  · simp at h
  · rename_i frames frameNumber input1 heq
    simp only [Option.some.injEq, Except.ok.injEq] at h
    have h1 := congrArg TableRun.loggedNumberOfFrames h
    have h2 := congrArg (fun t => t.tableEntryGen.numberOfFrames_) h
    simp only [TableEntryGen.new] at h1 h2
    rw [← h1, ← h2]

/-- C20: on a file with one frame (a header line and a blank line) the loop
stores 1 frame and the log reports 1 frame, but the table entry generator is
handed 2 as the number of frames and the row says 2. -/
theorem mainTableMode_frame_count :
    (mainTableMode (readerOn "Frame 1 (1.0 s, 0.5 s)\n\n")).map
        (Except.map (fun run =>
          (run.frames.length, run.loggedNumberOfFrames, run.tableEntryGen.numberOfFrames_,
            run.entry)))
      = some (.ok (1, 1, 2, "|-\n| detector || 24 || 2 || 2 || settings\n")) := by
  decide

/-! ## The delimiter of `extractSubstring`, and the line count of `open` -/

/-- C23: on the text `19, 0` with the delimiter `,`, `extractSubstring` returns
`19,` and leaves the position at 3, the index of the space; the first `,` is at
index 2 and the text before it is `19`. -/
theorem extractSubstring_ignores_delimiter :
    extractSubstring "19, 0".toList 0 ',' = ("19,".toList, 3) ∧
    "19, 0".toList.indexOf ',' = 2 := by
  decide

/-- A new reader has the number of lines of the file it opens, and is at the
start of it with `lineNumber_` 1. -/
theorem open_new_numberOfLines (file : File) (r : TextFileReader)
    (hsize : (textLines file.content).length < 2 ^ 32)
    (h : TextFileReader.new.open (some file) = .ok r) :
    r.numberOfLines = (textLines file.content).length ∧ r.lineNumber_ = 1 ∧ r.in_.pos = 0 := by
  unfold TextFileReader.open at h
  simp only [TextFileReader.new, Bool.false_eq_true, if_false] at h
  split at h
  · split at h
    · simp at h
    · simp only [Except.ok.injEq] at h
      rw [← h]
      have h32 : (2 : Nat) ^ 32 = 4294967296 := by norm_num
      simp [TextFileReader.numberOfLines]
      omega
  · simp at h

/-- C21: a reader that opened a file of two lines, was closed, and then opens a
file of one line reports 3 lines, the sum; the cursor is at the start with
`lineNumber_` 1. -/
theorem numberOfLines_accumulates :
    (((readerOn "Frame 1 (1.0 s, 0.5 s)\n\n").close.open (some (fileOf "only line\n"))).map
        (fun r => (r.numberOfLines, r.lineNumber_, r.in_.pos)))
      = .ok (3, 1, 0) ∧
    (textLines (fileOf "only line\n").content).length = 1 := by
  decide

/-! ## The tokens of a header line -/

theorem metadataTexts_header (P T1 T2 tail : List Char) (h1 : ' ' ∉ T1) (h2 : ' ' ∉ T2) :
    metadataTexts (P ++ '(' :: (T1 ++ " s, ".toList ++ (T2 ++ ' ' :: tail))) P.length = (T1, T2) := by
  unfold metadataTexts
  simp only [extractSubstring_eq]
  have hd1 : (P ++ '(' :: (T1 ++ " s, ".toList ++ (T2 ++ ' ' :: tail))).drop (P.length + 1)
      = T1 ++ ' ' :: ('s' :: ',' :: ' ' :: (T2 ++ ' ' :: tail)) := by
    rw [List.drop_append_eq_append_drop]
    simp
  rw [hd1, takeWhile_until_space T1 _ h1]
  have hd2 : (P ++ '(' :: (T1 ++ " s, ".toList ++ (T2 ++ ' ' :: tail))).drop
      (P.length + 1 + T1.length + " s, ".length) = T2 ++ ' ' :: tail := by
    have : P.length + 1 + T1.length + " s, ".length = (P.length + 1) + (T1.length + 4) := by
      simp [String.length]; omega
    rw [this, ← List.drop_drop, hd1]
    have h4 : T1 ++ ' ' :: 's' :: ',' :: ' ' :: (T2 ++ ' ' :: tail)
        = (T1 ++ [' ', 's', ',', ' ']) ++ (T2 ++ ' ' :: tail) := by simp
    rw [h4, List.drop_append_eq_append_drop]
    simp
  rw [hd2, takeWhile_until_space T2 _ h2]

/-- C22: on a line `P(T1 s, T2 s)`, `P` without `(`, `T1` and `T2` without a
space, the `(` that `find` returns is the one behind `P`, the text handed to
`atof` for the time is exactly `T1` and the text handed to `atof` for the
running time is exactly `T2`. -/
theorem header_token_extraction (P T1 T2 : List Char) (frame : Frame)
    (hP : '(' ∉ P) (h1 : ' ' ∉ T1) (h2 : ' ' ∉ T2) :
    find (P ++ '(' :: (T1 ++ " s, ".toList ++ (T2 ++ " s)".toList))) '(' = some P.length ∧
    metadataTexts (P ++ '(' :: (T1 ++ " s, ".toList ++ (T2 ++ " s)".toList))) P.length = (T1, T2) ∧
    metadataFields (P ++ '(' :: (T1 ++ " s, ".toList ++ (T2 ++ " s)".toList))) P.length frame =
      (frame.setTime (atof T1)).setRunningTime (atof T2) := by
  have hs : " s)".toList = ' ' :: ['s', ')'] := rfl
  rw [hs]
  have htexts := metadataTexts_header P T1 T2 ['s', ')'] h1 h2
  have hidx := (metadataFields_header P T1 T2 ['s', ')'] frame hP h1 h2).1
  refine ⟨?_, htexts, ?_⟩
  · rw [find_of_mem _ _ (by simp), hidx]
  · show (frame.setTime (atof (metadataTexts _ P.length).1)).setRunningTime
      (atof (metadataTexts _ P.length).2) = _
    rw [htexts]

theorem header_token_extraction_witness :
    metadataTexts "Frame 1 (1335967757.29 s, 0.1 s)".toList 8 =
      ("1335967757.29".toList, "0.1".toList) :=
  (header_token_extraction "Frame 1 ".toList "1335967757.29".toList "0.1".toList Frame.default
    (by decide) (by decide) (by decide)).2.1

/-! ## Frame assignment -/

/-- C28: after `a = b` the frame `a` holds what `b` held and `b` holds what `a`
held; two swaps restore both frames; and the statement `frames[n] = frame` of
the driver leaves under `n` the frame that `getFrame` returned (the local
variable gets what the entry held, a default frame for a new key). -/
theorem frame_assign_exchanges (a b : Frame) (frames : List (Nat × Frame)) (n : Nat) :
    Frame.assign a b = (b, a) ∧
    Frame.swap (Frame.swap a b).1 (Frame.swap a b).2 = (a, b) ∧
    (storeFrame frames n b).1 = mapSet n b frames ∧
    mapFind n (storeFrame frames n b).1 = some b ∧
    (storeFrame frames n b).2 = (mapFind n frames).getD Frame.default := by
  refine ⟨rfl, rfl, rfl, ?_, rfl⟩
  show mapFind n (mapSet n _ frames) = some b
  rw [mapFind_mapSet_self]

/-! ## What `parseClusterString` computes on a canonical line -/

theorem digit_ne (d c : Char) (hd : (digitVal d).isSome = true) (hc : digitVal c = none) :
    d ≠ c := by
  intro h
  subst h
  simp [hc] at hd

theorem digit_not_space (d : Char) (hd : (digitVal d).isSome = true) : isSpaceC d = false := by
  unfold isSpaceC
  have h1 := digit_ne d ' ' hd (by decide)
  have h2 := digit_ne d '\t' hd (by decide)
  have h3 := digit_ne d '\n' hd (by decide)
  have h4 := digit_ne d '\x0b' hd (by decide)
  have h5 := digit_ne d '\x0c' hd (by decide)
  have h6 := digit_ne d '\r' hd (by decide)
  simp [h1, h2, h3, h4, h5, h6]

theorem skipSpaces_cons (c : Char) (cs : List Char) (h : isSpaceC c = false) :
    skipSpaces (c :: cs) = c :: cs := by
  simp [skipSpaces, h]

theorem readSign_cons (c : Char) (cs : List Char) (h1 : c ≠ '-') (h2 : c ≠ '+') :
    readSign (c :: cs) = (false, c :: cs) := by
  unfold readSign
  split
  · rename_i heq
    simp at heq
    exact absurd heq.1 h1
  · rename_i heq
    simp at heq
    exact absurd heq.1 h2
  · rfl

/-- The value that `readDigits` accumulates over a run of digits does not depend
on what follows the first character that is not a digit. -/
theorem readDigits_append (ds : List Char) (c0 : Char) (rest : List Char)
    (hds : ∀ c ∈ ds, (digitVal c).isSome = true) (hc0 : digitVal c0 = none) :
    ∀ acc n : Nat, (readDigits (ds ++ c0 :: rest) acc n).1 = (readDigits ds acc n).1 := by
  induction ds with
  | nil =>
    intro acc n
    simp [readDigits, hc0]
  | cons d ds1 ih =>
    intro acc n
    have hd : (digitVal d).isSome = true := hds d (by simp)
    obtain ⟨v, hv⟩ := Option.isSome_iff_exists.mp hd
    have hrest : ∀ c ∈ ds1, (digitVal c).isSome = true := fun c hc => hds c (by simp [hc])
    simp only [List.cons_append, readDigits, hv]
    exact ih hrest _ _

theorem strtol10_eq (s : List Char) :
    strtol10 s =
      if (readSign (skipSpaces s)).1 = true
      then max (-(((readDigits (readSign (skipSpaces s)).2 0 0).1 : Nat) : Int)) (-(2 ^ 63))
      else min (((readDigits (readSign (skipSpaces s)).2 0 0).1 : Nat) : Int) (2 ^ 63 - 1) := by
  unfold strtol10
  rfl

/-- For an optional sign followed by digits (possibly none), `atoi` gives the
same value when characters are appended that start with one that is neither a
digit, nor white space, nor a sign. -/
theorem atoi_append (sign ds : List Char) (c0 : Char) (rest : List Char)
    (hsign : sign = [] ∨ sign = ['-'] ∨ sign = ['+'])
    (hds : ∀ c ∈ ds, (digitVal c).isSome = true) (hc0 : digitVal c0 = none)
    (hsp : isSpaceC c0 = false) (hm : c0 ≠ '-') (hp : c0 ≠ '+') :
    atoi (sign ++ ds ++ c0 :: rest) = atoi (sign ++ ds) := by
  unfold atoi
  congr 1
  rw [strtol10_eq, strtol10_eq]
  have hrd := readDigits_append ds c0 rest hds hc0 0 0
  rcases hsign with h | h | h
  · subst h
    cases ds with
    | nil =>
      simp only [List.nil_append, skipSpaces_cons c0 rest hsp, readSign_cons c0 rest hm hp]
      simp [skipSpaces, readSign, readDigits, hc0]
    | cons d ds1 =>
      have hd : (digitVal d).isSome = true := hds d (by simp)
      have hdsp := digit_not_space d hd
      have hdm := digit_ne d '-' hd (by decide)
      have hdp := digit_ne d '+' hd (by decide)
      simp only [List.nil_append, List.cons_append, skipSpaces_cons _ _ hdsp,
        readSign_cons _ _ hdm hdp]
      rw [← List.cons_append, hrd]
  · subst h
    have hs : isSpaceC '-' = false := by decide
    simp only [List.cons_append, List.nil_append, skipSpaces_cons _ _ hs, readSign]
    rw [hrd]
  · subst h
    have hs : isSpaceC '+' = false := by decide
    simp only [List.cons_append, List.nil_append, skipSpaces_cons _ _ hs, readSign]
    rw [hrd]

theorem takeWhile_no_space (t : List Char) (h : ' ' ∉ t) :
    t.takeWhile (fun ch => ch != ' ') = t := by
  induction t with
  | nil => rfl
  | cons c cs ih =>
    have hc : c ≠ ' ' := fun e => h (by simp [e])
    have hcs : ' ' ∉ cs := fun e => h (by simp [e])
    simp [List.takeWhile_cons, hc, ih hcs]

theorem drop_prefix (pre suf : List Char) (n : Nat) (h : n = pre.length) :
    (pre ++ suf).drop n = suf := by
  subst h
  simp

/-- The three texts read from a line `[X, yY', cC']`, `X`, `Y'` and `C'` without
a space: the first runs up to the space and so keeps its comma; the second and
the third start one character late. -/
theorem clusterTexts_canonical (X Y1 C1 : List Char) (y0 c0 : Char)
    (hX : ' ' ∉ X) (hY : ' ' ∉ Y1) (hC : ' ' ∉ C1) :
    clusterTexts ('[' :: (X ++ ',' :: ' ' :: y0 :: (Y1 ++ ',' :: ' ' :: c0 :: (C1 ++ [']'])))) 0
      = (X ++ [','], Y1 ++ [','], C1 ++ [']']) := by
  have e1 : extractSubstring
      ('[' :: (X ++ ',' :: ' ' :: y0 :: (Y1 ++ ',' :: ' ' :: c0 :: (C1 ++ [']'])))) (0 + 1) ','
      = (X ++ [','], X.length + 2) := by
    rw [extractSubstring_eq]
    have hd : ('[' :: (X ++ ',' :: ' ' :: y0 :: (Y1 ++ ',' :: ' ' :: c0 :: (C1 ++ [']'])))).drop
        (0 + 1) = (X ++ [',']) ++ ' ' :: (y0 :: (Y1 ++ ',' :: ' ' :: c0 :: (C1 ++ [']']))) := by
      simp
    rw [hd, takeWhile_until_space _ _ (by simp [hX])]
    simp
    omega
  have e2 : extractSubstring
      ('[' :: (X ++ ',' :: ' ' :: y0 :: (Y1 ++ ',' :: ' ' :: c0 :: (C1 ++ [']']))))
      (X.length + 2 + ", ".length) ','
      = (Y1 ++ [','], X.length + Y1.length + 5) := by
    rw [extractSubstring_eq]
    have hd : ('[' :: (X ++ ',' :: ' ' :: y0 :: (Y1 ++ ',' :: ' ' :: c0 :: (C1 ++ [']'])))).drop
        (X.length + 2 + ", ".length) = (Y1 ++ [',']) ++ ' ' :: (c0 :: (C1 ++ [']'])) := by
      have hl : '[' :: (X ++ ',' :: ' ' :: y0 :: (Y1 ++ ',' :: ' ' :: c0 :: (C1 ++ [']'])))
          = ('[' :: (X ++ [',', ' ', y0])) ++ ((Y1 ++ [',']) ++ ' ' :: (c0 :: (C1 ++ [']']))) := by
        simp
      rw [hl]
      exact drop_prefix _ _ _ (by simp [String.length])
    rw [hd, takeWhile_until_space _ _ (by simp [hY])]
    simp [String.length]
    omega
  have e3 : extractSubstring
      ('[' :: (X ++ ',' :: ' ' :: y0 :: (Y1 ++ ',' :: ' ' :: c0 :: (C1 ++ [']']))))
      (X.length + Y1.length + 5 + ", ".length) ','
      = (C1 ++ [']'], X.length + Y1.length + C1.length + 8) := by
    rw [extractSubstring_eq]
    have hd : ('[' :: (X ++ ',' :: ' ' :: y0 :: (Y1 ++ ',' :: ' ' :: c0 :: (C1 ++ [']'])))).drop
        (X.length + Y1.length + 5 + ", ".length) = C1 ++ [']'] := by
      have hl : '[' :: (X ++ ',' :: ' ' :: y0 :: (Y1 ++ ',' :: ' ' :: c0 :: (C1 ++ [']'])))
          = ('[' :: (X ++ [',', ' ', y0] ++ (Y1 ++ [',', ' ', c0]))) ++ (C1 ++ [']']) := by
        simp
      rw [hl]
      exact drop_prefix _ _ _ (by simp [String.length]; omega)
    rw [hd, takeWhile_no_space _ (by simp [hC])]
    simp [String.length]
    omega
  unfold clusterTexts
  simp only [e1, e2, e3]

/-- The pixel of `parseClusterString` is made of the three extracted texts, each
converted by `atoi`. -/
theorem clusterFields_eq_texts (line : List Char) (pos : Nat) :
    clusterFields line pos =
      { x_ := atoi (clusterTexts line pos).1, y_ := atoi (clusterTexts line pos).2.1,
        c_ := atoi (clusterTexts line pos).2.2 } := rfl

theorem integerText_chars (t : List Char) (h : IsIntegerText t) :
    ∀ c ∈ t, c = '-' ∨ c = '+' ∨ (digitVal c).isSome = true := by
  obtain ⟨sign, digits, ht, hsign, _, hds⟩ := h
  intro c hc
  rw [ht] at hc
  rcases List.mem_append.mp hc with hc | hc
  · rcases hsign with h | h | h
    · rw [h] at hc; simp at hc
    · rw [h] at hc; simp at hc; left; exact hc
    · rw [h] at hc; simp at hc; right; left; exact hc
  · right; right; exact hds c hc

theorem integerText_not_mem (t : List Char) (h : IsIntegerText t) (c : Char)
    (h1 : c ≠ '-') (h2 : c ≠ '+') (h3 : digitVal c = none) : c ∉ t := by
  intro hc
  rcases integerText_chars t h c hc with h4 | h4 | h4
  · exact h1 h4
  · exact h2 h4
  · simp [h3] at h4

/-- An integer text is not empty, and what is left when its first character is
removed is a run of digits (possibly empty). -/
theorem integerText_tail (t : List Char) (h : IsIntegerText t) :
    ∃ t0 : Char, t = t0 :: t.tail ∧ ∀ c ∈ t.tail, (digitVal c).isSome = true := by
  obtain ⟨sign, digits, ht, hsign, hne, hds⟩ := h
  cases digits with
  | nil => exact absurd rfl hne
  | cons d ds =>
    rcases hsign with h | h | h
    · subst h
      rw [ht]
      exact ⟨d, rfl, fun c hc => hds c (by simp at hc ⊢; right; exact hc)⟩
    · subst h
      rw [ht]
      exact ⟨'-', rfl, fun c hc => hds c (by simpa using hc)⟩
    · subst h
      rw [ht]
      exact ⟨'+', rfl, fun c hc => hds c (by simpa using hc)⟩

theorem readDigits_value (ds : List Char) (hds : ∀ c ∈ ds, (digitVal c).isSome = true) :
    ∀ acc n : Nat, (readDigits ds acc n).1
      = ds.foldl (fun a c => 10 * a + (digitVal c).getD 0) acc := by
  induction ds with
  | nil => intro acc n; rfl
  | cons d ds1 ih =>
    intro acc n
    obtain ⟨v, hv⟩ := Option.isSome_iff_exists.mp (hds d (by simp))
    simp only [readDigits, hv, List.foldl_cons, Option.getD_some]
    exact ih (fun c hc => hds c (by simp [hc])) _ _

/-- The value of `strtol` on an optional sign followed by digits (possibly none):
the number of the digits with the sign, clamped to the range of `long`. -/
theorem strtol10_sign_digits (sign ds : List Char)
    (hsign : sign = [] ∨ sign = ['-'] ∨ sign = ['+'])
    (hds : ∀ c ∈ ds, (digitVal c).isSome = true) :
    strtol10 (sign ++ ds) =
      if sign = ['-'] then max (-(digitsValue ds : Int)) (-(2 ^ 63))
      else min (digitsValue ds : Int) (2 ^ 63 - 1) := by
  rw [strtol10_eq]
  have hv := readDigits_value ds hds 0 0
  rcases hsign with h | h | h
  · subst h
    cases ds with
    | nil => simp [skipSpaces, readSign, readDigits, digitsValue]
    | cons d ds1 =>
      have hd : (digitVal d).isSome = true := hds d (by simp)
      have hdsp := digit_not_space d hd
      have hdm := digit_ne d '-' hd (by decide)
      have hdp := digit_ne d '+' hd (by decide)
      simp only [List.nil_append, skipSpaces_cons _ _ hdsp, readSign_cons _ _ hdm hdp, hv]
      simp [digitsValue]
  · subst h
    have hs : isSpaceC '-' = false := by decide
    simp only [List.cons_append, List.nil_append, skipSpaces_cons _ _ hs, readSign, hv]
    simp [digitsValue]
  · subst h
    have hs : isSpaceC '+' = false := by decide
    simp only [List.cons_append, List.nil_append, skipSpaces_cons _ _ hs, readSign, hv]
    simp [digitsValue]

theorem integerValue_sign_digits (sign ds : List Char)
    (hsign : sign = [] ∨ sign = ['-'] ∨ sign = ['+'])
    (hds : ∀ c ∈ ds, (digitVal c).isSome = true) :
    integerValue (sign ++ ds) =
      if sign = ['-'] then -(digitsValue ds : Int) else (digitsValue ds : Int) := by
  rcases hsign with h | h | h
  · subst h
    cases ds with
    | nil => simp [integerValue]
    | cons d ds1 =>
      have hd : (digitVal d).isSome = true := hds d (by simp)
      have hdm := digit_ne d '-' hd (by decide)
      have hdp := digit_ne d '+' hd (by decide)
      simp only [List.nil_append]
      unfold integerValue
      split
      · rename_i heq
        simp at heq
        exact absurd heq.1 hdm
      · rename_i heq
        simp at heq
        exact absurd heq.1 hdp
      · simp
  · subst h
    simp [integerValue]
  · subst h
    simp [integerValue]

/-- On a decimal integer text whose value fits an `int`, `atoi` returns that
value. -/
theorem atoi_integerText (t : List Char) (h : IsIntegerText t)
    (hlo : -(2 ^ 31) ≤ integerValue t) (hhi : integerValue t < 2 ^ 31) :
    atoi t = integerValue t := by
  obtain ⟨sign, digits, ht, hsign, _, hds⟩ := h
  subst ht
  unfold atoi
  rw [strtol10_sign_digits sign digits hsign hds]
  rw [integerValue_sign_digits sign digits hsign hds] at hlo hhi ⊢
  by_cases hs : sign = ['-']
  · simp only [hs, if_true] at hlo hhi ⊢
    rw [max_eq_left (by omega)]
    exact wrapInt32_of_fits _ hlo hhi
  · simp only [hs, if_false] at hlo hhi ⊢
    rw [min_eq_left (by omega)]
    exact wrapInt32_of_fits _ hlo hhi

/-- On a run of digits (possibly empty) whose number fits an `int`, `atoi`
returns that number; 0 for the empty run. -/
theorem atoi_digits (ds : List Char) (hds : ∀ c ∈ ds, (digitVal c).isSome = true)
    (hhi : (digitsValue ds : Int) < 2 ^ 31) : atoi ds = (digitsValue ds : Int) := by
  unfold atoi
  have h := strtol10_sign_digits [] ds (Or.inl rfl) hds
  simp only [List.nil_append] at h
  rw [h]
  simp only [List.nil_eq, reduceCtorEq, if_false]
  rw [min_eq_left (by omega)]
  exact wrapInt32_of_fits _ (by omega) hhi

/-- C26, as amended: on a line `[X, Y, C]`, with decimal integer texts `X`, `Y`,
`C` and single spaces after the commas, `parseClusterString` stores the pixel
whose `x` is the conversion `atoi` of `X`, whose `y` is the conversion of `Y`
without its first character, and whose `c` is the conversion of `C` without its
first character.  The conversion of `X` is the value of `X` when that value fits
an `int`; the conversion of the digits left of `Y` and of `C` is their number
when it fits an `int`, 0 when no digit is left. -/
theorem parseClusterString_canonical_line (r : TextFileReader) (frame : Frame)
    (X Y C rest : List Char) (hgood : r.in_.good = true)
    (hX : IsIntegerText X) (hY : IsIntegerText Y) (hC : IsIntegerText C)
    (hrest : rest = [] ∨ ∃ rest1, rest = '\n' :: rest1)
    (hunread : r.in_.unread =
      ('[' :: (X ++ ", ".toList ++ (Y ++ ", ".toList ++ (C ++ [']'])))) ++ rest) :
    (∃ r1, r.parseClusterString frame =
      .ok (true, r1, frame.setPixel ((r.currentPixelNumber_ + 1) % 2 ^ 32)
        { x_ := atoi X, y_ := atoi Y.tail, c_ := atoi C.tail })) ∧
    (-(2 ^ 31) ≤ integerValue X → integerValue X < 2 ^ 31 → atoi X = integerValue X) ∧
    ((digitsValue Y.tail : Int) < 2 ^ 31 → atoi Y.tail = (digitsValue Y.tail : Int)) ∧
    ((digitsValue C.tail : Int) < 2 ^ 31 → atoi C.tail = (digitsValue C.tail : Int)) ∧
    digitsValue [] = 0 := by
  refine ⟨?_, atoi_integerText X hX,
    atoi_digits Y.tail (integerText_tail Y hY).choose_spec.2,
    atoi_digits C.tail (integerText_tail C hC).choose_spec.2, rfl⟩
  have hcs : ", ".toList = [',', ' '] := rfl
  rw [hcs] at hunread
  obtain ⟨y0, hy0, hYd⟩ := integerText_tail Y hY
  obtain ⟨c0, hc0, hCd⟩ := integerText_tail C hC
  have hXsp := integerText_not_mem X hX ' ' (by decide) (by decide) (by decide)
  have hYsp := integerText_not_mem Y hY ' ' (by decide) (by decide) (by decide)
  have hCsp := integerText_not_mem C hC ' ' (by decide) (by decide) (by decide)
  have hXnl := integerText_not_mem X hX '\n' (by decide) (by decide) (by decide)
  have hYnl := integerText_not_mem Y hY '\n' (by decide) (by decide) (by decide)
  have hCnl := integerText_not_mem C hC '\n' (by decide) (by decide) (by decide)
  have hY1sp : ' ' ∉ Y.tail := fun h => hYsp (List.mem_of_mem_tail h)
  have hC1sp : ' ' ∉ C.tail := fun h => hCsp (List.mem_of_mem_tail h)
  have hline : '[' :: (X ++ [',', ' '] ++ (Y ++ [',', ' '] ++ (C ++ [']'])))
      = '[' :: (X ++ ',' :: ' ' :: y0 :: (Y.tail ++ ',' :: ' ' :: c0 :: (C.tail ++ [']']))) := by
    conv => lhs; rw [hy0, hc0]
    simp
  rw [hline] at hunread
  have hnl : '\n' ∉ '[' :: (X ++ ',' :: ' ' :: y0 :: (Y.tail ++ ',' :: ' ' :: c0 :: (C.tail ++ [']']))) := by
    rw [← hline]
    simp [hXnl, hYnl, hCnl]
  have hne : r.in_.unread ≠ [] := by rw [hunread]; simp
  have hfirst : (splitLine r.in_.unread).1 =
      '[' :: (X ++ ',' :: ' ' :: y0 :: (Y.tail ++ ',' :: ' ' :: c0 :: (C.tail ++ [']']))) := by
    rw [hunread, splitLine_first _ rest hnl hrest]
  rw [parseClusterString_of_unread r frame hgood hne, hfirst, find_of_mem _ _ (by simp)]
  have hidx : ('[' :: (X ++ ',' :: ' ' :: y0 :: (Y.tail ++ ',' :: ' ' :: c0 ::
      (C.tail ++ [']'])))).indexOf '[' = 0 := by simp
  have htexts := clusterTexts_canonical X Y.tail C.tail y0 c0 hXsp hY1sp hC1sp
  have hx : atoi (X ++ [',']) = atoi X := by
    obtain ⟨sign, digits, ht, hsign, _, hds⟩ := hX
    rw [ht]
    exact atoi_append sign digits ',' [] hsign hds (by decide) (by decide) (by decide) (by decide)
  have hy : atoi (Y.tail ++ [',']) = atoi Y.tail :=
    atoi_append [] Y.tail ',' [] (Or.inl rfl) hYd (by decide) (by decide) (by decide) (by decide)
  have hc : atoi (C.tail ++ [']']) = atoi C.tail :=
    atoi_append [] C.tail ']' [] (Or.inl rfl) hCd (by decide) (by decide) (by decide) (by decide)
  have hpix : clusterFields ('[' :: (X ++ ',' :: ' ' :: y0 :: (Y.tail ++ ',' :: ' ' :: c0 ::
      (C.tail ++ [']'])))) 0 = { x_ := atoi X, y_ := atoi Y.tail, c_ := atoi C.tail } := by
    rw [clusterFields_eq_texts, htexts, hx, hy, hc]
  simp only [hidx, hpix]
  exact ⟨_, rfl⟩

theorem parseClusterString_canonical_line_witness :
    ∃ r1 pixel, (readerOn "[19, -7, 55]\n").parseClusterString Frame.default =
      .ok (true, r1,
        Frame.default.setPixel (((readerOn "[19, -7, 55]\n").currentPixelNumber_ + 1) % 2 ^ 32)
          pixel) ∧
      pixel = { x_ := 19, y_ := 7, c_ := 5 } ∧
      atoi "19".toList = integerValue "19".toList :=
  match parseClusterString_canonical_line (readerOn "[19, -7, 55]\n") Frame.default
    "19".toList "-7".toList "55".toList "\n".toList (by decide)
    ⟨[], "19".toList, rfl, Or.inl rfl, by decide, by decide⟩
    ⟨['-'], "7".toList, rfl, Or.inr (Or.inl rfl), by decide, by decide⟩
    ⟨[], "55".toList, rfl, Or.inl rfl, by decide, by decide⟩
    (Or.inr ⟨[], rfl⟩) (by decide) with
  | ⟨⟨r1, h⟩, hx, _, _, _⟩ => ⟨r1, _, h, by decide, hx (by decide) (by decide)⟩

/-- C26, counterexample: on the line `[4294967297, 11, 22]` the text of the first
field is a decimal integer text of value 4294967297, but the stored `x` is 1:
the value does not fit the `int` that `atoi` returns. -/
theorem parseClusterString_large_x_wraps :
    ((readerOn "[4294967297, 11, 22]\n").parseClusterString Frame.default).map
        (fun res => (res.1, res.2.2.getPixels.map Prod.snd))
      = .ok (true, [{ x_ := 1, y_ := 1, c_ := 2 }]) ∧
    integerValue "4294967297".toList = 4294967297 ∧
    IsIntegerText "4294967297".toList :=
  ⟨by decide, by decide, ⟨[], "4294967297".toList, rfl, Or.inl rfl, by decide, by decide⟩⟩

/-! ## The result of `getFrame` does not depend on the fuel -/

/-- More fuel does not change a result of the loop of `getFrame`. -/
theorem getFrameLoop_mono (fuel : Nat) :
    ∀ (r : TextFileReader) (frame : Frame) (b : Bool)
      (x : Except Failure (Frame × TextFileReader)),
      TextFileReader.getFrameLoop fuel r frame b = some x →
      TextFileReader.getFrameLoop (fuel + 1) r frame b = some x := by
  induction fuel with
  | zero =>
    intro r frame b x h
    simp [TextFileReader.getFrameLoop] at h
  | succ n ih =>
    intro r frame b x h
    unfold TextFileReader.getFrameLoop at h ⊢
    cases he : r.endOfStream with
    | error e => simpa [he] using h
    | ok res =>
      obtain ⟨eos, r1⟩ := res
      cases eos with
      | true => simpa [he] using h
      | false =>
        simp only [he] at h ⊢
        cases b with
        | false =>
          simp only [if_true] at h ⊢
          cases hp : r1.parseMetadataString frame with
          | error e => simpa [hp] using h
          | ok res2 =>
            obtain ⟨acc, r2, f2⟩ := res2
            cases acc with
            | false => simpa [hp] using h
            | true =>
              simp only [hp] at h ⊢
              exact ih r2 f2 true x h
        | true =>
          simp only [Bool.true_eq_false, if_false] at h ⊢
          cases hp : r1.parseClusterString frame with
          | error e => simpa [hp] using h
          | ok res2 =>
            obtain ⟨acc, r2, f2⟩ := res2
            cases acc with
            | false => simpa [hp] using h
            | true =>
              simp only [hp] at h ⊢
              exact ih r2 f2 true x h

theorem getFrameLoop_mono_add (k fuel : Nat) (r : TextFileReader) (frame : Frame) (b : Bool)
    (x : Except Failure (Frame × TextFileReader))
    (h : TextFileReader.getFrameLoop fuel r frame b = some x) :
    TextFileReader.getFrameLoop (fuel + k) r frame b = some x := by
  induction k with
  | zero => exact h
  | succ k ih => exact getFrameLoop_mono (fuel + k) r frame b x ih

/-- Two amounts of fuel that both give a result give the same result. -/
theorem getFrameLoop_unique (fuel1 fuel2 : Nat) (r : TextFileReader) (frame : Frame) (b : Bool)
    (x y : Except Failure (Frame × TextFileReader))
    (h1 : TextFileReader.getFrameLoop fuel1 r frame b = some x)
    (h2 : TextFileReader.getFrameLoop fuel2 r frame b = some y) : x = y := by
  rcases Nat.le_total fuel1 fuel2 with hle | hle
  · obtain ⟨k, hk⟩ := Nat.exists_eq_add_of_le hle
    have := getFrameLoop_mono_add k fuel1 r frame b x h1
    rw [← hk, h2] at this
    exact (Option.some.inj this).symm
  · obtain ⟨k, hk⟩ := Nat.exists_eq_add_of_le hle
    have := getFrameLoop_mono_add k fuel2 r frame b y h2
    rw [← hk, h1] at this
    exact Option.some.inj this

/-- What the loop gives with any amount of fuel is what `getFrame` gives. -/
theorem getFrame_of_loop (fuel : Nat) (r : TextFileReader)
    (x : Except Failure (Frame × TextFileReader))
    (h : TextFileReader.getFrameLoop fuel { r with currentPixelNumber_ := 0 } Frame.default false
      = some x) : r.getFrame = some x := by
  have hs := getFrame_isSome r
  obtain ⟨y, hy⟩ := Option.isSome_iff_exists.mp hs
  rw [hy]
  unfold TextFileReader.getFrame at hy
  rw [getFrameLoop_unique _ _ _ _ _ _ _ hy h]

/-! ## A header line without a separator line before it -/

/-- Inside a frame, the loop reads a run of lines with `[` (each ended by a
newline) one by one: it goes on behind them, the stream still `good()`, the
line counter advanced by their number, the times of the frame untouched. -/
theorem getFrameLoop_cluster_run (cls : List (List Char)) :
    ∀ (fuel : Nat) (r : TextFileReader) (frame : Frame) (tail : List Char),
      r.in_.good = true → r.in_.unread = unlines cls ++ tail →
      (∀ l ∈ cls, '[' ∈ l ∧ '\n' ∉ l) → r.lineNumber_ + cls.length < 2 ^ 32 →
      ∃ r1 frame1,
        TextFileReader.getFrameLoop (fuel + cls.length) r frame true =
          TextFileReader.getFrameLoop fuel r1 frame1 true ∧
        r1.in_.good = true ∧ r1.in_.unread = tail ∧ r1.in_.data = r.in_.data ∧
        r1.lineNumber_ = r.lineNumber_ + cls.length ∧
        frame1.time_ = frame.time_ ∧ frame1.runningTime_ = frame.runningTime_ := by
  induction cls with
  | nil =>
    intro fuel r frame tail hgood hun _ _
    exact ⟨r, frame, rfl, hgood, by simpa [unlines] using hun, rfl, rfl, rfl, rfl⟩
  | cons l cls1 ih =>
    intro fuel r frame tail hgood hun hcls hsize
    have hl := hcls l (by simp)
    have hun1 : r.in_.unread = l ++ '\n' :: (unlines cls1 ++ tail) := by
      rw [hun]; simp [unlines]
    have hne : r.in_.unread ≠ [] := by rw [hun1]; simp
    obtain ⟨hfirst, hun2, hgood2⟩ := afterLine_terminated r.in_ l _ hl.2 hgood hun1
    have hline : '[' ∈ (splitLine r.in_.unread).1 := by rw [hfirst]; exact hl.1
    have hlen : (l :: cls1).length = cls1.length + 1 := rfl
    rw [hlen] at hsize
    have hstep := getFrameLoop_cluster_accepted (fuel + cls1.length) r frame hgood hne hline
    have hln : (r.lineNumber_ + 1) % 2 ^ 32 = r.lineNumber_ + 1 := Nat.mod_eq_of_lt (by omega)
    obtain ⟨r1, frame1, hloop, hg1, hu1, hd1, hln1, ht1, hrt1⟩ :=
      ih fuel
        { r with in_ := r.in_.afterLine,
                 currentPixelNumber_ := (r.currentPixelNumber_ + 1) % 2 ^ 32,
                 lineNumber_ := (r.lineNumber_ + 1) % 2 ^ 32 }
        (frame.setPixel ((r.currentPixelNumber_ + 1) % 2 ^ 32)
          (clusterFields (splitLine r.in_.unread).1 ((splitLine r.in_.unread).1.indexOf '[')))
        tail hgood2 hun2 (fun l1 h1 => hcls l1 (by simp [h1]))
        (by show (r.lineNumber_ + 1) % 2 ^ 32 + cls1.length < 2 ^ 32; rw [hln]; omega)
    refine ⟨r1, frame1, ?_, hg1, hu1, hd1, ?_, ht1, hrt1⟩
    · rw [hlen, ← hloop]
      exact hstep
    · rw [hln1, hlen]
      show (r.lineNumber_ + 1) % 2 ^ 32 + cls1.length = _
      rw [hln]
      omega

/-- C27: in a log where the cluster lines of a frame are directly followed by the
header line of the next frame (any line `hdr2` without `[`, whatever else it
holds), and that one by a cluster line, `getFrame` returns the first frame,
with the times of its own header, and consumes the next header line as the
terminator: the cluster line is the next unread line.  The next `getFrame`
fails with the malformed-header error at the line number of that cluster line. -/
theorem header_line_consumed_as_terminator (r : TextFileReader)
    (hdr1 hdr2 cl rest : List Char) (cls : List (List Char))
    (hgood : r.in_.good = true) (hsize : r.lineNumber_ + cls.length + 2 < 2 ^ 32)
    (hh1 : '(' ∈ hdr1) (hh1n : '\n' ∉ hdr1)
    (hcls : ∀ l ∈ cls, '[' ∈ l ∧ '\n' ∉ l)
    (hh2b : '[' ∉ hdr2) (hh2n : '\n' ∉ hdr2)
    (hcl : '[' ∈ cl) (hclp : '(' ∉ cl) (hcln : '\n' ∉ cl)
    (hrest : rest = [] ∨ ∃ rest1, rest = '\n' :: rest1)
    (hunread : r.in_.unread = hdr1 ++ '\n' :: (unlines cls ++ (hdr2 ++ '\n' :: (cl ++ rest)))) :
    ∃ f1 r1, r.getFrame = some (.ok (f1, r1)) ∧
      f1.getTime = (metadataFields hdr1 (hdr1.indexOf '(') Frame.default).getTime ∧
      f1.getRunningTime = (metadataFields hdr1 (hdr1.indexOf '(') Frame.default).getRunningTime ∧
      r1.in_.unread = cl ++ rest ∧
      r1.lineNumber_ = r.lineNumber_ + cls.length + 2 ∧
      r1.getFrame = some (.error (.missingMetadata (r.lineNumber_ + cls.length + 2))) := by
  have hne : r.in_.unread ≠ [] := by rw [hunread]; simp
  obtain ⟨hfirst, hun2, hgood2⟩ := afterLine_terminated r.in_ hdr1 _ hh1n hgood hunread
  have hline : '(' ∈ (splitLine r.in_.unread).1 := by rw [hfirst]; exact hh1
  have hln : (r.lineNumber_ + 1) % 2 ^ 32 = r.lineNumber_ + 1 := Nat.mod_eq_of_lt (by omega)
  have hstep1 := getFrameLoop_header_accepted (1 + cls.length)
    { r with currentPixelNumber_ := 0 } Frame.default hgood hne hline
  obtain ⟨r3, frame3, hrun, hg3, hu3, _, hln3, ht3, hrt3⟩ :=
    getFrameLoop_cluster_run cls 1
      { r with currentPixelNumber_ := 0, in_ := r.in_.afterLine,
               lineNumber_ := (r.lineNumber_ + 1) % 2 ^ 32 }
      (metadataFields (splitLine r.in_.unread).1 ((splitLine r.in_.unread).1.indexOf '(')
        Frame.default)
      (hdr2 ++ '\n' :: (cl ++ rest)) hgood2 hun2 hcls
      (by show (r.lineNumber_ + 1) % 2 ^ 32 + cls.length < 2 ^ 32; rw [hln]; omega)
  have hne3 : r3.in_.unread ≠ [] := by rw [hu3]; simp
  obtain ⟨hfirst3, hun4, hgood4⟩ := afterLine_terminated r3.in_ hdr2 _ hh2n hg3 hu3
  have hterm := getFrameLoop_terminator 0 r3 frame3 hg3 hne3 (by rw [hfirst3]; exact hh2b)
  have hln3a : r3.lineNumber_ = r.lineNumber_ + 1 + cls.length := by
    rw [hln3]
    show (r.lineNumber_ + 1) % 2 ^ 32 + cls.length = _
    rw [hln]
  have hln4 : (r3.lineNumber_ + 1) % 2 ^ 32 = r.lineNumber_ + cls.length + 2 := by
    rw [hln3a, Nat.mod_eq_of_lt (by omega)]
    omega
  have hget : r.getFrame = some (.ok (frame3,
      { r3 with in_ := r3.in_.afterLine, lineNumber_ := (r3.lineNumber_ + 1) % 2 ^ 32 })) := by
    apply getFrame_of_loop (1 + cls.length + 1)
    rw [hstep1, hrun]
    exact hterm
  refine ⟨_, _, hget, ?_, ?_, hun4, hln4, ?_⟩
  · show frame3.time_ = _
    rw [ht3, hfirst]
    rfl
  · show frame3.runningTime_ = _
    rw [hrt3, hfirst]
    rfl
  · have hne4 : cl ++ rest ≠ [] := by
      intro hnil
      rw [List.append_eq_nil] at hnil
      rw [hnil.1] at hcl
      simp at hcl
    have := getFrame_header_rejected
      { r3 with in_ := r3.in_.afterLine, lineNumber_ := (r3.lineNumber_ + 1) % 2 ^ 32 }
      hgood4 (by show r3.in_.afterLine.unread ≠ []; rw [hun4]; exact hne4)
      (by show '(' ∉ (splitLine r3.in_.afterLine.unread).1
          rw [hun4, splitLine_first cl rest hcln hrest]; exact hclp)
    rw [this]
    show some (Except.error (Failure.missingMetadata ((r3.lineNumber_ + 1) % 2 ^ 32))) = _
    rw [hln4]

theorem header_line_consumed_as_terminator_witness :
    ∃ f1 r1, (readerOn "Frame 1 (1.0 s, 0.5 s)\n[1, 2, 3]\nFrame 2 (2.0 s, 0.25 s)\n[4, 5, 6]\n").getFrame
        = some (.ok (f1, r1)) ∧
      f1.getTime = .finite false 1 0 ∧
      r1.in_.unread = "[4, 5, 6]\n".toList ∧
      r1.getFrame = some (.error (.missingMetadata 4)) :=
  match header_line_consumed_as_terminator
      (readerOn "Frame 1 (1.0 s, 0.5 s)\n[1, 2, 3]\nFrame 2 (2.0 s, 0.25 s)\n[4, 5, 6]\n")
      "Frame 1 (1.0 s, 0.5 s)".toList "Frame 2 (2.0 s, 0.25 s)".toList "[4, 5, 6]".toList
      "\n".toList ["[1, 2, 3]".toList]
      (by decide) (by decide) (by decide) (by decide) (by decide) (by decide) (by decide)
      (by decide) (by decide) (by decide) (Or.inr ⟨[], rfl⟩) (by decide) with
  | ⟨f1, r1, h1, h2, _, h4, _, h6⟩ => ⟨f1, r1, h1, h2.trans (by decide), h4, h6⟩

/-! ## The line counter -/

theorem lineInv_of_same (r r1 : TextFileReader) (h : LineInv r) (hdata : r1.in_.data = r.in_.data)
    (hun : r1.in_.unread = r.in_.unread) (hln : r1.lineNumber_ = r.lineNumber_) : LineInv r1 := by
  obtain ⟨done, h1, h2⟩ := h
  exact ⟨done, by rw [hdata, hun]; exact h1, by rw [hln]; exact h2⟩

/-- Reading one line keeps the line counter right: the line read joins the lines
done, and the counter is incremented (the file has fewer than `2^32` lines). -/
theorem lineInv_consume (r r1 : TextFileReader) (h : LineInv r) (hne : r.in_.unread ≠ [])
    (hsize : (textLines r.in_.data).length + 1 < 2 ^ 32)
    (hin : r1.in_ = r.in_.afterLine) (hln : r1.lineNumber_ = (r.lineNumber_ + 1) % 2 ^ 32) :
    LineInv r1 := by
  obtain ⟨done, h1, h2⟩ := h
  rw [textLines_unread r.in_ hne] at h1
  refine ⟨done ++ [(splitLine r.in_.unread).1], ?_, ?_⟩
  · rw [hin]
    show textLines r.in_.data = _
    rw [h1]
    simp
  · have hlen : (textLines r.in_.data).length
        = done.length + ((textLines r.in_.afterLine.unread).length + 1) := by
      rw [h1]; simp
    rw [hln, h2, Nat.mod_eq_of_lt (by omega)]
    simp

/-- When the line counter is right, it is the 1-based index of the first unread
line among the lines of the file. -/
theorem lineInv_index (r : TextFileReader) (h : LineInv r) (hne : r.in_.unread ≠ []) :
    ∃ done rest, textLines r.in_.data = done ++ (splitLine r.in_.unread).1 :: rest ∧
      r.lineNumber_ = done.length + 1 := by
  obtain ⟨done, h1, h2⟩ := h
  rw [textLines_unread r.in_ hne] at h1
  exact ⟨done, _, h1, h2⟩

/-- The loop of `getFrame` keeps the line counter right, and the line number in
its malformed-header error is the index of a line without `(`. -/
theorem getFrameLoop_lineInv (fuel : Nat) :
    ∀ (r : TextFileReader) (frame : Frame) (b : Bool), r.in_.exceptions = true → LineInv r →
      (textLines r.in_.data).length + 1 < 2 ^ 32 →
      (∀ f r1, TextFileReader.getFrameLoop fuel r frame b = some (.ok (f, r1)) →
        LineInv r1 ∧ r1.in_.exceptions = true ∧ r1.in_.data = r.in_.data) ∧
      (∀ n, TextFileReader.getFrameLoop fuel r frame b = some (.error (.missingMetadata n)) →
        ∃ done line rest, textLines r.in_.data = done ++ line :: rest ∧ n = done.length + 1 ∧
          '(' ∉ line) := by
  induction fuel with
  | zero =>
    intro r frame b _ _ _
    constructor
    · intro f r1 h
      simp [TextFileReader.getFrameLoop] at h
    · intro n h
      simp [TextFileReader.getFrameLoop] at h
  | succ k ih =>
    intro r frame b hexc hinv hsize
    cases hg : r.in_.good with
    | false =>
      rw [getFrameLoop_not_good k r frame b hg hexc]
      constructor
      · intro f r1 h; simp at h
      · intro n h; simp at h
    | true =>
      by_cases hun : r.in_.unread = []
      · rw [getFrameLoop_exhausted k r frame b hg hun]
        constructor
        · intro f r1 h
          simp at h
          rw [← h.2]
          exact ⟨lineInv_of_same r _ hinv rfl rfl rfl, hexc, rfl⟩
        · intro n h; simp at h
      · cases b with
        | false =>
          by_cases hline : '(' ∈ (splitLine r.in_.unread).1
          · rw [getFrameLoop_header_accepted k r frame hg hun hline]
            exact ih _ _ true hexc (lineInv_consume r _ hinv hun hsize rfl rfl) hsize
          · rw [getFrameLoop_header_rejected k r frame hg hun hline]
            constructor
            · intro f r1 h; simp at h
            · intro n h
              simp at h
              obtain ⟨done, rest, h1, h2⟩ := lineInv_index r hinv hun
              exact ⟨done, _, rest, h1, by rw [← h, h2], hline⟩
        | true =>
          by_cases hline : '[' ∈ (splitLine r.in_.unread).1
          · rw [getFrameLoop_cluster_accepted k r frame hg hun hline]
            exact ih _ _ true hexc (lineInv_consume r _ hinv hun hsize rfl rfl) hsize
          · rw [getFrameLoop_terminator k r frame hg hun hline]
            constructor
            · intro f r1 h
              simp at h
              rw [← h.2]
              exact ⟨lineInv_consume r _ hinv hun hsize rfl rfl, hexc, rfl⟩
            · intro n h; simp at h

/-- The method `getFrame` keeps the line counter right, and the line number in
its malformed-header error is the index of a line without `(`. -/
theorem getFrame_lineInv (r : TextFileReader) (hexc : r.in_.exceptions = true) (hinv : LineInv r)
    (hsize : (textLines r.in_.data).length + 1 < 2 ^ 32) :
    (∀ f r1, r.getFrame = some (.ok (f, r1)) →
      LineInv r1 ∧ r1.in_.exceptions = true ∧ r1.in_.data = r.in_.data) ∧
    (∀ n, r.getFrame = some (.error (.missingMetadata n)) →
      ∃ done line rest, textLines r.in_.data = done ++ line :: rest ∧ n = done.length + 1 ∧
        '(' ∉ line) := by
  unfold TextFileReader.getFrame
  exact getFrameLoop_lineInv _ { r with currentPixelNumber_ := 0 } _ _ hexc
    (lineInv_of_same r _ hinv rfl rfl rfl) hsize

theorem endOfStream_error (r : TextFileReader) (e : Failure) (h : r.endOfStream = .error e) :
    e = .ios := by
  unfold TextFileReader.endOfStream IfStream.peek IfStream.setstate at h
  split at h
  · rename_i e1 hp
    simp at h
    rw [← h]
    split at hp
    · split at hp
      · split at hp
        · simp at hp; exact hp.symm
        · simp at hp
      · simp at hp
    · split at hp
      · simp at hp; exact hp.symm
      · simp at hp
  · simp at h

/-- The retrieval loop of `main` keeps the line counter right, and the line
number in a malformed-header error that ends it is the index of a line without
`(` in the file. -/
theorem retrievalLoop_lineInv (fuel : Nat) :
    ∀ (r : TextFileReader) (frames : List (Nat × Frame)) (frameNumber : Nat),
      r.in_.exceptions = true → LineInv r → (textLines r.in_.data).length + 1 < 2 ^ 32 →
      (∀ frames1 k r1, retrievalLoop fuel r frames frameNumber = some (frames1, .ok (k, r1)) →
        LineInv r1) ∧
      (∀ frames1 n,
        retrievalLoop fuel r frames frameNumber = some (frames1, .error (.missingMetadata n)) →
        ∃ done line rest, textLines r.in_.data = done ++ line :: rest ∧ n = done.length + 1 ∧
          '(' ∉ line) := by
  induction fuel with
  | zero =>
    intro r frames frameNumber _ _ _
    constructor
    · intro frames1 k r1 h
      simp [retrievalLoop] at h
    · intro frames1 n h
      simp [retrievalLoop] at h
  | succ m ih =>
    intro r frames frameNumber hexc hinv hsize
    unfold retrievalLoop
    cases hg : r.in_.good with
    | false =>
      rw [endOfStream_of_not_good r hg hexc]
      constructor
      · intro frames1 k r1 h; simp at h
      · intro frames1 n h; simp at h
    | true =>
      by_cases hun : r.in_.unread = []
      · rw [endOfStream_of_exhausted r hg hun]
        constructor
        · intro frames1 k r1 h
          simp at h
          rw [← h.2.2]
          exact lineInv_of_same r _ hinv rfl rfl rfl
        · intro frames1 n h; simp at h
      · rw [endOfStream_of_unread r hg hun]
        simp only
        obtain ⟨hok, herr⟩ := getFrame_lineInv r hexc hinv hsize
        cases hgf : r.getFrame with
        | none =>
          constructor
          · intro frames1 k r1 h; simp at h
          · intro frames1 n h; simp at h
        | some res =>
          cases res with
          | error e =>
            constructor
            · intro frames1 k r1 h; simp at h
            · intro frames1 n h
              simp at h
              rw [h.2] at hgf
              exact herr n hgf
          | ok fr =>
            obtain ⟨f, r2⟩ := fr
            obtain ⟨hinv2, hexc2, hdata2⟩ := hok f r2 hgf
            have := ih r2 (mapSet frameNumber f frames) ((frameNumber + 1) % 2 ^ 32) hexc2 hinv2
              (by rw [hdata2]; exact hsize)
            rw [hdata2] at this
            exact this

/-- After `open` on a closed reader the line counter is right: no line is done
and `lineNumber_` is 1. -/
theorem open_lineInv (r0 r : TextFileReader) (file : File) (hclosed : r0.in_.isOpen = false)
    (hopen : r0.open (some file) = .ok r) :
    LineInv r ∧ r.in_.exceptions = true ∧ r.in_.data = file.content := by
  unfold TextFileReader.open at hopen
  simp only [hclosed, Bool.false_eq_true, if_false] at hopen
  split at hopen
  · split at hopen
    · simp at hopen
    · simp only [Except.ok.injEq] at hopen
      rw [← hopen]
      refine ⟨⟨[], ?_, rfl⟩, rfl, rfl⟩
      simp [IfStream.unread]
  · simp at hopen

/-- The header classification keeps the line counter right, whatever it
answers: true consumes one line and adds one, false consumes none and adds
none. -/
theorem parseMetadataString_lineInv (s s1 : TextFileReader) (frame f1 : Frame) (b : Bool)
    (hexc : s.in_.exceptions = true) (hinv : LineInv s)
    (hsize : (textLines s.in_.data).length + 1 < 2 ^ 32)
    (h : s.parseMetadataString frame = .ok (b, s1, f1)) :
    s1.in_.exceptions = true ∧ s1.in_.data = s.in_.data ∧ LineInv s1 := by
  cases hg : s.in_.good with
  | false =>
    unfold TextFileReader.parseMetadataString at h
    rw [endOfStream_of_not_good s hg hexc] at h
    split at h <;> simp at h
  | true =>
    by_cases hun : s.in_.unread = []
    · unfold TextFileReader.parseMetadataString at h
      rw [endOfStream_of_exhausted s hg hun] at h
      split at h
      · simp at h
      · simp at h
        rw [← h.2.1]
        exact ⟨hexc, rfl, lineInv_of_same s _ hinv rfl rfl rfl⟩
    · rw [parseMetadataString_of_unread s frame hg hun] at h
      split at h
      · simp at h
        rw [← h.2.1]
        exact ⟨hexc, rfl, hinv⟩
      · simp at h
        rw [← h.2.1]
        exact ⟨hexc, rfl, lineInv_consume s _ hinv hun hsize rfl rfl⟩

/-- The cluster classification keeps the line counter right, whatever it
answers. -/
theorem parseClusterString_lineInv (s s1 : TextFileReader) (frame f1 : Frame) (b : Bool)
    (hexc : s.in_.exceptions = true) (hinv : LineInv s)
    (hsize : (textLines s.in_.data).length + 1 < 2 ^ 32)
    (h : s.parseClusterString frame = .ok (b, s1, f1)) :
    s1.in_.exceptions = true ∧ s1.in_.data = s.in_.data ∧ LineInv s1 := by
  cases hg : s.in_.good with
  | false =>
    unfold TextFileReader.parseClusterString at h
    rw [endOfStream_of_not_good s hg hexc] at h
    split at h <;> simp at h
  | true =>
    by_cases hun : s.in_.unread = []
    · unfold TextFileReader.parseClusterString at h
      rw [endOfStream_of_exhausted s hg hun] at h
      split at h
      · simp at h
      · simp at h
        rw [← h.2.1]
        exact ⟨hexc, rfl, lineInv_of_same s _ hinv rfl rfl rfl⟩
    · rw [parseClusterString_of_unread s frame hg hun] at h
      split at h
      · simp at h
        rw [← h.2.1]
        exact ⟨hexc, rfl, hinv⟩
      · simp at h
        rw [← h.2.1]
        exact ⟨hexc, rfl, lineInv_consume s _ hinv hun hsize rfl rfl⟩

/-- The method `eatLine` keeps the line counter right: it consumes one line and
adds one (nothing at the end of the file). -/
theorem eatLine_lineInv (s s1 : TextFileReader)
    (hexc : s.in_.exceptions = true) (hinv : LineInv s)
    (hsize : (textLines s.in_.data).length + 1 < 2 ^ 32)
    (h : s.eatLine = .ok s1) :
    s1.in_.exceptions = true ∧ s1.in_.data = s.in_.data ∧ LineInv s1 := by
  cases hg : s.in_.good with
  | false =>
    unfold TextFileReader.eatLine at h
    rw [endOfStream_of_not_good s hg hexc] at h
    split at h <;> simp at h
  | true =>
    by_cases hun : s.in_.unread = []
    · unfold TextFileReader.eatLine at h
      rw [endOfStream_of_exhausted s hg hun] at h
      split at h
      · simp at h
      · simp at h
        rw [← h]
        exact ⟨hexc, rfl, lineInv_of_same s _ hinv rfl rfl rfl⟩
    · rw [eatLine_of_unread s hg hun] at h
      simp at h
      rw [← h]
      exact ⟨hexc, rfl, lineInv_consume s _ hinv hun hsize rfl rfl⟩

/-- Inside a frame the loop of `getFrame` never raises the malformed-header
error: only the first line that a call of `getFrame` reads is tested for `(`. -/
theorem getFrameLoop_inFrame_no_header_error (fuel : Nat) :
    ∀ (r : TextFileReader) (frame : Frame) (n : Nat), r.in_.exceptions = true →
      TextFileReader.getFrameLoop fuel r frame true ≠ some (.error (.missingMetadata n)) := by
  induction fuel with
  | zero =>
    intro r frame n _ h
    simp [TextFileReader.getFrameLoop] at h
  | succ k ih =>
    intro r frame n hexc h
    cases hg : r.in_.good with
    | false =>
      rw [getFrameLoop_not_good k r frame true hg hexc] at h
      simp at h
    | true =>
      by_cases hun : r.in_.unread = []
      · rw [getFrameLoop_exhausted k r frame true hg hun] at h
        simp at h
      · by_cases hline : '[' ∈ (splitLine r.in_.unread).1
        · rw [getFrameLoop_cluster_accepted k r frame hg hun hline] at h
          refine ih _ _ n ?_ h
          exact hexc
        · rw [getFrameLoop_terminator k r frame hg hun hline] at h
          simp at h

/-- When `getFrame` fails with the malformed-header error, the offending line is
the first unread line at the call: it has no `(`, and the number in the error
is `lineNumber_` at the call. -/
theorem getFrame_header_error_inv (r : TextFileReader) (n : Nat)
    (hexc : r.in_.exceptions = true)
    (h : r.getFrame = some (.error (.missingMetadata n))) :
    r.in_.unread ≠ [] ∧ n = r.lineNumber_ ∧ '(' ∉ (splitLine r.in_.unread).1 := by
  unfold TextFileReader.getFrame at h
  cases hg : r.in_.good with
  | false =>
    rw [getFrameLoop_not_good _ { r with currentPixelNumber_ := 0 } _ _ hg hexc] at h
    simp at h
  | true =>
    by_cases hun : r.in_.unread = []
    · rw [getFrameLoop_exhausted _ { r with currentPixelNumber_ := 0 } _ _ hg hun] at h
      simp at h
    · by_cases hline : '(' ∈ (splitLine r.in_.unread).1
      · rw [getFrameLoop_header_accepted _ { r with currentPixelNumber_ := 0 } _ hg hun hline] at h
        refine absurd h (getFrameLoop_inFrame_no_header_error _ _ _ n ?_)
        exact hexc
      · rw [getFrameLoop_header_rejected _ { r with currentPixelNumber_ := 0 } _ hg hun hline] at h
        simp at h
        exact ⟨hun, h.symm, hline⟩

/-- When the retrieval loop of `main` is left by the malformed-header error, the
failing call of `getFrame` was made by the reader that some number `k` of
returned frames left behind; the offending line is the first unread line of
that reader, the lines before it are the lines consumed so far, and the number
in the error is their count plus 1. -/
theorem retrievalLoop_offending_line (fuel : Nat) :
    ∀ (r : TextFileReader) (frames : List (Nat × Frame)) (frameNumber : Nat),
      r.in_.exceptions = true → LineInv r → (textLines r.in_.data).length + 1 < 2 ^ 32 →
      ∀ frames1 n,
        retrievalLoop fuel r frames frameNumber = some (frames1, .error (.missingMetadata n)) →
        ∃ (k : Nat) (done : List (List Char)) (rest : List (List Char)),
          (Nat.iterate TextFileReader.afterGetFrame k r).getFrame
            = some (.error (.missingMetadata n)) ∧
          textLines r.in_.data
            = done ++ textLines (Nat.iterate TextFileReader.afterGetFrame k r).in_.unread ∧
          textLines (Nat.iterate TextFileReader.afterGetFrame k r).in_.unread
            = (splitLine (Nat.iterate TextFileReader.afterGetFrame k r).in_.unread).1 :: rest ∧
          n = done.length + 1 ∧
          '(' ∉ (splitLine (Nat.iterate TextFileReader.afterGetFrame k r).in_.unread).1 := by
  induction fuel with
  | zero =>
    intro r frames frameNumber _ _ _ frames1 n h
    simp [retrievalLoop] at h
  | succ m ih =>
    intro r frames frameNumber hexc hinv hsize frames1 n h
    unfold retrievalLoop at h
    cases hg : r.in_.good with
    | false =>
      rw [endOfStream_of_not_good r hg hexc] at h
      simp at h
    | true =>
      by_cases hun : r.in_.unread = []
      · rw [endOfStream_of_exhausted r hg hun] at h
        simp at h
      · rw [endOfStream_of_unread r hg hun] at h
        simp only at h
        cases hgf : r.getFrame with
        | none =>
          rw [hgf] at h
          simp at h
        | some res =>
          rw [hgf] at h
          cases res with
          | error e =>
            simp at h
            rw [h.2] at hgf
            obtain ⟨hun1, hn, hline⟩ := getFrame_header_error_inv r n hexc hgf
            obtain ⟨done, h1, h2⟩ := hinv
            refine ⟨0, done, textLines r.in_.afterLine.unread, hgf, h1,
              textLines_unread r.in_ hun1, by rw [hn, h2], hline⟩
          | ok fr =>
            obtain ⟨f, r2⟩ := fr
            simp only at h
            obtain ⟨hinv2, hexc2, hdata2⟩ := (getFrame_lineInv r hexc hinv hsize).1 f r2 hgf
            obtain ⟨k, done, rest, hk1, hk2, hk3, hk4, hk5⟩ :=
              ih r2 _ _ hexc2 hinv2 (by rw [hdata2]; exact hsize) frames1 n h
            have hstep : r.afterGetFrame = r2 := by
              unfold TextFileReader.afterGetFrame
              rw [hgf]
            refine ⟨k + 1, done, rest, ?_, ?_, ?_, hk4, ?_⟩
            · rw [Function.iterate_succ_apply, hstep]; exact hk1
            · rw [Function.iterate_succ_apply, hstep, ← hdata2]; exact hk2
            · rw [Function.iterate_succ_apply, hstep]; exact hk3
            · rw [Function.iterate_succ_apply, hstep]; exact hk5

/-- C24: after `open`, `lineNumber_` is 1 plus the number of lines consumed, and
every reader operation keeps it so: a header or a cluster classification that
succeeds and `eatLine` consume one line and add one, a failed classification
consumes none and adds none, and so `getFrame` and the whole retrieval loop keep
it.  Hence when the loop is ended by the malformed-header error, for whichever
frame, the offending line (the first unread line of the reader on which the
failing `getFrame` was called, a line without `(`) is preceded in the file by
exactly the lines consumed, and the number in the error is their count plus 1:
its 1-based index.  The file has fewer than `2^32 - 1` lines, `lineNumber_`
being an `unsigned int`. -/
theorem malformed_header_line_number (r0 r : TextFileReader) (file : File)
    (hclosed : r0.in_.isOpen = false) (hopen : r0.open (some file) = .ok r)
    (hsize : (textLines file.content).length + 1 < 2 ^ 32) :
    LineInv r ∧
    (∀ (s s1 : TextFileReader) (frame f1 : Frame) (b : Bool),
      s.in_.exceptions = true → s.in_.data = file.content → LineInv s →
      (s.parseMetadataString frame = .ok (b, s1, f1) ∨
        s.parseClusterString frame = .ok (b, s1, f1) ∨
        s.eatLine = .ok s1 ∨ s.getFrame = some (.ok (f1, s1))) →
      s1.in_.exceptions = true ∧ s1.in_.data = file.content ∧ LineInv s1) ∧
    (∀ frames k r1, retrieveFrames r = some (frames, .ok (k, r1)) → LineInv r1) ∧
    (∀ frames n, retrieveFrames r = some (frames, .error (.missingMetadata n)) →
      ∃ (k : Nat) (done : List (List Char)) (rest : List (List Char)),
        (Nat.iterate TextFileReader.afterGetFrame k r).getFrame
          = some (.error (.missingMetadata n)) ∧
        textLines file.content
          = done ++ textLines (Nat.iterate TextFileReader.afterGetFrame k r).in_.unread ∧
        textLines (Nat.iterate TextFileReader.afterGetFrame k r).in_.unread
          = (splitLine (Nat.iterate TextFileReader.afterGetFrame k r).in_.unread).1 :: rest ∧
        n = done.length + 1 ∧
        '(' ∉ (splitLine (Nat.iterate TextFileReader.afterGetFrame k r).in_.unread).1) := by
  obtain ⟨hinv, hexc, hdata⟩ := open_lineInv r0 r file hclosed hopen
  have hsize1 : (textLines r.in_.data).length + 1 < 2 ^ 32 := by rw [hdata]; exact hsize
  have h := retrievalLoop_lineInv (r.in_.data.length + 1) r [] 1 hexc hinv hsize1
  have h2 := retrievalLoop_offending_line (r.in_.data.length + 1) r [] 1 hexc hinv hsize1
  refine ⟨hinv, ?_, h.1, ?_⟩
  · intro s s1 frame f1 b hexcs hdatas hinvs hop
    have hsizes : (textLines s.in_.data).length + 1 < 2 ^ 32 := by rw [hdatas]; exact hsize
    rw [← hdatas]
    rcases hop with hop | hop | hop | hop
    · exact parseMetadataString_lineInv s s1 frame f1 b hexcs hinvs hsizes hop
    · exact parseClusterString_lineInv s s1 frame f1 b hexcs hinvs hsizes hop
    · exact eatLine_lineInv s s1 hexcs hinvs hsizes hop
    · obtain ⟨g1, g2, g3⟩ := (getFrame_lineInv s hexcs hinvs hsizes).1 f1 s1 hop
      exact ⟨g2, g3, g1⟩
  · intro frames n hfail
    rw [← hdata]
    exact h2 frames n hfail

theorem malformed_header_line_number_witness :
    (retrieveFrames (readerOn "Frame 1 (1.0 s, 0.5 s)\n[1, 2, 3]\n\nFrame 2 2.0 s\n[4, 5, 6]\n")).map
        Prod.snd = some (.error (.missingMetadata 4)) ∧
      ∃ done line rest,
        textLines (fileOf "Frame 1 (1.0 s, 0.5 s)\n[1, 2, 3]\n\nFrame 2 2.0 s\n[4, 5, 6]\n").content
          = done ++ line :: rest ∧ done.length = 3 ∧ line = "Frame 2 2.0 s".toList ∧
        '(' ∉ line := by
  have hm : (retrieveFrames
      (readerOn "Frame 1 (1.0 s, 0.5 s)\n[1, 2, 3]\n\nFrame 2 2.0 s\n[4, 5, 6]\n")).map Prod.snd
      = some (.error (.missingMetadata 4)) := by decide
  refine ⟨hm, ?_⟩
  rcases hr : retrieveFrames
      (readerOn "Frame 1 (1.0 s, 0.5 s)\n[1, 2, 3]\n\nFrame 2 2.0 s\n[4, 5, 6]\n") with _ | ⟨frames, res⟩
  · rw [hr] at hm
    simp at hm
  · rw [hr] at hm
    have hres : res = .error (.missingMetadata 4) := Option.some.inj hm
    subst hres
    obtain ⟨k, done, rest, _, h2, h3, h4, h5⟩ := (malformed_header_line_number TextFileReader.new
      (readerOn "Frame 1 (1.0 s, 0.5 s)\n[1, 2, 3]\n\nFrame 2 2.0 s\n[4, 5, 6]\n")
      (fileOf "Frame 1 (1.0 s, 0.5 s)\n[1, 2, 3]\n\nFrame 2 2.0 s\n[4, 5, 6]\n")
      (by decide) (by decide) (by decide)).2.2.2 frames 4 hr
    rw [h3] at h2
    have hlen : done.length = 3 := by omega
    have hdrop : (textLines
        (fileOf "Frame 1 (1.0 s, 0.5 s)\n[1, 2, 3]\n\nFrame 2 2.0 s\n[4, 5, 6]\n").content).drop 3
        = ["Frame 2 2.0 s".toList, "[4, 5, 6]".toList] := by decide
    rw [h2, ← hlen, List.drop_left] at hdrop
    exact ⟨done, _, rest, h2, hlen, (List.cons.inj hdrop).1, h5⟩

/-! ## Progress of the reading -/

theorem textLinesAux_length_le (l : List Char) :
    ∀ cur : List Char, (textLinesAux cur l).length ≤ l.length + 1 ∧
      (cur = [] → (textLinesAux cur l).length ≤ l.length) := by
  induction l with
  | nil =>
    intro cur
    constructor
    · unfold textLinesAux; split <;> simp
    · intro h; simp [textLinesAux, h]
  | cons c cs ih =>
    intro cur
    unfold textLinesAux
    split
    · have := (ih []).2 rfl
      simp
      omega
    · have := (ih (c :: cur)).1
      simp
      omega

theorem textLines_length_le (l : List Char) : (textLines l).length ≤ l.length :=
  (textLinesAux_length_le l []).2 rfl

/-- The loop of `getFrame` never gives lines back: a call that returns leaves at
most the lines that were unread before it, and a call that fails does so with
the malformed-header error or with the failure of the stream. -/
theorem getFrameLoop_progress (fuel : Nat) :
    ∀ (r : TextFileReader) (frame : Frame) (b : Bool), r.in_.exceptions = true →
      (∀ f r1, TextFileReader.getFrameLoop fuel r frame b = some (.ok (f, r1)) →
        r1.in_.exceptions = true ∧
          (textLines r1.in_.unread).length ≤ (textLines r.in_.unread).length) ∧
      (∀ e, TextFileReader.getFrameLoop fuel r frame b = some (.error e) →
        e = .ios ∨ ∃ n, e = .missingMetadata n) := by
  induction fuel with
  | zero =>
    intro r frame b _
    constructor
    · intro f r1 h
      simp [TextFileReader.getFrameLoop] at h
    · intro e h
      simp [TextFileReader.getFrameLoop] at h
  | succ k ih =>
    intro r frame b hexc
    cases hg : r.in_.good with
    | false =>
      rw [getFrameLoop_not_good k r frame b hg hexc]
      constructor
      · intro f r1 h; simp at h
      · intro e h
        simp at h
        exact Or.inl h.symm
    | true =>
      by_cases hun : r.in_.unread = []
      · rw [getFrameLoop_exhausted k r frame b hg hun]
        constructor
        · intro f r1 h
          simp at h
          rw [← h.2]
          exact ⟨hexc, Nat.le_refl _⟩
        · intro e h; simp at h
      · have hstep : (textLines r.in_.afterLine.unread).length
            ≤ (textLines r.in_.unread).length := by
          rw [textLines_unread r.in_ hun]; simp
        cases b with
        | false =>
          by_cases hline : '(' ∈ (splitLine r.in_.unread).1
          · rw [getFrameLoop_header_accepted k r frame hg hun hline]
            obtain ⟨h1, h2⟩ := ih
              { r with in_ := r.in_.afterLine, lineNumber_ := (r.lineNumber_ + 1) % 2 ^ 32 }
              (metadataFields (splitLine r.in_.unread).1 ((splitLine r.in_.unread).1.indexOf '(')
                frame) true hexc
            exact ⟨fun f r1 h => ⟨(h1 f r1 h).1, Nat.le_trans (h1 f r1 h).2 hstep⟩, h2⟩
          · rw [getFrameLoop_header_rejected k r frame hg hun hline]
            constructor
            · intro f r1 h; simp at h
            · intro e h
              simp at h
              exact Or.inr ⟨_, h.symm⟩
        | true =>
          by_cases hline : '[' ∈ (splitLine r.in_.unread).1
          · rw [getFrameLoop_cluster_accepted k r frame hg hun hline]
            obtain ⟨h1, h2⟩ := ih
              { r with in_ := r.in_.afterLine,
                       currentPixelNumber_ := (r.currentPixelNumber_ + 1) % 2 ^ 32,
                       lineNumber_ := (r.lineNumber_ + 1) % 2 ^ 32 }
              (frame.setPixel ((r.currentPixelNumber_ + 1) % 2 ^ 32)
                (clusterFields (splitLine r.in_.unread).1 ((splitLine r.in_.unread).1.indexOf '[')))
              true hexc
            exact ⟨fun f r1 h => ⟨(h1 f r1 h).1, Nat.le_trans (h1 f r1 h).2 hstep⟩, h2⟩
          · rw [getFrameLoop_terminator k r frame hg hun hline]
            constructor
            · intro f r1 h
              simp at h
              rw [← h.2]
              exact ⟨hexc, hstep⟩
            · intro e h; simp at h

/-- A call of `getFrame` made while `endOfStream()` is false (the stream is
`good()` and has unread bytes) and that returns has consumed at least one line;
one that fails does so with the malformed-header error or with the failure of
the stream. -/
theorem getFrame_progress (r : TextFileReader) (hgood : r.in_.good = true)
    (hun : r.in_.unread ≠ []) (hexc : r.in_.exceptions = true) :
    (∀ f r1, r.getFrame = some (.ok (f, r1)) →
      r1.in_.exceptions = true ∧
        (textLines r1.in_.unread).length < (textLines r.in_.unread).length) ∧
    (∀ e, r.getFrame = some (.error e) → e = .ios ∨ ∃ n, e = .missingMetadata n) := by
  unfold TextFileReader.getFrame
  by_cases hline : '(' ∈ (splitLine r.in_.unread).1
  · rw [getFrameLoop_header_accepted _ { r with currentPixelNumber_ := 0 } _ hgood hun hline]
    obtain ⟨h1, h2⟩ := getFrameLoop_progress r.in_.data.length
      { r with in_ := r.in_.afterLine, currentPixelNumber_ := 0,
               lineNumber_ := (r.lineNumber_ + 1) % 2 ^ 32 }
      (metadataFields (splitLine r.in_.unread).1 ((splitLine r.in_.unread).1.indexOf '(')
        Frame.default) true hexc
    have hstep : (textLines r.in_.afterLine.unread).length
        < (textLines r.in_.unread).length := by
      rw [textLines_unread r.in_ hun]; simp
    exact ⟨fun f r1 h => ⟨(h1 f r1 h).1, Nat.lt_of_le_of_lt (h1 f r1 h).2 hstep⟩, h2⟩
  · rw [getFrameLoop_header_rejected _ { r with currentPixelNumber_ := 0 } _ hgood hun hline]
    constructor
    · intro f r1 h; simp at h
    · intro e h
      simp at h
      exact Or.inr ⟨_, h.symm⟩

/-- The retrieval loop of `main` ends, normally or by an exception, within one
more evaluation of its condition than the input has unread lines: it calls
`getFrame` at most once for each line. -/
theorem retrievalLoop_terminates (fuel : Nat) :
    ∀ (r : TextFileReader) (frames : List (Nat × Frame)) (frameNumber : Nat),
      r.in_.exceptions = true → (textLines r.in_.unread).length < fuel →
      (retrievalLoop fuel r frames frameNumber).isSome = true := by
  induction fuel with
  | zero => intro r frames frameNumber _ h; omega
  | succ k ih =>
    intro r frames frameNumber hexc hlen
    unfold retrievalLoop
    cases hg : r.in_.good with
    | false => rw [endOfStream_of_not_good r hg hexc]; rfl
    | true =>
      by_cases hun : r.in_.unread = []
      · rw [endOfStream_of_exhausted r hg hun]; rfl
      · rw [endOfStream_of_unread r hg hun]
        simp only
        obtain ⟨hok, _⟩ := getFrame_progress r hg hun hexc
        cases hgf : r.getFrame with
        | none =>
          have := getFrame_isSome r
          rw [hgf] at this
          simp at this
        | some res =>
          cases res with
          | error e => rfl
          | ok fr =>
            obtain ⟨f, r2⟩ := fr
            obtain ⟨hexc2, hlt⟩ := hok f r2 hgf
            exact ih r2 _ _ hexc2 (by omega)

/-- The frame retrieval of `main` ends on every opened input. -/
theorem retrieveFrames_terminates (r : TextFileReader) (hexc : r.in_.exceptions = true) :
    (retrieveFrames r).isSome = true := by
  unfold retrieveFrames
  apply retrievalLoop_terminates _ r [] 1 hexc
  have h1 := textLines_length_le r.in_.unread
  have h2 := unread_length_le r.in_
  omega

/-- C25: on a file whose last cluster line has no newline, `endOfStream()` is
false at the start, yet the call of `getFrame` neither fails with the
malformed-header error nor returns: it ends in the failure of the stream, and
the retrieval loop of `main` is left by that exception with no frame stored.
With the newline at the end the same call returns, the cursor at byte 44. -/
theorem getFrame_neither_header_error_nor_return :
    (readerOn "Frame 7 (2.0 s, 0.25 s)\n[4, 5, 6]\n[7, 8, 9]").endOfStream.map Prod.fst
      = .ok false ∧
    (readerOn "Frame 7 (2.0 s, 0.25 s)\n[4, 5, 6]\n[7, 8, 9]").getFrame = some (.error .ios) ∧
    retrieveFrames (readerOn "Frame 7 (2.0 s, 0.25 s)\n[4, 5, 6]\n[7, 8, 9]")
      = some ([], .error .ios) ∧
    (readerOn "Frame 7 (2.0 s, 0.25 s)\n[4, 5, 6]\n[7, 8, 9]\n").getFrame.map
      (fun res => res.map (fun p => p.2.in_.pos)) = some (.ok 44) := by
  decide

end Lolcat
